import Mathlib

/-!
# Contact constraint of the impulse-based constraint solver

A shallow embedding of `dart/constraint/ContactConstraint.cpp`.

* A `double` is an element of a linearly ordered field `K` (exact arithmetic);
  every definition is computable at `K = ℚ`.
* A `double*` buffer is a total map `Nat → K`; an `int*` buffer is `Nat → Int`.
* `dInfinity` is the top element of `WithTop K` (only the `hi` buffer holds it).
* A failed `assert` makes the operation return `none`.
* Body nodes and skeletons live in a store indexed by `Nat` (the pointer).
-/

namespace Dart

/-! ## Vectors -/

/-- Three doubles, the model of `Eigen::Vector3d`. -/
@[ext]
structure Vector3d (K : Type) where
  x : K
  y : K
  z : K
deriving DecidableEq, Repr

/-- Six doubles, the model of `Eigen::Vector6d`: `head` is `head<3>()`, `tail` is `tail<3>()`. -/
@[ext]
structure Vector6d (K : Type) where
  head : Vector3d K
  tail : Vector3d K
deriving DecidableEq, Repr

/-- A 3x3 matrix given by its rows. -/
structure Matrix3d (K : Type) where
  row0 : Vector3d K
  row1 : Vector3d K
  row2 : Vector3d K
deriving DecidableEq, Repr

/-- The model of `Eigen::Isometry3d`: rotation part and translation part. -/
structure Isometry3d (K : Type) where
  linear : Matrix3d K
  translation : Vector3d K
deriving DecidableEq, Repr

section Algebra

variable {K : Type} [LinearOrderedField K]

namespace Vector3d

def zero : Vector3d K := ⟨0, 0, 0⟩
def UnitX : Vector3d K := ⟨1, 0, 0⟩
def UnitZ : Vector3d K := ⟨0, 0, 1⟩
def add (a b : Vector3d K) : Vector3d K := ⟨a.x + b.x, a.y + b.y, a.z + b.z⟩
def sub (a b : Vector3d K) : Vector3d K := ⟨a.x - b.x, a.y - b.y, a.z - b.z⟩
def neg (a : Vector3d K) : Vector3d K := ⟨-a.x, -a.y, -a.z⟩
def smul (s : K) (a : Vector3d K) : Vector3d K := ⟨s * a.x, s * a.y, s * a.z⟩
def dot (a b : Vector3d K) : K := a.x * b.x + a.y * b.y + a.z * b.z
def cross (a b : Vector3d K) : Vector3d K :=
  ⟨a.y * b.z - a.z * b.y, a.z * b.x - a.x * b.z, a.x * b.y - a.y * b.x⟩
def squaredNorm (a : Vector3d K) : K := a.dot a

end Vector3d

namespace Vector6d

def zero : Vector6d K := ⟨Vector3d.zero, Vector3d.zero⟩
def add (a b : Vector6d K) : Vector6d K := ⟨a.head.add b.head, a.tail.add b.tail⟩
def smul (s : K) (a : Vector6d K) : Vector6d K := ⟨Vector3d.smul s a.head, Vector3d.smul s a.tail⟩
def dot (a b : Vector6d K) : K := a.head.dot b.head + a.tail.dot b.tail

end Vector6d

namespace Matrix3d

/-- The product `M * v`. -/
def mulVec (m : Matrix3d K) (v : Vector3d K) : Vector3d K :=
  ⟨m.row0.dot v, m.row1.dot v, m.row2.dot v⟩

/-- The product `M.transpose() * v`. -/
def transposeMulVec (m : Matrix3d K) (v : Vector3d K) : Vector3d K :=
  ⟨m.row0.x * v.x + m.row1.x * v.y + m.row2.x * v.z,
   m.row0.y * v.x + m.row1.y * v.y + m.row2.y * v.z,
   m.row0.z * v.x + m.row1.z * v.y + m.row2.z * v.z⟩

/-- The column `j` of a matrix as a vector: `j = 0, 1, 2`. -/
def col0 (m : Matrix3d K) : Vector3d K := ⟨m.row0.x, m.row1.x, m.row2.x⟩
def col1 (m : Matrix3d K) : Vector3d K := ⟨m.row0.y, m.row1.y, m.row2.y⟩
def col2 (m : Matrix3d K) : Vector3d K := ⟨m.row0.z, m.row1.z, m.row2.z⟩

/-- The matrix product `A * B`. -/
def mul (a b : Matrix3d K) : Matrix3d K :=
  ⟨⟨a.row0.dot b.col0, a.row0.dot b.col1, a.row0.dot b.col2⟩,
   ⟨a.row1.dot b.col0, a.row1.dot b.col1, a.row1.dot b.col2⟩,
   ⟨a.row2.dot b.col0, a.row2.dot b.col1, a.row2.dot b.col2⟩⟩

end Matrix3d

namespace Isometry3d

/-- The product `T.inverse() * p` of an isometry: `Rᵀ (p - t)`. -/
def inverseMulPoint (t : Isometry3d K) (p : Vector3d K) : Vector3d K :=
  t.linear.transposeMulVec (p.sub t.translation)

end Isometry3d

end Algebra

/-! ## Constants of `ContactConstraint.cpp` -/

section Constants

variable {K : Type} [LinearOrderedField K]

def DART_ERROR_ALLOWANCE : K := 0
def DART_ERP : K := 1 / 100
def DART_MAX_ERV : K := 10
def DART_CFM : K := 1 / 100000
def DART_RESTITUTION_COEFF_THRESHOLD : K := 1 / 1000
def DART_FRICTION_COEFF_THRESHOLD : K := 1 / 1000
def DART_BOUNCING_VELOCITY_THRESHOLD : K := 1 / 10
def DART_MAX_BOUNCING_VELOCITY : K := 100
def DART_CONTACT_CONSTRAINT_EPSILON : K := 1 / 1000000

/-- Modelled from the spec: `DART_EPSILON` of `dart/math/Helpers.h`, the tolerance `1e-6` of
the tangent-basis invariant. -/
def DART_EPSILON : K := 1 / 1000000

/-- The value `dInfinity` of the LCP solver, the upper bound of a normal impulse. -/
def dInfinity : WithTop K := ⊤

end Constants

/-! ## Data model -/

/-- The fields of a `dynamics::BodyNode` that the contact constraint reads or writes. -/
structure BodyNode (K : Type) where
  /-- Value of `getRestitutionCoeff()`. -/
  mRestitutionCoeff : K
  /-- Value of `getFrictionCoeff()`. -/
  mFrictionCoeff : K
  /-- Value of `getWorldTransform()`. -/
  mW : Isometry3d K
  /-- Value of `isImpulseReponsible()`. -/
  impulseReponsible : Bool
  /-- Value of `getSkeleton()`, a skeleton pointer. -/
  mSkeleton : Nat
  /-- Value of `getBodyVelocity()`. -/
  mV : Vector6d K
  /-- Value of `getBodyVelocityChange()`. -/
  mDelV : Vector6d K
  /-- The accumulator written by `addConstraintImpulse`. -/
  mConstraintImpulse : Vector6d K

/-- The fields of a `dynamics::Skeleton` that the contact constraint reads or writes. -/
structure Skeleton where
  mUnionRootSkeleton : Nat
  mUnionSize : Nat
  mIsImpulseApplied : Bool
deriving DecidableEq, Repr

/-- The heap: body nodes and skeletons addressed by pointer. -/
structure World (K : Type) where
  bodies : Nat → BodyNode K
  skeletons : Nat → Skeleton

/-- The record `collision::Contact`. -/
structure Contact (K : Type) where
  point : Vector3d K
  normal : Vector3d K
  penetrationDepth : K
  bodyNode1 : Nat
  bodyNode2 : Nat
deriving DecidableEq

/-- The static members of `ContactConstraint`, shared by all constraints. -/
structure Params (K : Type) where
  mErrorAllowance : K
  mErrorReductionParameter : K
  mMaxErrorReductionVelocity : K
  mConstraintForceMixing : K

/-- The object `ContactConstraint`. `mAppliedImpulseIndex` is a `size_t` initialised from `-1`;
`none` stands for that out-of-range value. -/
structure ContactConstraint (K : Type) where
  mContacts : List (Contact K)
  mBodyNode1 : Nat
  mBodyNode2 : Nat
  mFirstFrictionalDirection : Vector3d K
  mRestitutionCoeff : K
  mFrictionCoeff : K
  mIsFrictionOn : Bool
  mIsBounceOn : Bool
  mAppliedImpulseIndex : Option Nat
  mActive : Bool
  mDim : Nat
  mJacobians1 : List (Vector6d K)
  mJacobians2 : List (Vector6d K)
deriving DecidableEq

/-- The record `ConstraintInfo` handed to `getInformation`: the rows of this constraint inside
the solver's buffers, and the inverse time step. -/
structure ConstraintInfo (K : Type) where
  x : Nat → K
  lo : Nat → K
  hi : Nat → WithTop K
  b : Nat → K
  w : Nat → K
  findex : Nat → Int
  invTimeStep : K

/-- The fields of a `dynamics::GenCoord` the joints read or write: position `q`, velocity `v`
and the position limits. -/
structure GenCoord (K : Type) where
  pos : K
  vel : K
  posMin : K
  posMax : K
deriving DecidableEq

/-- The fields of a `dynamics::Joint` behind the spring and damping forces. -/
structure Joint (K : Type) where
  mGenCoords : List (GenCoord K)
  mSpringStiffness : List K
  mDampingCoefficient : List K
  mRestPosition : List K
deriving DecidableEq

/-- The object `dynamics::BallJoint`: a joint with its rotation `mR`. -/
structure BallJoint (K : Type) extends Joint K where
  mR : Isometry3d K
deriving DecidableEq

/-- A libccd quaternion `ccd_quat_t`. -/
structure Quat (K : Type) where
  x : K
  y : K
  z : K
  w : K
deriving DecidableEq

/-- The base object `ccd_obj_t`: position, rotation and inverse rotation. -/
structure ccd_obj_t (K : Type) where
  pos : Vector3d K
  rot : Quat K
  rot_inv : Quat K
deriving DecidableEq

/-- The object `ccd_box_t`; `dim0`, `dim1`, `dim2` are `dim[0]`, `dim[1]`, `dim[2]`. -/
structure ccd_box_t (K : Type) extends ccd_obj_t K where
  dim0 : K
  dim1 : K
  dim2 : K
deriving DecidableEq

/-- The object `ccd_cap_t`. -/
structure ccd_cap_t (K : Type) extends ccd_obj_t K where
  radius : K
  height : K
deriving DecidableEq

/-- The object `ccd_cyl_t`. -/
structure ccd_cyl_t (K : Type) extends ccd_obj_t K where
  radius : K
  height : K
deriving DecidableEq

/-- The object `ccd_cone_t`. -/
structure ccd_cone_t (K : Type) extends ccd_obj_t K where
  radius : K
  height : K
deriving DecidableEq

/-- The shape `Convex`: its centre and its `num_points` vertices in storage order. -/
structure Convex (K : Type) where
  center : Vector3d K
  points : List (Vector3d K)
deriving DecidableEq

/-- The object `ccd_convex_t`. -/
structure ccd_convex_t (K : Type) extends ccd_obj_t K where
  convex : Convex K
deriving DecidableEq

/-- The fields of the libccd configuration `ccd_t` that `ccdCollide` sets. -/
structure ccd_t (K : Type) (Obj : Type) where
  support1 : Obj → Vector3d K → Vector3d K
  support2 : Obj → Vector3d K → Vector3d K
  center1 : Obj → Vector3d K
  center2 : Obj → Vector3d K
  max_iterations : Nat
  mpr_tolerance : K

/-- What `ccdMPRPenetration` hands back: its status and the outputs `depth`, `dir`, `pos`. -/
structure MprPenetration (K : Type) where
  status : Int
  depth : K
  dir : Vector3d K
  pos : Vector3d K

/-- The two MPR queries of libccd, taken as they are. -/
structure MprLib (K : Type) (Obj : Type) where
  ccdMPRIntersect : Obj → Obj → ccd_t K Obj → Int
  ccdMPRPenetration : Obj → Obj → ccd_t K Obj → MprPenetration K

/-- The vectors of the walking-controller `State` (`apps/atlasRobot/State.cpp`), each an
`Eigen::VectorXd`. -/
structure State (K : Type) where
  mDesiredJointPositions : List K
  mDesiredJointPositionsBalance : List K
  mKp : List K
  mKd : List K
  mSagitalCd : List K
  mSagitalCv : List K
  mCoronalCd : List K
  mCoronalCv : List K
  mTorque : List K
deriving DecidableEq

/-- How a call of an indexed accessor of `State` ends: it returns (`ok`), its range assertion
rejects the index (`assertFailed`), or the assertion accepts the index and the access that
follows is outside the vector (`outOfBounds`). -/
inductive Indexed (α : Type) where
  | ok : α → Indexed α
  | assertFailed : Indexed α
  | outOfBounds : Indexed α
deriving DecidableEq

section Model

variable {K : Type} [LinearOrderedField K]

/-- The initial values of the static members. -/
def Params.default : Params K :=
  { mErrorAllowance := DART_ERROR_ALLOWANCE
    mErrorReductionParameter := DART_ERP
    mMaxErrorReductionVelocity := DART_MAX_ERV
    mConstraintForceMixing := DART_CFM }

/-- A `for (size_t i = 0; i < n; ++i)` loop over a state. -/
def forLoop {σ : Type} (n : Nat) (body : Nat → σ → σ) (s : σ) : σ :=
  (List.range n).foldl (fun acc i => body i acc) s

/-- Element `i` of a Jacobian array. -/
def jacobianAt (js : List (Vector6d K)) (i : Nat) : Vector6d K :=
  js.getD i Vector6d.zero

/-- One iteration of the loop of `ContactConstraint::getRelVelocity`. -/
def getRelVelocityStep (c : ContactConstraint K) (wd : World K) (i : Nat) (relVel : Nat → K) :
    Nat → K :=
  let r0 := Function.update relVel i 0
  let r1 :=
    if (wd.bodies c.mBodyNode1).impulseReponsible then
      Function.update r0 i
        (r0 i - (jacobianAt c.mJacobians1 i).dot (wd.bodies c.mBodyNode1).mV)
    else r0
  if (wd.bodies c.mBodyNode2).impulseReponsible then
    Function.update r1 i
      (r1 i - (jacobianAt c.mJacobians2 i).dot (wd.bodies c.mBodyNode2).mV)
  else r1

/-- The method `ContactConstraint::getRelVelocity`. -/
def getRelVelocity (c : ContactConstraint K) (wd : World K) (relVel : Nat → K) : Nat → K :=
  forLoop c.mDim (getRelVelocityStep c wd) relVel

/-- Part A of the bouncing block of `getInformation`, the penetration correction, given the
error allowance and the maximum error-reduction velocity the branch uses. -/
def penetrationCorrection (depth allowance erp invTimeStep maxErv : K) : K :=
  let bouncingVelocity := depth - allowance
  if bouncingVelocity < 0 then 0
  else
    let bouncingVelocity := bouncingVelocity * (erp * invTimeStep)
    if bouncingVelocity > maxErv then maxErv else bouncingVelocity

/-- Part B of the bouncing block of `getInformation`, the restitution, applied to the value
`bouncingVelocity` left by part A. -/
def restitution (isBounceOn : Bool) (restitutionCoeff negativeRelativeVel bouncingVelocity : K) :
    K :=
  if isBounceOn then
    let restitutionVel := negativeRelativeVel * restitutionCoeff
    if restitutionVel > DART_BOUNCING_VELOCITY_THRESHOLD then
      if restitutionVel > bouncingVelocity then
        if restitutionVel > DART_MAX_BOUNCING_VELOCITY then DART_MAX_BOUNCING_VELOCITY
        else restitutionVel
      else bouncingVelocity
    else bouncingVelocity
  else bouncingVelocity

/-- The value added to `b[index]` in the friction branch of `getInformation`. -/
def bouncingVelocityFriction (p : Params K) (c : ContactConstraint K) (ct : Contact K)
    (invTimeStep negativeRelativeVel : K) : K :=
  restitution c.mIsBounceOn c.mRestitutionCoeff negativeRelativeVel
    (penetrationCorrection ct.penetrationDepth p.mErrorAllowance p.mErrorReductionParameter
      invTimeStep p.mMaxErrorReductionVelocity)

/-- The value added to `b[i]` in the frictionless branch of `getInformation`. -/
def bouncingVelocityFrictionless (p : Params K) (c : ContactConstraint K) (ct : Contact K)
    (invTimeStep negativeRelativeVel : K) : K :=
  restitution c.mIsBounceOn c.mRestitutionCoeff negativeRelativeVel
    (penetrationCorrection ct.penetrationDepth DART_ERROR_ALLOWANCE p.mErrorReductionParameter
      invTimeStep DART_MAX_ERV)

/-- The loop of the friction branch of `getInformation`; `index` is the running row index. -/
def getInformationFriction (p : Params K) (c : ContactConstraint K) :
    List (Contact K) → Nat → ConstraintInfo K → Option (ConstraintInfo K)
  | [], _, info => some info
  | ct :: rest, index, info =>
    if info.w index = 0 ∧ info.w (index + 1) = 0 ∧ info.w (index + 2) = 0 then
      if info.findex index = -1 then
        let lo := Function.update info.lo index 0
        let hi := Function.update info.hi index dInfinity
        let lo := Function.update lo (index + 1) (-c.mFrictionCoeff)
        let hi := Function.update hi (index + 1) (c.mFrictionCoeff : WithTop K)
        let findex := Function.update info.findex (index + 1) (index : Int)
        let lo := Function.update lo (index + 2) (-c.mFrictionCoeff)
        let hi := Function.update hi (index + 2) (c.mFrictionCoeff : WithTop K)
        let findex := Function.update findex (index + 2) (index : Int)
        let b := Function.update info.b index
          (info.b index + bouncingVelocityFriction p c ct info.invTimeStep (info.b index))
        let x := Function.update info.x index 0
        let x := Function.update x (index + 1) 0
        let x := Function.update x (index + 2) 0
        getInformationFriction p c rest (index + 3)
          { info with x := x, lo := lo, hi := hi, b := b, findex := findex }
      else none
    else none

/-- The loop of the frictionless branch of `getInformation`; `i` is the loop counter. -/
def getInformationFrictionless (p : Params K) (c : ContactConstraint K) :
    List (Contact K) → Nat → ConstraintInfo K → Option (ConstraintInfo K)
  | [], _, info => some info
  | ct :: rest, i, info =>
    let w := Function.update info.w i 0
    let lo := Function.update info.lo i 0
    let hi := Function.update info.hi i dInfinity
    if info.findex i = -1 then
      let b := Function.update info.b i
        (info.b i + bouncingVelocityFrictionless p c ct info.invTimeStep (info.b i))
      let x := Function.update info.x i 0
      getInformationFrictionless p c rest (i + 1)
        { info with x := x, lo := lo, hi := hi, b := b, w := w }
    else none

/-- The method `ContactConstraint::getInformation`. -/
def getInformation (p : Params K) (c : ContactConstraint K) (wd : World K)
    (info : ConstraintInfo K) : Option (ConstraintInfo K) :=
  let info := { info with b := getRelVelocity c wd info.b }
  if c.mIsFrictionOn then getInformationFriction p c c.mContacts 0 info
  else getInformationFrictionless p c c.mContacts 0 info

/-! ### Tangent basis and constructor -/

/-- The floating-point library the tangent basis relies on: `std::sqrt`, and the values of
`std::cos` and `std::sin` at half of `DART_PI_HALF`, which `Eigen::Quaterniond` takes from the
angle-axis rotation. -/
structure FloatLib (K : Type) where
  sqrt : K → K
  cosQuarterPi : K
  sinQuarterPi : K

/-- The Eigen method `norm()`. -/
def Vector3d.norm (fl : FloatLib K) (v : Vector3d K) : K := fl.sqrt v.squaredNorm

/-- The Eigen methods `normalize()` and `normalized()`: division of every entry by the norm. -/
def Vector3d.normalized (fl : FloatLib K) (v : Vector3d K) : Vector3d K :=
  ⟨v.x / v.norm fl, v.y / v.norm fl, v.z / v.norm fl⟩

/-- The rotation `Eigen::Quaterniond(Eigen::AngleAxisd(DART_PI_HALF, axis)) * v`: the quaternion
has scalar part `cos(angle/2)` and vector part `sin(angle/2) * axis`, and the product with a
vector is `v + w * uv + vec.cross(uv)` with `uv = 2 * vec.cross(v)`. -/
def rotateHalfPi (fl : FloatLib K) (axis v : Vector3d K) : Vector3d K :=
  let qw := fl.cosQuarterPi
  let qvec := Vector3d.smul fl.sinQuarterPi axis
  let uv := qvec.cross v
  let uv := uv.add uv
  (v.add (Vector3d.smul qw uv)).add (qvec.cross uv)

/-- The method `ContactConstraint::setFrictionDirection`, as the new value of
`mFirstFrictionalDirection`. -/
def setFrictionDirection (fl : FloatLib K) (dir : Vector3d K) : Vector3d K :=
  dir.normalized fl

/-- The method `ContactConstraint::getTangentBasisMatrixODE`; the result is the pair of columns
of the 3x2 matrix. -/
def getTangentBasisMatrixODE (fl : FloatLib K) (mFirstFrictionalDirection n : Vector3d K) :
    Vector3d K × Vector3d K :=
  let tangent := mFirstFrictionalDirection.cross n
  let tangent :=
    if tangent.norm fl < DART_CONTACT_CONSTRAINT_EPSILON then Vector3d.UnitX.cross n else tangent
  let tangent := tangent.normalized fl
  (tangent, rotateHalfPi fl n tangent)

/-- The three tangent-basis assertions of the constructor. -/
def tangentBasisAsserts (n : Vector3d K) (D : Vector3d K × Vector3d K) : Prop :=
  |n.dot D.1| < DART_EPSILON ∧ |n.dot D.2| < DART_EPSILON ∧ |D.1.dot D.2| < DART_EPSILON

instance (n : Vector3d K) (D : Vector3d K × Vector3d K) : Decidable (tangentBasisAsserts n D) := by
  unfold tangentBasisAsserts; infer_instance

/-- The pair of Jacobians of one row: direction `dir` (world frame) at the contact point. -/
def rowJacobians (wd : World K) (b1 b2 : Nat) (ct : Contact K) (dir : Vector3d K) :
    Vector6d K × Vector6d K :=
  let bodyDirection1 := (wd.bodies b1).mW.linear.transposeMulVec dir
  let bodyDirection2 := (wd.bodies b2).mW.linear.transposeMulVec dir.neg
  let bodyPoint1 := (wd.bodies b1).mW.inverseMulPoint ct.point
  let bodyPoint2 := (wd.bodies b2).mW.inverseMulPoint ct.point
  (⟨bodyPoint1.cross bodyDirection1, bodyDirection1⟩,
   ⟨bodyPoint2.cross bodyDirection2, bodyDirection2⟩)

/-- The Jacobian loop of the constructor, friction case: three rows per contact. -/
def jacobiansFriction (fl : FloatLib K) (wd : World K) (b1 b2 : Nat)
    (mFirstFrictionalDirection : Vector3d K) :
    List (Contact K) → Option (List (Vector6d K) × List (Vector6d K))
  | [] => some ([], [])
  | ct :: rest =>
    let D := getTangentBasisMatrixODE fl mFirstFrictionalDirection ct.normal
    if tangentBasisAsserts ct.normal D then
      let jn := rowJacobians wd b1 b2 ct ct.normal
      let j1 := rowJacobians wd b1 b2 ct D.1
      let j2 := rowJacobians wd b1 b2 ct D.2
      match jacobiansFriction fl wd b1 b2 mFirstFrictionalDirection rest with
      | some (r1, r2) => some (jn.1 :: j1.1 :: j2.1 :: r1, jn.2 :: j1.2 :: j2.2 :: r2)
      | none => none
    else none

/-- The Jacobian loop of the constructor, frictionless case: one row per contact. -/
def jacobiansFrictionless (wd : World K) (b1 b2 : Nat) :
    List (Contact K) → List (Vector6d K) × List (Vector6d K)
  | [] => ([], [])
  | ct :: rest =>
    let jn := rowJacobians wd b1 b2 ct ct.normal
    let r := jacobiansFrictionless wd b1 b2 rest
    (jn.1 :: r.1, jn.2 :: r.2)

/-- The constructor `ContactConstraint::ContactConstraint(const collision::Contact&)`. -/
def ContactConstraint.ctor (fl : FloatLib K) (wd : World K) (contact : Contact K) :
    Option (ContactConstraint K) :=
  let mFirstFrictionalDirection : Vector3d K := Vector3d.UnitZ
  let mContacts := [contact]
  let mBodyNode1 := contact.bodyNode1
  let mBodyNode2 := contact.bodyNode2
  let mRestitutionCoeff :=
    (wd.bodies mBodyNode1).mRestitutionCoeff * (wd.bodies mBodyNode2).mRestitutionCoeff
  let mIsBounceOn : Bool :=
    if mRestitutionCoeff > DART_RESTITUTION_COEFF_THRESHOLD then true else false
  let mFrictionCoeff :=
    min (wd.bodies mBodyNode1).mFrictionCoeff (wd.bodies mBodyNode2).mFrictionCoeff
  let mIsFrictionOn : Bool :=
    if mFrictionCoeff > DART_FRICTION_COEFF_THRESHOLD then true else false
  if mIsFrictionOn then
    match jacobiansFriction fl wd mBodyNode1 mBodyNode2 mFirstFrictionalDirection mContacts with
    | some (j1, j2) =>
      some
        { mContacts := mContacts, mBodyNode1 := mBodyNode1, mBodyNode2 := mBodyNode2,
          mFirstFrictionalDirection := mFirstFrictionalDirection,
          mRestitutionCoeff := mRestitutionCoeff, mFrictionCoeff := mFrictionCoeff,
          mIsFrictionOn := mIsFrictionOn, mIsBounceOn := mIsBounceOn,
          mAppliedImpulseIndex := none, mActive := false,
          mDim := mContacts.length * 3, mJacobians1 := j1, mJacobians2 := j2 }
    | none => none
  else
    let js := jacobiansFrictionless wd mBodyNode1 mBodyNode2 mContacts
    some
      { mContacts := mContacts, mBodyNode1 := mBodyNode1, mBodyNode2 := mBodyNode2,
        mFirstFrictionalDirection := mFirstFrictionalDirection,
        mRestitutionCoeff := mRestitutionCoeff, mFrictionCoeff := mFrictionCoeff,
        mIsFrictionOn := mIsFrictionOn, mIsBounceOn := mIsBounceOn,
        mAppliedImpulseIndex := none, mActive := false,
        mDim := mContacts.length, mJacobians1 := js.1, mJacobians2 := js.2 }

/-- The method `ContactConstraint::update`. -/
def update (c : ContactConstraint K) (wd : World K) : ContactConstraint K :=
  if (wd.bodies c.mBodyNode1).impulseReponsible = true ∨
      (wd.bodies c.mBodyNode2).impulseReponsible = true then
    { c with mActive := true }
  else { c with mActive := false }

/-! ### Impulses -/

/-- The methods of `dynamics::Skeleton` that `applyUnitImpulse` calls; their bodies belong to the
articulated-body solver and are taken as they are. The first argument is the skeleton. -/
structure SkeletonOps (K : Type) where
  clearConstraintImpulses : Nat → World K → World K
  updateBiasImpulse : Nat → Nat → Vector6d K → World K → World K
  updateVelocityChange : Nat → World K → World K

/-- The method `ContactConstraint::applyUnitImpulse`. -/
def applyUnitImpulse (ops : SkeletonOps K) (c : ContactConstraint K) (wd : World K) (idx : Nat) :
    Option (World K × ContactConstraint K) :=
  if idx < c.mDim ∧ c.mActive = true ∧
      ((wd.bodies c.mBodyNode1).impulseReponsible = true ∨
        (wd.bodies c.mBodyNode2).impulseReponsible = true) then
    let wd1 :=
      if (wd.bodies c.mBodyNode1).mSkeleton = (wd.bodies c.mBodyNode2).mSkeleton then
        let s0 := ops.clearConstraintImpulses (wd.bodies c.mBodyNode1).mSkeleton wd
        let s1 :=
          if (s0.bodies c.mBodyNode1).impulseReponsible then
            ops.updateBiasImpulse (s0.bodies c.mBodyNode1).mSkeleton c.mBodyNode1
              (jacobianAt c.mJacobians1 idx) s0
          else s0
        let s2 :=
          if (s1.bodies c.mBodyNode2).impulseReponsible then
            ops.updateBiasImpulse (s1.bodies c.mBodyNode2).mSkeleton c.mBodyNode2
              (jacobianAt c.mJacobians2 idx) s1
          else s1
        ops.updateVelocityChange (s2.bodies c.mBodyNode1).mSkeleton s2
      else
        let s1 :=
          if (wd.bodies c.mBodyNode1).impulseReponsible then
            let t0 := ops.clearConstraintImpulses (wd.bodies c.mBodyNode1).mSkeleton wd
            let t1 := ops.updateBiasImpulse (t0.bodies c.mBodyNode1).mSkeleton c.mBodyNode1
              (jacobianAt c.mJacobians1 idx) t0
            ops.updateVelocityChange (t1.bodies c.mBodyNode1).mSkeleton t1
          else wd
        if (s1.bodies c.mBodyNode2).impulseReponsible then
          let t0 := ops.clearConstraintImpulses (s1.bodies c.mBodyNode2).mSkeleton s1
          let t1 := ops.updateBiasImpulse (t0.bodies c.mBodyNode2).mSkeleton c.mBodyNode2
            (jacobianAt c.mJacobians2 idx) t0
          ops.updateVelocityChange (t1.bodies c.mBodyNode2).mSkeleton t1
        else s1
    some (wd1, { c with mAppliedImpulseIndex := some idx })
  else none

/-- One iteration of the loop of `ContactConstraint::getVelocityChange`. -/
def getVelocityChangeStep (c : ContactConstraint K) (wd : World K) (i : Nat) (vel : Nat → K) :
    Nat → K :=
  let v0 := Function.update vel i 0
  let v1 :=
    if (wd.skeletons (wd.bodies c.mBodyNode1).mSkeleton).mIsImpulseApplied = true ∧
        (wd.bodies c.mBodyNode1).impulseReponsible = true then
      Function.update v0 i
        (v0 i + (jacobianAt c.mJacobians1 i).dot (wd.bodies c.mBodyNode1).mDelV)
    else v0
  if (wd.skeletons (wd.bodies c.mBodyNode2).mSkeleton).mIsImpulseApplied = true ∧
      (wd.bodies c.mBodyNode2).impulseReponsible = true then
    Function.update v1 i
      (v1 i + (jacobianAt c.mJacobians2 i).dot (wd.bodies c.mBodyNode2).mDelV)
  else v1

/-- The method `ContactConstraint::getVelocityChange`. The write through
`mAppliedImpulseIndex` has no meaning before the first `applyUnitImpulse`. -/
def getVelocityChange (p : Params K) (c : ContactConstraint K) (wd : World K) (vel : Nat → K)
    (withCfm : Bool) : Option (Nat → K) :=
  let vel := forLoop c.mDim (getVelocityChangeStep c wd) vel
  if withCfm then
    match c.mAppliedImpulseIndex with
    | some k => some (Function.update vel k (vel k + vel k * p.mConstraintForceMixing))
    | none => none
  else some vel

/-- Modelled from the spec: `BodyNode::addConstraintImpulse` of `dart/dynamics/BodyNode.cpp`,
which sums the given impulse into the body node's constraint impulse accumulator. -/
def addConstraintImpulse (wd : World K) (body : Nat) (imp : Vector6d K) : World K :=
  { wd with
    bodies := Function.update wd.bodies body
      { wd.bodies body with
        mConstraintImpulse := (wd.bodies body).mConstraintImpulse.add imp } }

/-- The two guarded `addConstraintImpulse` calls that `applyImpulse` makes for row `index`. -/
def applyImpulseRow (c : ContactConstraint K) (lambda : Nat → K) (index : Nat) (wd : World K) :
    World K :=
  let wd1 :=
    if (wd.bodies c.mBodyNode1).impulseReponsible then
      addConstraintImpulse wd c.mBodyNode1
        (Vector6d.smul (lambda index) (jacobianAt c.mJacobians1 index))
    else wd
  if (wd1.bodies c.mBodyNode2).impulseReponsible then
    addConstraintImpulse wd1 c.mBodyNode2
      (Vector6d.smul (lambda index) (jacobianAt c.mJacobians2 index))
  else wd1

/-- The loop of the friction branch of `applyImpulse`; `index` is the running row index. -/
def applyImpulseFriction (c : ContactConstraint K) (lambda : Nat → K) :
    List (Contact K) → Nat → World K → World K
  | [], _, wd => wd
  | _ :: rest, index, wd =>
    let wd := applyImpulseRow c lambda index wd
    let wd := applyImpulseRow c lambda (index + 1) wd
    let wd := applyImpulseRow c lambda (index + 2) wd
    applyImpulseFriction c lambda rest (index + 3) wd

/-- The loop of the frictionless branch of `applyImpulse`; `i` is the loop counter. -/
def applyImpulseFrictionless (c : ContactConstraint K) (lambda : Nat → K) :
    List (Contact K) → Nat → World K → World K
  | [], _, wd => wd
  | _ :: rest, i, wd =>
    applyImpulseFrictionless c lambda rest (i + 1) (applyImpulseRow c lambda i wd)

/-- The method `ContactConstraint::applyImpulse`. Its assertions `!math::isNan(_lambda[index])`
always hold for the elements of a field and are left out. -/
def applyImpulse (c : ContactConstraint K) (lambda : Nat → K) (wd : World K) : World K :=
  if c.mIsFrictionOn then applyImpulseFriction c lambda c.mContacts 0 wd
  else applyImpulseFrictionless c lambda c.mContacts 0 wd

/-- The sum of `J[r] * lambda[r]` over the rows `r < n`. -/
def impulseSum (js : List (Vector6d K)) (lambda : Nat → K) (n : Nat) : Vector6d K :=
  forLoop n (fun r acc => acc.add (Vector6d.smul (lambda r) (jacobianAt js r))) Vector6d.zero

/-- The number of rows `applyImpulse` walks through: 3 per contact with friction, 1 without. -/
def impulseRows (c : ContactConstraint K) : Nat :=
  if c.mIsFrictionOn then 3 * c.mContacts.length else c.mContacts.length

/-- The state of the accumulators once `applyImpulse` has handled the rows below `n`, starting
from the world `wd0`: the impulse-responsible flags are those of `wd0`, and every body holds its
old accumulator plus the row sums of the Jacobians of the sides it is on. -/
def ImpulseAccumulated (c : ContactConstraint K) (lambda : Nat → K) (wd0 : World K) (n : Nat)
    (wd : World K) : Prop :=
  ∀ body,
    (wd.bodies body).impulseReponsible = (wd0.bodies body).impulseReponsible ∧
    (wd.bodies body).mConstraintImpulse =
      (((wd0.bodies body).mConstraintImpulse).add
        (if body = c.mBodyNode1 ∧ (wd0.bodies c.mBodyNode1).impulseReponsible = true then
          impulseSum c.mJacobians1 lambda n else Vector6d.zero)).add
        (if body = c.mBodyNode2 ∧ (wd0.bodies c.mBodyNode2).impulseReponsible = true then
          impulseSum c.mJacobians2 lambda n else Vector6d.zero)

/-! ### Union of skeletons -/

/-- Modelled from the spec: `Constraint::compressPath` of `dart/constraint/Constraint.cpp`, the
standard path compression that returns the root of a skeleton: while the skeleton is not its own
`mUnionRootSkeleton`, that link is replaced by the link of the skeleton it points to and the
walk moves there. `fuel` bounds the number of iterations. -/
def compressPath : Nat → World K → Nat → Option (World K × Nat)
  | 0, _, _ => none
  | fuel + 1, wd, skeleton =>
    if (wd.skeletons skeleton).mUnionRootSkeleton = skeleton then some (wd, skeleton)
    else
      let up := (wd.skeletons (wd.skeletons skeleton).mUnionRootSkeleton).mUnionRootSkeleton
      let wd1 : World K :=
        { wd with
          skeletons := Function.update wd.skeletons skeleton
            { wd.skeletons skeleton with mUnionRootSkeleton := up } }
      compressPath fuel wd1 up

/-- The two assignments of a merge branch of `uniteSkeletons`, "merge `from` --> `to`":
`from->mUnionRootSkeleton = to; to->mUnionSize += from->mUnionSize`. -/
def mergeRoot (wd : World K) (fromId toId : Nat) : World K :=
  let wd1 : World K :=
    { wd with
      skeletons := Function.update wd.skeletons fromId
        { wd.skeletons fromId with mUnionRootSkeleton := toId } }
  { wd1 with
    skeletons := Function.update wd1.skeletons toId
      { wd1.skeletons toId with
        mUnionSize := (wd1.skeletons toId).mUnionSize + (wd1.skeletons fromId).mUnionSize } }

/-- The method `ContactConstraint::uniteSkeletons`. -/
def uniteSkeletons (fuel : Nat) (c : ContactConstraint K) (wd : World K) : Option (World K) :=
  if (wd.bodies c.mBodyNode1).impulseReponsible = false ∨
      (wd.bodies c.mBodyNode2).impulseReponsible = false then some wd
  else if (wd.bodies c.mBodyNode1).mSkeleton = (wd.bodies c.mBodyNode2).mSkeleton then some wd
  else
    match compressPath fuel wd (wd.bodies c.mBodyNode1).mSkeleton with
    | none => none
    | some (wd1, unionId1) =>
      match compressPath fuel wd1 (wd1.bodies c.mBodyNode2).mSkeleton with
      | none => none
      | some (wd2, unionId2) =>
        if unionId1 = unionId2 then some wd2
        else if (wd2.skeletons unionId1).mUnionSize < (wd2.skeletons unionId2).mUnionSize then
          some (mergeRoot wd2 unionId1 unionId2)
        else
          some (mergeRoot wd2 unionId2 unionId1)

/-- The link `mUnionRootSkeleton` of every skeleton. -/
def unionParent (wd : World K) : Nat → Nat :=
  fun s => (wd.skeletons s).mUnionRootSkeleton

/-- The skeleton `r` is its own `mUnionRootSkeleton` and is reached from `s` along the links:
`r` is the root of the set of `s`. -/
inductive IsUnionRoot (parent : Nat → Nat) : Nat → Nat → Prop
  | root (r : Nat) : parent r = r → IsUnionRoot parent r r
  | step (s r : Nat) : parent s ≠ s → IsUnionRoot parent (parent s) r → IsUnionRoot parent s r

/-- The links form a forest of height at most `N`: `rank` grows strictly along every link and
never exceeds `N`. -/
def UnionForest (parent : Nat → Nat) (rank : Nat → Nat) (N : Nat) : Prop :=
  ∀ s, rank s ≤ N ∧ (parent s ≠ s → rank s < rank (parent s))

/-- The size invariant of the union-find structure over the skeletons `0, ..., n - 1`: the
`mUnionSize` of every root is the number of skeletons of its set, `members` being that set. -/
def UnionSizeInvariant (wd : World K) (n : Nat) : Prop :=
  ∀ r, r < n → unionParent wd r = r →
    ∃ members : Finset Nat,
      (∀ s, s ∈ members ↔ s < n ∧ IsUnionRoot (unionParent wd) s r) ∧
      (wd.skeletons r).mUnionSize = members.card

/-- The total of `mUnionSize` over the roots among the skeletons `0, ..., n - 1`. -/
def unionSizeTotal (wd : World K) (n : Nat) : Nat :=
  Finset.sum ((Finset.range n).filter (fun r => unionParent wd r = r))
    (fun r => (wd.skeletons r).mUnionSize)

/-! ### Setters of the static members -/

/-- The method `ContactConstraint::setErrorAllowance`. -/
def setErrorAllowance (p : Params K) (allowance : K) : Params K :=
  let p1 := if allowance < 0 then { p with mErrorAllowance := 0 } else p
  { p1 with mErrorAllowance := allowance }

/-- The method `ContactConstraint::setErrorReductionParameter`. -/
def setErrorReductionParameter (p : Params K) (erp : K) : Params K :=
  let p1 := if erp < 0 then { p with mErrorReductionParameter := 0 } else p
  let p2 := if erp > 1 then { p1 with mErrorReductionParameter := 1 } else p1
  { p2 with mErrorReductionParameter := erp }

/-- The method `ContactConstraint::setMaxErrorReductionVelocity`. -/
def setMaxErrorReductionVelocity (p : Params K) (erv : K) : Params K :=
  let p1 := if erv < 0 then { p with mMaxErrorReductionVelocity := 0 } else p
  { p1 with mMaxErrorReductionVelocity := erv }

/-- The method `ContactConstraint::setConstraintForceMixing`. -/
def setConstraintForceMixing (p : Params K) (cfm : K) : Params K :=
  let p1 := if cfm < 1 / 1000000000 then { p with mConstraintForceMixing := 1 / 1000000000 } else p
  let p2 := if cfm > 1 then { p1 with mConstraintForceMixing := 1 } else p1
  { p2 with mConstraintForceMixing := cfm }

/-! ### Assertions of `getInformation` -/

/-- The assertions of the friction branch of `getInformation` on the buffers it is given, for
`n` contacts: the slack of the three rows is zero and the normal row has no friction index. -/
def assertsFriction (info : ConstraintInfo K) (n : Nat) : Prop :=
  ∀ k, k < n →
    info.w (3 * k) = 0 ∧ info.w (3 * k + 1) = 0 ∧ info.w (3 * k + 2) = 0 ∧
      info.findex (3 * k) = -1

/-- The assertion of the frictionless branch of `getInformation`, for `n` contacts. -/
def assertsFrictionless (info : ConstraintInfo K) (n : Nat) : Prop :=
  ∀ k, k < n → info.findex k = -1

/-- The assertions `getInformation` makes on the buffers it is given. -/
def getInformationAsserts (c : ContactConstraint K) (info : ConstraintInfo K) : Prop :=
  if c.mIsFrictionOn then assertsFriction info c.mContacts.length
  else assertsFrictionless info c.mContacts.length

instance (info : ConstraintInfo K) (n : Nat) : Decidable (assertsFriction info n) := by
  unfold assertsFriction; infer_instance

instance (info : ConstraintInfo K) (n : Nat) : Decidable (assertsFrictionless info n) := by
  unfold assertsFrictionless; infer_instance

instance (c : ContactConstraint K) (info : ConstraintInfo K) :
    Decidable (getInformationAsserts c info) := by
  unfold getInformationAsserts; infer_instance

/-! ### Joints (`dart/dynamics/Joint.cpp`, `dart/dynamics/BallJoint.cpp`) -/

/-- A `for (int i = 0; i < n; ++i) vec(i) = f(i)` loop that fills a fresh vector; an entry that
cannot be computed (an index out of range) makes the whole call fail. -/
def fillVector (f : Nat → Option K) : Nat → Option (List K)
  | 0 => some []
  | n + 1 =>
    match fillVector f n, f n with
    | some v, some x => some (v ++ [x])
    | _, _ => none

/-- The method `Joint::getDampingForces`. -/
def Joint.getDampingForces (j : Joint K) : Option (List K) :=
  let numDofs := j.mGenCoords.length
  fillVector
    (fun i =>
      match j.mDampingCoefficient[i]?, j.mGenCoords[i]? with
      | some d, some g => some (-d * g.vel)
      | _, _ => none)
    numDofs

/-- The method `Joint::getSpringForces`. Its assertion `!math::isNan(springForce)` always holds
for the elements of a field and is left out. -/
def Joint.getSpringForces (j : Joint K) (timeStep : K) : Option (List K) :=
  let dof := j.mGenCoords.length
  fillVector
    (fun i =>
      match j.mSpringStiffness[i]?, j.mGenCoords[i]?, j.mRestPosition[i]? with
      | some k, some g, some q0 => some (-k * (g.pos + g.vel * timeStep - q0))
      | _, _, _ => none)
    dof

/-- Modelled from the spec: `GenCoordSystem::setConfigs` of `dart/dynamics/GenCoordSystem.cpp`
for three coordinates, which refreshes the positions `q` and nothing else. -/
def setConfigs3 (coords : List (GenCoord K)) (q : Vector3d K) : Option (List (GenCoord K)) :=
  match coords with
  | [c0, c1, c2] => some [{ c0 with pos := q.x }, { c1 with pos := q.y }, { c2 with pos := q.z }]
  | _ => none

/-- Modelled from the spec: `GenCoordSystem::getGenVels` of
`dart/dynamics/GenCoordSystem.cpp` for three coordinates, the generalized velocity. -/
def getGenVels3 (coords : List (GenCoord K)) : Option (Vector3d K) :=
  match coords with
  | [c0, c1, c2] => some ⟨c0.vel, c1.vel, c2.vel⟩
  | _ => none

/-- The method `BallJoint::integrateConfigs`; `expMapRot` and `logMap` are the functions of
`dart/math/Geometry.h`, taken as they are. -/
def BallJoint.integrateConfigs (expMapRot : Vector3d K → Matrix3d K)
    (logMap : Matrix3d K → Vector3d K) (j : BallJoint K) (dt : K) : Option (BallJoint K) :=
  match getGenVels3 j.mGenCoords with
  | none => none
  | some v =>
    let mR : Isometry3d K :=
      { j.mR with linear := j.mR.linear.mul (expMapRot ⟨v.x * dt, v.y * dt, v.z * dt⟩) }
    match setConfigs3 j.mGenCoords (logMap mR.linear) with
    | none => none
    | some coords => some { j with mR := mR, mGenCoords := coords }

/-! ### Support functions (`dart/collision/dart/DARTCollideCCD.cpp`) -/

/-- The library libccd as the support functions use it: the constants `CCD_EPS` and
`CCD_REAL_MAX`, the square root (`sqrt`, `CCD_SQRT`), and `ccdQuatRotVec(v, q)`, the rotation
of a vector by a quaternion. -/
structure CcdLib (K : Type) where
  CCD_EPS : K
  CCD_REAL_MAX : K
  sqrt : K → K
  ccdQuatRotVec : Vector3d K → Quat K → Vector3d K

/-- The libccd predicate `ccdIsZero(val)`: `CCD_FABS(val) < CCD_EPS`. -/
def ccdIsZero (lib : CcdLib K) (val : K) : Prop := |val| < lib.CCD_EPS

instance (lib : CcdLib K) (val : K) : Decidable (ccdIsZero lib val) := by
  unfold ccdIsZero; infer_instance

/-- The libccd function `ccdSign(val)`: 0 when `ccdIsZero(val)`, else -1 below zero, else 1. -/
def ccdSign (lib : CcdLib K) (val : K) : K :=
  if ccdIsZero lib val then 0 else if val < 0 then -1 else 1

/-- The libccd function `ccdVec3Scale(v, k)`. -/
def ccdVec3Scale (v : Vector3d K) (k : K) : Vector3d K := ⟨v.x * k, v.y * k, v.z * k⟩

/-- The tail of every support function, "transform support vertex":
`ccdQuatRotVec(v, &o->rot); ccdVec3Add(v, &o->pos)`. -/
def transformSupportVertex (lib : CcdLib K) (o : ccd_obj_t K) (v : Vector3d K) : Vector3d K :=
  (lib.ccdQuatRotVec v o.rot).add o.pos

/-- The head of every support function: the direction in the local frame,
`ccdVec3Copy(&dir, dir_); ccdQuatRotVec(&dir, &o->rot_inv)`. -/
def localDirection (lib : CcdLib K) (o : ccd_obj_t K) (dir : Vector3d K) : Vector3d K :=
  lib.ccdQuatRotVec dir o.rot_inv

/-- The local point of `supportBox`, before "transform support vertex". -/
def supportBoxLocal (lib : CcdLib K) (o : ccd_box_t K) (dir : Vector3d K) : Vector3d K :=
  ⟨ccdSign lib dir.x * o.dim0, ccdSign lib dir.y * o.dim1, ccdSign lib dir.z * o.dim2⟩

/-- The function `supportBox`. -/
def supportBox (lib : CcdLib K) (o : ccd_box_t K) (dir_ : Vector3d K) : Vector3d K :=
  transformSupportVertex lib o.toccd_obj_t
    (supportBoxLocal lib o (localDirection lib o.toccd_obj_t dir_))

/-- The local point of `supportCap`, before "transform support vertex". -/
def supportCapLocal (o : ccd_cap_t K) (dir : Vector3d K) : Vector3d K :=
  let pos1 : Vector3d K := ⟨0, 0, o.height⟩
  let pos2 : Vector3d K := ⟨0, 0, -o.height⟩
  let v := ccdVec3Scale dir o.radius
  let pos1 := pos1.add v
  let pos2 := pos2.add v
  if dir.dot pos1 > dir.dot pos2 then pos1 else pos2

/-- The function `supportCap`. -/
def supportCap (lib : CcdLib K) (o : ccd_cap_t K) (dir_ : Vector3d K) : Vector3d K :=
  transformSupportVertex lib o.toccd_obj_t
    (supportCapLocal o (localDirection lib o.toccd_obj_t dir_))

/-- A division that fails on a zero divisor. -/
def checkedDiv (a b : K) : Option K := if b = 0 then none else some (a / b)

/-- The local point of `supportCyl`, before "transform support vertex"; `none` when the division
`cyl->radius / zdist` meets a zero divisor. -/
def supportCylLocal (lib : CcdLib K) (cyl : ccd_cyl_t K) (dir : Vector3d K) :
    Option (Vector3d K) :=
  let zdist := dir.x * dir.x + dir.y * dir.y
  let zdist := lib.sqrt zdist
  if ccdIsZero lib zdist then some ⟨0, 0, ccdSign lib dir.z * cyl.height⟩
  else
    match checkedDiv cyl.radius zdist with
    | none => none
    | some rad => some ⟨rad * dir.x, rad * dir.y, ccdSign lib dir.z * cyl.height⟩

/-- The function `supportCyl`. -/
def supportCyl (lib : CcdLib K) (cyl : ccd_cyl_t K) (dir_ : Vector3d K) : Option (Vector3d K) :=
  (supportCylLocal lib cyl (localDirection lib cyl.toccd_obj_t dir_)).map
    (transformSupportVertex lib cyl.toccd_obj_t)

/-- The local point of `supportCone`, before "transform support vertex". -/
def supportConeLocal (lib : CcdLib K) (cone : ccd_cone_t K) (dir : Vector3d K) : Vector3d K :=
  let zdist := dir.x * dir.x + dir.y * dir.y
  let len := zdist + dir.z * dir.z
  let zdist := lib.sqrt zdist
  let len := lib.sqrt len
  let sin_a := cone.radius / lib.sqrt (cone.radius * cone.radius + 4 * cone.height * cone.height)
  if dir.z > len * sin_a then ⟨0, 0, cone.height⟩
  else if zdist > 0 then
    let rad := cone.radius / zdist
    ⟨rad * dir.x, rad * dir.y, -cone.height⟩
  else ⟨0, 0, -cone.height⟩

/-- The function `supportCone`. -/
def supportCone (lib : CcdLib K) (cone : ccd_cone_t K) (dir_ : Vector3d K) : Vector3d K :=
  transformSupportVertex lib cone.toccd_obj_t
    (supportConeLocal lib cone (localDirection lib cone.toccd_obj_t dir_))

/-- The loop of `supportConvex` over the remaining vertices; the state is `(maxdot, v)`. -/
def supportConvexLoop (center dir : Vector3d K) :
    List (Vector3d K) → K × Vector3d K → K × Vector3d K
  | [], st => st
  | curp :: rest, (maxdot, v) =>
    let p : Vector3d K := ⟨curp.x - center.x, curp.y - center.y, curp.z - center.z⟩
    let dot := dir.dot p
    if dot > maxdot then supportConvexLoop center dir rest (dot, curp)
    else supportConvexLoop center dir rest (maxdot, v)

/-- The local point of `supportConvex`, before "transform support vertex"; `v` is what the
output `*v` holds when the function is entered. -/
def supportConvexLocal (lib : CcdLib K) (c : ccd_convex_t K) (dir v : Vector3d K) :
    Vector3d K :=
  (supportConvexLoop c.convex.center dir c.convex.points (-lib.CCD_REAL_MAX, v)).2

/-- The function `supportConvex`. -/
def supportConvex (lib : CcdLib K) (c : ccd_convex_t K) (dir_ v : Vector3d K) : Vector3d K :=
  transformSupportVertex lib c.toccd_obj_t
    (supportConvexLocal lib c (localDirection lib c.toccd_obj_t dir_) v)

/-- The point `p` of the local frame lies within distance `radius` of the axis segment from
`(0, 0, -height)` to `(0, 0, height)`: it is a point of the capsule. -/
def InCapsule (o : ccd_cap_t K) (p : Vector3d K) : Prop :=
  ∃ t, -|o.height| ≤ t ∧ t ≤ |o.height| ∧
    p.x * p.x + p.y * p.y + (p.z - t) * (p.z - t) ≤ o.radius * o.radius

/-- The point `p` of the local frame is a point of the cone with apex `(0, 0, height)` and base
circle of radius `radius` at `z = -height`: at height `z` the section is the disc of radius
`radius * (height - z) / (2 * height)`. -/
def InCone (cone : ccd_cone_t K) (p : Vector3d K) : Prop :=
  -cone.height ≤ p.z ∧ p.z ≤ cone.height ∧
    (2 * cone.height) * (2 * cone.height) * (p.x * p.x + p.y * p.y) ≤
      cone.radius * cone.radius * ((cone.height - p.z) * (cone.height - p.z))

/-! ### The MPR query -/

/-- The function `ccdCollide`. A pointer argument is `none` when it is `nullptr` and holds the
pointee otherwise; the result is the returned `bool` with the three outputs, and `none` when
the assertion on `_normal` fails or `penetration` is `nullptr` where it is written. -/
def ccdCollide {Obj : Type} (mpr : MprLib K Obj) (obj1 : Obj)
    (supp1 : Obj → Vector3d K → Vector3d K) (cen1 : Obj → Vector3d K) (obj2 : Obj)
    (supp2 : Obj → Vector3d K → Vector3d K) (cen2 : Obj → Vector3d K)
    (max_iteration : Nat) (tolerance : K)
    (point normal : Option (Vector3d K)) (penetration : Option K) :
    Option (Bool × Option (Vector3d K) × Option (Vector3d K) × Option K) :=
  let ccd : ccd_t K Obj :=
    { support1 := supp1, support2 := supp2, center1 := cen1, center2 := cen2,
      max_iterations := max_iteration, mpr_tolerance := tolerance }
  match point with
  | none =>
    some (if mpr.ccdMPRIntersect obj1 obj2 ccd ≠ 0 then true else false,
      point, normal, penetration)
  | some _ =>
    let res := mpr.ccdMPRPenetration obj1 obj2 ccd
    let isCollided : Bool := if res.status = 0 then true else false
    if isCollided then
      let point := some res.pos
      match normal with
      | none => none
      | some _ =>
        let dir := ccdVec3Scale res.dir (-1)
        let normal := some dir
        match penetration with
        | none => none
        | some _ => some (true, point, normal, some res.depth)
    else some (false, point, normal, penetration)

/-! ### Rigid transforms -/

/-- The determinant of a 3x3 matrix. -/
def Matrix3d.det (m : Matrix3d K) : K := m.row0.dot (m.row1.cross m.row2)

/-- The linear part of a rigid body transform is a rotation: its rows are orthonormal and its
determinant is 1. -/
def Matrix3d.IsRotation (m : Matrix3d K) : Prop :=
  m.row0.dot m.row0 = 1 ∧ m.row1.dot m.row1 = 1 ∧ m.row2.dot m.row2 = 1 ∧
  m.row0.dot m.row1 = 0 ∧ m.row0.dot m.row2 = 0 ∧ m.row1.dot m.row2 = 0 ∧ m.det = 1

instance (m : Matrix3d K) : Decidable m.IsRotation := by
  unfold Matrix3d.IsRotation; infer_instance

/-- The moment about the world origin and the direction, both in the world frame, of a
Jacobian row `J` given in the frame `T` of a body: the rotated direction `R * J.tail`, and the
rotated moment `R * J.head` shifted from the body origin `t` to the world origin. -/
def worldWrench (T : Isometry3d K) (J : Vector6d K) : Vector6d K :=
  ⟨(T.linear.mulVec J.head).add (T.translation.cross (T.linear.mulVec J.tail)),
    T.linear.mulVec J.tail⟩

/-! ### Getters of the static members -/

/-- The method `ContactConstraint::getErrorAllowance`. -/
def getErrorAllowance (p : Params K) : K := p.mErrorAllowance

/-- The method `ContactConstraint::getErrorReductionParameter`. -/
def getErrorReductionParameter (p : Params K) : K := p.mErrorReductionParameter

/-- The method `ContactConstraint::getMaxErrorReductionVelocity`. -/
def getMaxErrorReductionVelocity (p : Params K) : K := p.mMaxErrorReductionVelocity

/-- The method `ContactConstraint::getConstraintForceMixing`. -/
def getConstraintForceMixing (p : Params K) : K := p.mConstraintForceMixing

/-! ### Rest position (`dart/dynamics/Joint.cpp`) -/

/-- The method `Joint::setRestPosition`. The result is the joint afterwards together with
whether the limit warning was written to `dtwarn`; `none` when the assertion on the index fails
or `mRestPosition` has no entry at the index. -/
def Joint.setRestPosition (j : Joint K) (idx : Int) (q0 : K) : Option (Joint K × Bool) :=
  if 0 ≤ idx ∧ idx < (j.mGenCoords.length : Int) then
    match j.mGenCoords[idx.toNat]? with
    | none => none
    | some g =>
      let warned : Bool := if g.posMin > q0 ∨ g.posMax < q0 then true else false
      if idx.toNat < j.mRestPosition.length then
        some ({ j with mRestPosition := j.mRestPosition.set idx.toNat q0 }, warned)
      else none
  else none

/-- The method `Joint::getRestPosition`. -/
def Joint.getRestPosition (j : Joint K) (idx : Int) : Option K :=
  if 0 ≤ idx ∧ idx < (j.mGenCoords.length : Int) then j.mRestPosition[idx.toNat]? else none

/-! ### The walking-controller state (`apps/atlasRobot/State.cpp`) -/

/-- The constructor `State::State`, as far as the vectors go: every vector is
`Eigen::VectorXd::Zero(dof)` and the loop then fills the gains with `ATLAS_DEFAULT_KP` and
`ATLAS_DEFAULT_KD`, constants of `State.h` taken as parameters. -/
def State.ctor (dof : Nat) (ATLAS_DEFAULT_KP ATLAS_DEFAULT_KD : K) : State K :=
  let zero : List K := List.replicate dof 0
  let gains : List K × List K :=
    forLoop dof
      (fun i g => (g.1.set i ATLAS_DEFAULT_KP, g.2.set i ATLAS_DEFAULT_KD)) (zero, zero)
  { mDesiredJointPositions := zero, mDesiredJointPositionsBalance := zero,
    mKp := gains.1, mKd := gains.2,
    mSagitalCd := zero, mSagitalCv := zero, mCoronalCd := zero, mCoronalCv := zero,
    mTorque := zero }

/-- The range assertion of the indexed accessors, `0 <= _idx && _idx <= v.size()`. -/
def State.indexAssert (idx : Int) (size : Nat) : Prop := 0 ≤ idx ∧ idx ≤ (size : Int)

instance (idx : Int) (size : Nat) : Decidable (State.indexAssert idx size) := by
  unfold State.indexAssert; infer_instance

/-- The body of an indexed setter: the assertion on a vector of `size` entries, then
`v[_idx] = _val`. -/
def State.assertedWrite (size : Nat) (v : List K) (idx : Int) (val : K) : Indexed (List K) :=
  if State.indexAssert idx size then
    if 0 ≤ idx ∧ idx.toNat < v.length then Indexed.ok (v.set idx.toNat val)
    else Indexed.outOfBounds
  else Indexed.assertFailed

/-- The body of an indexed getter: the assertion on a vector of `size` entries, then
`return v[_idx]`. -/
def State.assertedRead (size : Nat) (v : List K) (idx : Int) : Indexed K :=
  if State.indexAssert idx size then
    if 0 ≤ idx then
      match v[idx.toNat]? with
      | some val => Indexed.ok val
      | none => Indexed.outOfBounds
    else Indexed.outOfBounds
  else Indexed.assertFailed

/-- The result of a setter, from the vector it wrote. -/
def Indexed.map {α β : Type} (f : α → β) : Indexed α → Indexed β
  | Indexed.ok a => Indexed.ok (f a)
  | Indexed.assertFailed => Indexed.assertFailed
  | Indexed.outOfBounds => Indexed.outOfBounds

/-- The method `State::setDesiredJointPosition(int, double)`. -/
def State.setDesiredJointPosition (s : State K) (idx : Int) (val : K) : Indexed (State K) :=
  (State.assertedWrite s.mDesiredJointPositions.length s.mDesiredJointPositions idx val).map
    (fun v => { s with mDesiredJointPositions := v })

/-- The method `State::getDesiredJointPosition(int)`. -/
def State.getDesiredJointPosition (s : State K) (idx : Int) : Indexed K :=
  State.assertedRead s.mDesiredJointPositions.length s.mDesiredJointPositions idx

/-- The method `State::setProportionalGain(int, double)`: the assertion is on `mKp.size()` and
the assignment is `mKd[_idx] = _val`. -/
def State.setProportionalGain (s : State K) (idx : Int) (val : K) : Indexed (State K) :=
  (State.assertedWrite s.mKp.length s.mKd idx val).map (fun v => { s with mKd := v })

/-- The method `State::getProportionalGain(int)`. -/
def State.getProportionalGain (s : State K) (idx : Int) : Indexed K :=
  State.assertedRead s.mKp.length s.mKp idx

/-- The method `State::setDerivativeGain(int, double)`. -/
def State.setDerivativeGain (s : State K) (idx : Int) (val : K) : Indexed (State K) :=
  (State.assertedWrite s.mKd.length s.mKd idx val).map (fun v => { s with mKd := v })

/-- The method `State::getDerivativeGain(int)`. -/
def State.getDerivativeGain (s : State K) (idx : Int) : Indexed K :=
  State.assertedRead s.mKd.length s.mKd idx

/-- The method `State::setFeedbackSagitalCOMDistance`. -/
def State.setFeedbackSagitalCOMDistance (s : State K) (idx : Int) (val : K) :
    Indexed (State K) :=
  (State.assertedWrite s.mSagitalCd.length s.mSagitalCd idx val).map
    (fun v => { s with mSagitalCd := v })

/-- The method `State::setFeedbackSagitalCOMVelocity`. -/
def State.setFeedbackSagitalCOMVelocity (s : State K) (idx : Int) (val : K) :
    Indexed (State K) :=
  (State.assertedWrite s.mSagitalCv.length s.mSagitalCv idx val).map
    (fun v => { s with mSagitalCv := v })

/-- The method `State::setFeedbackCoronalCOMDistance`. -/
def State.setFeedbackCoronalCOMDistance (s : State K) (idx : Int) (val : K) :
    Indexed (State K) :=
  (State.assertedWrite s.mCoronalCd.length s.mCoronalCd idx val).map
    (fun v => { s with mCoronalCd := v })

/-- The method `State::setFeedbackCoronalCOMVelocity`. -/
def State.setFeedbackCoronalCOMVelocity (s : State K) (idx : Int) (val : K) :
    Indexed (State K) :=
  (State.assertedWrite s.mCoronalCv.length s.mCoronalCv idx val).map
    (fun v => { s with mCoronalCv := v })

/-! ### A concrete scene

Two bodies with identity world transforms touch at the origin with contact normal `(0, 1, 0)`. -/

/-- A rational stand-in for the floating-point library: the square root is exact at `0` and `1`,
the only values the scene feeds it, and `cos`, `sin` at a quarter of pi are rounded to the
fraction `5741/8119`. -/
def exFloatLib : FloatLib ℚ :=
  { sqrt := fun x => if x = 0 then 0 else 1
    cosQuarterPi := 5741 / 8119
    sinQuarterPi := 5741 / 8119 }

/-- The identity transform. -/
def exIdentity : Isometry3d ℚ :=
  { linear := ⟨⟨1, 0, 0⟩, ⟨0, 1, 0⟩, ⟨0, 0, 1⟩⟩, translation := ⟨0, 0, 0⟩ }

/-- A body of skeleton `skel` with restitution `e`, friction `mu` and linear velocity `vy` along
the contact normal. -/
def exBody (e mu vy : ℚ) (skel : Nat) : BodyNode ℚ :=
  { mRestitutionCoeff := e, mFrictionCoeff := mu, mW := exIdentity, impulseReponsible := true,
    mSkeleton := skel, mV := ⟨⟨0, 0, 0⟩, ⟨0, vy, 0⟩⟩, mDelV := ⟨⟨0, 0, 1⟩, ⟨1, 2, 3⟩⟩,
    mConstraintImpulse := Vector6d.zero }

/-- A world whose body 0 is `b0` and whose other bodies are `b1`; every skeleton is its own
union root, of size one. -/
def exWorldOf (b0 b1 : BodyNode ℚ) : World ℚ :=
  { bodies := fun i => if i = 0 then b0 else b1
    skeletons := fun s => { mUnionRootSkeleton := s, mUnionSize := 1, mIsImpulseApplied := true } }

/-- A contact of bodies 0 and 1 at the origin with penetration depth `1/100`. -/
def exContact : Contact ℚ :=
  { point := ⟨0, 0, 0⟩, normal := ⟨0, 1, 0⟩, penetrationDepth := 1 / 100,
    bodyNode1 := 0, bodyNode2 := 1 }

/-- Solver buffers as the solver hands them over: zero slack, no friction index. -/
def exInfo : ConstraintInfo ℚ :=
  { x := fun _ => 7, lo := fun _ => 7, hi := fun _ => ((7 : ℚ) : WithTop ℚ), b := fun _ => 7,
    w := fun _ => 0, findex := fun _ => -1, invTimeStep := 1000 }

/-- Frictional scene without bounce: friction coefficients `1` and `1/2`, no restitution. -/
def exWorldFriction : World ℚ := exWorldOf (exBody 0 1 0 0) (exBody 0 (1 / 2) 0 1)

/-- The constraint the constructor builds in `exWorldFriction` for `exContact`. -/
def exConstraintFriction : ContactConstraint ℚ :=
  { mContacts := [exContact], mBodyNode1 := 0, mBodyNode2 := 1,
    mFirstFrictionalDirection := ⟨0, 0, 1⟩, mRestitutionCoeff := 0, mFrictionCoeff := 1 / 2,
    mIsFrictionOn := true, mIsBounceOn := false, mAppliedImpulseIndex := none, mActive := false,
    mDim := 3,
    mJacobians1 :=
      [⟨⟨0, 0, 0⟩, ⟨0, 1, 0⟩⟩, ⟨⟨0, 0, 0⟩, ⟨-1, 0, 0⟩⟩,
       ⟨⟨0, 0, 0⟩, ⟨-1 + 2 * (5741 / 8119) * (5741 / 8119), 0,
          2 * (5741 / 8119) * (5741 / 8119)⟩⟩]
    mJacobians2 :=
      [⟨⟨0, 0, 0⟩, ⟨0, -1, 0⟩⟩, ⟨⟨0, 0, 0⟩, ⟨1, 0, 0⟩⟩,
       ⟨⟨0, 0, 0⟩, ⟨1 - 2 * (5741 / 8119) * (5741 / 8119), 0,
          -(2 * (5741 / 8119) * (5741 / 8119))⟩⟩] }

/-- Frictional scene with bounce: restitution `1` on both bodies, body 0 approaching with normal
speed `1/20`. -/
def exWorldBounce : World ℚ := exWorldOf (exBody 1 1 (-1 / 20) 0) (exBody 1 (1 / 2) 0 1)

/-- The constraint the constructor builds in `exWorldBounce` for `exContact`. -/
def exConstraintBounce : ContactConstraint ℚ :=
  { exConstraintFriction with mRestitutionCoeff := 1, mIsBounceOn := true }

/-- Frictionless scene: body 1 has friction coefficient `0`. -/
def exWorldFrictionless : World ℚ := exWorldOf (exBody 0 1 0 0) (exBody 0 0 0 1)

/-- The constraint the constructor builds in `exWorldFrictionless` for `exContact`. -/
def exConstraintFrictionless : ContactConstraint ℚ :=
  { mContacts := [exContact], mBodyNode1 := 0, mBodyNode2 := 1,
    mFirstFrictionalDirection := ⟨0, 0, 1⟩, mRestitutionCoeff := 0, mFrictionCoeff := 0,
    mIsFrictionOn := false, mIsBounceOn := false, mAppliedImpulseIndex := none, mActive := false,
    mDim := 1,
    mJacobians1 := [⟨⟨0, 0, 0⟩, ⟨0, 1, 0⟩⟩]
    mJacobians2 := [⟨⟨0, 0, 0⟩, ⟨0, -1, 0⟩⟩] }

/-- Skeleton methods that leave the world as it is. -/
def exSkeletonOps : SkeletonOps ℚ :=
  { clearConstraintImpulses := fun _ wd => wd
    updateBiasImpulse := fun _ _ _ wd => wd
    updateVelocityChange := fun _ wd => wd }

/-- The frictional constraint after `update()`: it is active. -/
def exConstraintActive : ContactConstraint ℚ := update exConstraintFriction exWorldFriction

/-- The static members after `setErrorAllowance(1/50)`. -/
def exParamsAllowance : Params ℚ := setErrorAllowance Params.default (1 / 50)

/-- The contact `ct` with its two bodies exchanged. -/
def Contact.swapBodies (ct : Contact K) : Contact K :=
  { ct with bodyNode1 := ct.bodyNode2, bodyNode2 := ct.bodyNode1 }

/-- The static members after `setErrorAllowance(1)` and `setMaxErrorReductionVelocity(-1)`. -/
def exParamsNegativeErv : Params ℚ :=
  setMaxErrorReductionVelocity (setErrorAllowance Params.default 1) (-1)

/-! ### Concrete joints and shapes -/

/-- The libccd function `ccdQuatRotVec` as a formula: `v + 2 q × (q × v + w v)` for the vector
part `q` and the scalar part `w` of the quaternion. -/
def quatRotVecFormula (v : Vector3d K) (q : Quat K) : Vector3d K :=
  let qv : Vector3d K := ⟨q.x, q.y, q.z⟩
  v.add (Vector3d.smul 2 (qv.cross ((qv.cross v).add (Vector3d.smul q.w v))))

/-- libccd in double precision over the rationals: `CCD_EPS = DBL_EPSILON = 2^-52`,
`CCD_REAL_MAX = DBL_MAX = (2^53 - 1) * 2^971`, and a square root that is exact at the values
`0`, `1` and `25` the examples feed it. -/
def exCcdLib : CcdLib ℚ :=
  { CCD_EPS := 1 / 2 ^ 52
    CCD_REAL_MAX := (2 ^ 53 - 1) * 2 ^ 971
    sqrt := fun x => if x = 0 then 0 else if x = 25 then 5 else 1
    ccdQuatRotVec := quatRotVecFormula }

/-- An object at `(1, 2, 3)` with the identity rotation. -/
def exObj : ccd_obj_t ℚ :=
  { pos := ⟨1, 2, 3⟩, rot := ⟨0, 0, 0, 1⟩, rot_inv := ⟨0, 0, 0, 1⟩ }

/-- A cylinder of radius 2 and height parameter 3. -/
def exCyl : ccd_cyl_t ℚ := { exObj with radius := 2, height := 3 }

/-- A box with `dim = (1, 1, 1)` at `exObj`. -/
def exBox : ccd_box_t ℚ := { exObj with dim0 := 1, dim1 := 1, dim2 := 1 }

/-- A capsule of radius 1 and height parameter 1. -/
def exCap : ccd_cap_t ℚ := { exObj with radius := 1, height := 1 }

/-- A cone of radius 3 and height parameter 2. -/
def exCone : ccd_cone_t ℚ := { exObj with radius := 3, height := 2 }

/-- A convex shape with the single vertex `(1, 0, 0)` and centre at the origin. -/
def exConvexOne : ccd_convex_t ℚ :=
  { exObj with convex := { center := ⟨0, 0, 0⟩, points := [⟨1, 0, 0⟩] } }

/-- A convex shape with four vertices, two of them maximal along the x axis. -/
def exConvex : ccd_convex_t ℚ :=
  { exObj with
    convex :=
      { center := ⟨1, 1, 1⟩
        points := [⟨0, 0, 0⟩, ⟨2, 0, 0⟩, ⟨2, 1, 0⟩, ⟨1, 1, 1⟩] } }

/-- MPR queries that report a penetration of depth `1/10` along `(0, 1, 0)` at the origin. -/
def exMprHit : MprLib ℚ Unit :=
  { ccdMPRIntersect := fun _ _ _ => 1
    ccdMPRPenetration := fun _ _ _ =>
      { status := 0, depth := 1 / 10, dir := ⟨0, 1, 0⟩, pos := ⟨0, 0, 0⟩ } }

/-- MPR queries that report no intersection (status `-1`). -/
def exMprMiss : MprLib ℚ Unit :=
  { ccdMPRIntersect := fun _ _ _ => 0
    ccdMPRPenetration := fun _ _ _ =>
      { status := -1, depth := 0, dir := ⟨0, 0, 0⟩, pos := ⟨0, 0, 0⟩ } }

/-- A joint with three coordinates, as a ball joint has them. -/
def exJoint : Joint ℚ :=
  { mGenCoords := [⟨1, 4, -10, 10⟩, ⟨2, 5, -10, 10⟩, ⟨3, 6, -10, 10⟩]
    mSpringStiffness := [10, 20, 30]
    mDampingCoefficient := [1, 2, 3]
    mRestPosition := [0, 1, 2] }

/-- A ball joint on `exJoint` with the identity as its rotation. -/
def exBallJoint : BallJoint ℚ := { exJoint with mR := exIdentity }

end Model

/-! ## Lemmas on loops and buffers -/

section LoopLemmas

variable {K : Type} [LinearOrderedField K]

theorem forLoop_zero {σ : Type} (body : Nat → σ → σ) (s : σ) : forLoop 0 body s = s := by
  simp [forLoop]

theorem forLoop_succ {σ : Type} (n : Nat) (body : Nat → σ → σ) (s : σ) :
    forLoop (n + 1) body s = body n (forLoop n body s) := by
  simp [forLoop, List.range_succ, List.foldl_append]

/-- An iteration of `getRelVelocity` writes row `i` only. -/
theorem getRelVelocityStep_other (c : ContactConstraint K) (wd : World K) (i j : Nat)
    (relVel : Nat → K) (h : j ≠ i) : getRelVelocityStep c wd i relVel j = relVel j := by
  unfold getRelVelocityStep
  by_cases h1 : (wd.bodies c.mBodyNode1).impulseReponsible = true <;>
  by_cases h2 : (wd.bodies c.mBodyNode2).impulseReponsible = true <;>
  simp [h1, h2, Function.update_apply, h]

/-- The method `getRelVelocity` leaves the rows from `mDim` on untouched. -/
theorem getRelVelocity_frame (c : ContactConstraint K) (wd : World K) (relVel : Nat → K)
    (j : Nat) (h : c.mDim ≤ j) : getRelVelocity c wd relVel j = relVel j := by
  unfold getRelVelocity
  generalize c.mDim = n at h
  induction n with
  | zero => simp [forLoop_zero]
  | succ n ih =>
    rw [forLoop_succ, getRelVelocityStep_other c wd n j _ (by omega)]
    exact ih (by omega)

/-- Rows below the running index, the slack `w` and the inverse time step are not written by the
friction loop of `getInformation`. -/
theorem getInformationFriction_frame (p : Params K) (c : ContactConstraint K)
    (cts : List (Contact K)) :
    ∀ (index : Nat) (info info1 : ConstraintInfo K),
      getInformationFriction p c cts index info = some info1 →
      info1.w = info.w ∧ info1.invTimeStep = info.invTimeStep ∧
      ∀ j, (j < index ∨ index + 3 * cts.length ≤ j) →
        info1.x j = info.x j ∧ info1.lo j = info.lo j ∧ info1.hi j = info.hi j ∧
        info1.b j = info.b j ∧ info1.findex j = info.findex j := by
  induction cts with
  | nil =>
    intro index info info1 h
    simp only [getInformationFriction, Option.some.injEq] at h
    subst h
    simp
  | cons ct rest ih =>
    intro index info info1 h
    simp only [getInformationFriction] at h
    split_ifs at h with hw hf
    obtain ⟨h1, h2, h3⟩ := ih _ _ _ h
    refine ⟨h1, h2, ?_⟩
    intro j hj
    have hj3 : j < index + 3 ∨ index + 3 + 3 * rest.length ≤ j := by
      rcases hj with hj | hj
      · left; omega
      · right; simp only [List.length_cons] at hj; omega
    have e0 : j ≠ index := by
      rcases hj with hj | hj
      · omega
      · simp only [List.length_cons] at hj; omega
    have e1 : j ≠ index + 1 := by
      rcases hj with hj | hj
      · omega
      · simp only [List.length_cons] at hj; omega
    have e2 : j ≠ index + 2 := by
      rcases hj with hj | hj
      · omega
      · simp only [List.length_cons] at hj; omega
    obtain ⟨a1, a2, a3, a4, a5⟩ := h3 j hj3
    simp only [Function.update_apply, if_neg e0, if_neg e1, if_neg e2] at a1 a2 a3 a4 a5
    exact ⟨a1, a2, a3, a4, a5⟩

/-- What the friction loop of `getInformation` leaves in the three rows of contact `k`. -/
theorem getInformationFriction_rows (p : Params K) (c : ContactConstraint K)
    (cts : List (Contact K)) :
    ∀ (index : Nat) (info info1 : ConstraintInfo K),
      getInformationFriction p c cts index info = some info1 →
      ∀ (k : Nat) (ct : Contact K), cts[k]? = some ct →
        (info1.lo (index + 3 * k) = 0 ∧ info1.hi (index + 3 * k) = dInfinity ∧
          info1.findex (index + 3 * k) = -1) ∧
        (info1.lo (index + 3 * k + 1) = -c.mFrictionCoeff ∧
          info1.hi (index + 3 * k + 1) = (c.mFrictionCoeff : WithTop K) ∧
          info1.findex (index + 3 * k + 1) = ((index + 3 * k : Nat) : Int)) ∧
        (info1.lo (index + 3 * k + 2) = -c.mFrictionCoeff ∧
          info1.hi (index + 3 * k + 2) = (c.mFrictionCoeff : WithTop K) ∧
          info1.findex (index + 3 * k + 2) = ((index + 3 * k : Nat) : Int)) ∧
        (info1.b (index + 3 * k) = info.b (index + 3 * k) +
            bouncingVelocityFriction p c ct info.invTimeStep (info.b (index + 3 * k)) ∧
          info1.b (index + 3 * k + 1) = info.b (index + 3 * k + 1) ∧
          info1.b (index + 3 * k + 2) = info.b (index + 3 * k + 2)) ∧
        (info1.x (index + 3 * k) = 0 ∧ info1.x (index + 3 * k + 1) = 0 ∧
          info1.x (index + 3 * k + 2) = 0) := by
  induction cts with
  | nil =>
    intro index info info1 _ k ct hk
    simp at hk
  | cons ct0 rest ih =>
    intro index info info1 h k ct hk
    simp only [getInformationFriction] at h
    split_ifs at h with hw hf
    cases k with
    | zero =>
      simp only [List.getElem?_cons_zero, Option.some.injEq] at hk
      subst hk
      obtain ⟨-, -, hfr⟩ := getInformationFriction_frame p c rest _ _ _ h
      obtain ⟨x0, l0, u0, b0, f0⟩ := hfr index (Or.inl (by omega))
      obtain ⟨x1, l1, u1, b1, f1⟩ := hfr (index + 1) (Or.inl (by omega))
      obtain ⟨x2, l2, u2, b2, f2⟩ := hfr (index + 2) (Or.inl (by omega))
      simp (disch := omega) only [Function.update_noteq, Function.update_same]
        at x0 l0 u0 b0 f0 x1 l1 u1 b1 f1 x2 l2 u2 b2 f2
      simp only [Nat.mul_zero, Nat.add_zero]
      exact ⟨⟨l0, u0, f0.trans hf⟩, ⟨l1, u1, f1⟩, ⟨l2, u2, f2⟩, ⟨b0, b1, b2⟩, x0, x1, x2⟩
    | succ k =>
      simp only [List.getElem?_cons_succ] at hk
      have e : index + 3 * (k + 1) = index + 3 + 3 * k := by omega
      have r := ih _ _ _ h k ct hk
      rw [e]
      simp (disch := omega) only [Function.update_noteq] at r
      exact r

/-- The friction loop of `getInformation` runs to its end when its assertions hold. -/
theorem getInformationFriction_isSome (p : Params K) (c : ContactConstraint K)
    (cts : List (Contact K)) :
    ∀ (index : Nat) (info : ConstraintInfo K),
      (∀ k, k < cts.length →
        info.w (index + 3 * k) = 0 ∧ info.w (index + 3 * k + 1) = 0 ∧
          info.w (index + 3 * k + 2) = 0 ∧ info.findex (index + 3 * k) = -1) →
      ∃ info1, getInformationFriction p c cts index info = some info1 := by
  induction cts with
  | nil =>
    intro index info _
    exact ⟨info, rfl⟩
  | cons ct0 rest ih =>
    intro index info h
    obtain ⟨w0, w1, w2, f0⟩ := h 0 (by simp)
    simp only [Nat.mul_zero, Nat.add_zero] at w0 w1 w2 f0
    simp only [getInformationFriction, w0, w1, w2, f0, and_self, if_true]
    apply ih
    intro k hk
    have e : index + 3 * (k + 1) = index + 3 + 3 * k := by omega
    have hk1 := h (k + 1) (by simpa using hk)
    rw [e] at hk1
    simp (disch := omega) only [Function.update_noteq]
    exact hk1

/-- Rows below the loop counter and the inverse time step are not written by the frictionless
loop of `getInformation`, nor is any friction index. -/
theorem getInformationFrictionless_frame (p : Params K) (c : ContactConstraint K)
    (cts : List (Contact K)) :
    ∀ (i : Nat) (info info1 : ConstraintInfo K),
      getInformationFrictionless p c cts i info = some info1 →
      info1.findex = info.findex ∧ info1.invTimeStep = info.invTimeStep ∧
      ∀ j, (j < i ∨ i + cts.length ≤ j) →
        info1.x j = info.x j ∧ info1.lo j = info.lo j ∧ info1.hi j = info.hi j ∧
        info1.b j = info.b j ∧ info1.w j = info.w j := by
  induction cts with
  | nil =>
    intro i info info1 h
    simp only [getInformationFrictionless, Option.some.injEq] at h
    subst h
    simp
  | cons ct rest ih =>
    intro i info info1 h
    simp only [getInformationFrictionless] at h
    split_ifs at h with hf
    obtain ⟨h1, h2, h3⟩ := ih _ _ _ h
    refine ⟨h1, h2, ?_⟩
    intro j hj
    have hj1 : j < i + 1 ∨ i + 1 + rest.length ≤ j := by
      rcases hj with hj | hj
      · left; omega
      · right; simp only [List.length_cons] at hj; omega
    have e0 : j ≠ i := by
      rcases hj with hj | hj
      · omega
      · simp only [List.length_cons] at hj; omega
    obtain ⟨a1, a2, a3, a4, a5⟩ := h3 j hj1
    simp only [Function.update_apply, if_neg e0] at a1 a2 a3 a4 a5
    exact ⟨a1, a2, a3, a4, a5⟩

/-- What the frictionless loop of `getInformation` leaves in the row of contact `k`. -/
theorem getInformationFrictionless_rows (p : Params K) (c : ContactConstraint K)
    (cts : List (Contact K)) :
    ∀ (i : Nat) (info info1 : ConstraintInfo K),
      getInformationFrictionless p c cts i info = some info1 →
      ∀ (k : Nat) (ct : Contact K), cts[k]? = some ct →
        info1.lo (i + k) = 0 ∧ info1.hi (i + k) = dInfinity ∧ info1.findex (i + k) = -1 ∧
        info1.b (i + k) = info.b (i + k) +
            bouncingVelocityFrictionless p c ct info.invTimeStep (info.b (i + k)) ∧
        info1.x (i + k) = 0 ∧ info1.w (i + k) = 0 := by
  induction cts with
  | nil =>
    intro i info info1 _ k ct hk
    simp at hk
  | cons ct0 rest ih =>
    intro i info info1 h k ct hk
    simp only [getInformationFrictionless] at h
    split_ifs at h with hf
    cases k with
    | zero =>
      simp only [List.getElem?_cons_zero, Option.some.injEq] at hk
      subst hk
      obtain ⟨hfi, -, hfr⟩ := getInformationFrictionless_frame p c rest _ _ _ h
      obtain ⟨x0, l0, u0, b0, w0⟩ := hfr i (Or.inl (by omega))
      simp only [Function.update_same] at x0 l0 u0 b0 w0
      simp only [Nat.add_zero]
      refine ⟨l0, u0, ?_, b0, x0, w0⟩
      rw [hfi]
      exact hf
    | succ k =>
      simp only [List.getElem?_cons_succ] at hk
      have e : i + (k + 1) = i + 1 + k := by omega
      have r := ih _ _ _ h k ct hk
      rw [e]
      simp (disch := omega) only [Function.update_noteq] at r
      exact r

/-- The frictionless loop of `getInformation` runs to its end when its assertions hold. -/
theorem getInformationFrictionless_isSome (p : Params K) (c : ContactConstraint K)
    (cts : List (Contact K)) :
    ∀ (i : Nat) (info : ConstraintInfo K),
      (∀ k, k < cts.length → info.findex (i + k) = -1) →
      ∃ info1, getInformationFrictionless p c cts i info = some info1 := by
  induction cts with
  | nil =>
    intro i info _
    exact ⟨info, rfl⟩
  | cons ct0 rest ih =>
    intro i info h
    have f0 := h 0 (by simp)
    simp only [Nat.add_zero] at f0
    simp only [getInformationFrictionless, f0, if_true]
    apply ih
    intro k hk
    have e : i + (k + 1) = i + 1 + k := by omega
    have hk1 := h (k + 1) (by simpa using hk)
    rw [e] at hk1
    exact hk1

/-- The method `getInformation` returns when its assertions hold. -/
theorem getInformation_isSome (p : Params K) (c : ContactConstraint K) (wd : World K)
    (info : ConstraintInfo K) (h : getInformationAsserts c info) :
    ∃ info1, getInformation p c wd info = some info1 := by
  unfold getInformationAsserts at h
  unfold getInformation
  by_cases hf : c.mIsFrictionOn = true
  · simp only [hf, if_true] at h ⊢
    apply getInformationFriction_isSome
    intro k hk
    simpa using h k hk
  · simp only [hf] at h ⊢
    apply getInformationFrictionless_isSome
    intro k hk
    simpa using h k hk

/-- The value an iteration of `getRelVelocity` leaves in its row. -/
theorem getRelVelocityStep_same (c : ContactConstraint K) (wd : World K) (i : Nat)
    (relVel : Nat → K) :
    getRelVelocityStep c wd i relVel i =
      (0 - (if (wd.bodies c.mBodyNode1).impulseReponsible = true then
              (jacobianAt c.mJacobians1 i).dot (wd.bodies c.mBodyNode1).mV else 0)) -
        (if (wd.bodies c.mBodyNode2).impulseReponsible = true then
              (jacobianAt c.mJacobians2 i).dot (wd.bodies c.mBodyNode2).mV else 0) := by
  unfold getRelVelocityStep
  by_cases h1 : (wd.bodies c.mBodyNode1).impulseReponsible = true <;>
  by_cases h2 : (wd.bodies c.mBodyNode2).impulseReponsible = true <;>
  simp [h1, h2]

/-- The negative relative velocity `getRelVelocity` writes in a row below `mDim`. -/
theorem getRelVelocity_row (c : ContactConstraint K) (wd : World K) (relVel : Nat → K)
    (j : Nat) (h : j < c.mDim) :
    getRelVelocity c wd relVel j =
      (0 - (if (wd.bodies c.mBodyNode1).impulseReponsible = true then
              (jacobianAt c.mJacobians1 j).dot (wd.bodies c.mBodyNode1).mV else 0)) -
        (if (wd.bodies c.mBodyNode2).impulseReponsible = true then
              (jacobianAt c.mJacobians2 j).dot (wd.bodies c.mBodyNode2).mV else 0) := by
  unfold getRelVelocity
  generalize c.mDim = n at h
  induction n with
  | zero => omega
  | succ n ih =>
    rw [forLoop_succ]
    by_cases hj : j = n
    · subst hj
      exact getRelVelocityStep_same c wd j _
    · rw [getRelVelocityStep_other c wd n j _ hj]
      exact ih (by omega)

/-- The rows of the friction branch of `getInformation`, read off its result. -/
theorem getInformation_friction_rows (p : Params K) (c : ContactConstraint K) (wd : World K)
    (info info1 : ConstraintInfo K) (hf : c.mIsFrictionOn = true)
    (h : getInformation p c wd info = some info1) (k : Nat) (ct : Contact K)
    (hk : c.mContacts[k]? = some ct) :
    (info1.lo (3 * k) = 0 ∧ info1.hi (3 * k) = dInfinity ∧ info1.findex (3 * k) = -1) ∧
    (info1.lo (3 * k + 1) = -c.mFrictionCoeff ∧
      info1.hi (3 * k + 1) = (c.mFrictionCoeff : WithTop K) ∧
      info1.findex (3 * k + 1) = ((3 * k : Nat) : Int)) ∧
    (info1.lo (3 * k + 2) = -c.mFrictionCoeff ∧
      info1.hi (3 * k + 2) = (c.mFrictionCoeff : WithTop K) ∧
      info1.findex (3 * k + 2) = ((3 * k : Nat) : Int)) ∧
    (info1.b (3 * k) = getRelVelocity c wd info.b (3 * k) +
        bouncingVelocityFriction p c ct info.invTimeStep (getRelVelocity c wd info.b (3 * k)) ∧
      info1.b (3 * k + 1) = getRelVelocity c wd info.b (3 * k + 1) ∧
      info1.b (3 * k + 2) = getRelVelocity c wd info.b (3 * k + 2)) ∧
    (info1.x (3 * k) = 0 ∧ info1.x (3 * k + 1) = 0 ∧ info1.x (3 * k + 2) = 0) := by
  unfold getInformation at h
  simp only [hf, if_true] at h
  have r := getInformationFriction_rows p c c.mContacts 0 _ info1 h k ct hk
  simpa only [Nat.zero_add] using r

/-- The row of the frictionless branch of `getInformation`, read off its result. -/
theorem getInformation_frictionless_rows (p : Params K) (c : ContactConstraint K)
    (wd : World K) (info info1 : ConstraintInfo K) (hf : c.mIsFrictionOn = false)
    (h : getInformation p c wd info = some info1) (k : Nat) (ct : Contact K)
    (hk : c.mContacts[k]? = some ct) :
    info1.lo k = 0 ∧ info1.hi k = dInfinity ∧ info1.findex k = -1 ∧
    info1.b k = getRelVelocity c wd info.b k +
        bouncingVelocityFrictionless p c ct info.invTimeStep (getRelVelocity c wd info.b k) ∧
    info1.x k = 0 ∧ info1.w k = 0 := by
  unfold getInformation at h
  simp only [hf, Bool.false_eq_true, if_false] at h
  have r := getInformationFrictionless_rows p c c.mContacts 0 _ info1 h k ct hk
  simpa only [Nat.zero_add] using r

/-- The penetration correction as a clamp, when the maximum error-reduction velocity is not
negative. -/
theorem penetrationCorrection_eq_min (depth allowance erp invTimeStep maxErv : K)
    (h : 0 ≤ maxErv) :
    penetrationCorrection depth allowance erp invTimeStep maxErv =
      min (max 0 (depth - allowance) * erp * invTimeStep) maxErv := by
  unfold penetrationCorrection
  by_cases h1 : depth - allowance < 0
  · simp only [h1, if_true]
    rw [max_eq_left (le_of_lt h1)]
    simp [h]
  · simp only [h1, if_false]
    rw [max_eq_right (not_lt.mp h1), mul_assoc]
    by_cases h2 : (depth - allowance) * (erp * invTimeStep) > maxErv
    · simp only [h2, if_true]
      rw [min_eq_right (le_of_lt h2)]
    · simp only [h2, if_false]
      rw [min_eq_left (not_lt.mp h2)]

end LoopLemmas

/-! ## The constructor -/

section Constructor

variable {K : Type} [LinearOrderedField K]

/-- The scalar members and the dimension of a constraint built by the constructor. -/
theorem ctor_fields (fl : FloatLib K) (wd : World K) (contact : Contact K)
    (c : ContactConstraint K) (h : ContactConstraint.ctor fl wd contact = some c) :
    c.mContacts = [contact] ∧ c.mBodyNode1 = contact.bodyNode1 ∧
    c.mBodyNode2 = contact.bodyNode2 ∧
    c.mRestitutionCoeff = (wd.bodies contact.bodyNode1).mRestitutionCoeff *
      (wd.bodies contact.bodyNode2).mRestitutionCoeff ∧
    (c.mIsBounceOn = true ↔
      (wd.bodies contact.bodyNode1).mRestitutionCoeff *
        (wd.bodies contact.bodyNode2).mRestitutionCoeff > DART_RESTITUTION_COEFF_THRESHOLD) ∧
    c.mFrictionCoeff = min (wd.bodies contact.bodyNode1).mFrictionCoeff
      (wd.bodies contact.bodyNode2).mFrictionCoeff ∧
    (c.mIsFrictionOn = true ↔
      min (wd.bodies contact.bodyNode1).mFrictionCoeff
        (wd.bodies contact.bodyNode2).mFrictionCoeff > DART_FRICTION_COEFF_THRESHOLD) ∧
    c.mDim = (if c.mIsFrictionOn = true then 3 else 1) := by
  unfold ContactConstraint.ctor at h
  by_cases hmu : min (wd.bodies contact.bodyNode1).mFrictionCoeff
      (wd.bodies contact.bodyNode2).mFrictionCoeff > DART_FRICTION_COEFF_THRESHOLD
  · simp only [hmu, if_true] at h
    split at h
    · simp only [Option.some.injEq] at h
      subst h
      simp [hmu]
    · exact absurd h (by simp)
  · simp only [hmu, if_false] at h
    simp only [Bool.false_eq_true, if_false, Option.some.injEq] at h
    subst h
    simp [hmu]

/-- The frictionless constructor has no assertion: it always returns. -/
theorem ctor_frictionless_isSome (fl : FloatLib K) (wd : World K) (contact : Contact K)
    (hmu : ¬ min (wd.bodies contact.bodyNode1).mFrictionCoeff
      (wd.bodies contact.bodyNode2).mFrictionCoeff > DART_FRICTION_COEFF_THRESHOLD) :
    ∃ c, ContactConstraint.ctor fl wd contact = some c := by
  unfold ContactConstraint.ctor
  simp only [hmu, if_false]
  simp

/-- The frictional constructor returns when the tangent-basis assertions hold. -/
theorem ctor_friction_isSome (fl : FloatLib K) (wd : World K) (contact : Contact K)
    (hmu : min (wd.bodies contact.bodyNode1).mFrictionCoeff
      (wd.bodies contact.bodyNode2).mFrictionCoeff > DART_FRICTION_COEFF_THRESHOLD)
    (ht : tangentBasisAsserts contact.normal
      (getTangentBasisMatrixODE fl Vector3d.UnitZ contact.normal)) :
    ∃ c, ContactConstraint.ctor fl wd contact = some c := by
  unfold ContactConstraint.ctor
  simp only [hmu, if_true, jacobiansFriction, ht]
  simp

/-- C6: a constraint built by the constructor has dimension 3 exactly when
`min(mu1, mu2) > FRICTION_THRESHOLD` (and the constructor returns one when the tangent-basis
assertions hold); otherwise the constructor always returns a frictionless constraint of
dimension 1, whose `getInformation` returns when the friction index of row 0 is -1 and writes
bounds, bias and initial guess of row 0 and leaves every other row of every buffer as it was. -/
theorem C6_dimension_and_frictionless_rows (fl : FloatLib K) (wd0 : World K)
    (contact : Contact K) :
    (∀ c, ContactConstraint.ctor fl wd0 contact = some c →
      (c.mDim = 3 ↔ min (wd0.bodies contact.bodyNode1).mFrictionCoeff
        (wd0.bodies contact.bodyNode2).mFrictionCoeff > DART_FRICTION_COEFF_THRESHOLD) ∧
      (c.mIsFrictionOn = true ↔ min (wd0.bodies contact.bodyNode1).mFrictionCoeff
        (wd0.bodies contact.bodyNode2).mFrictionCoeff > DART_FRICTION_COEFF_THRESHOLD)) ∧
    (min (wd0.bodies contact.bodyNode1).mFrictionCoeff
        (wd0.bodies contact.bodyNode2).mFrictionCoeff > DART_FRICTION_COEFF_THRESHOLD →
      tangentBasisAsserts contact.normal
        (getTangentBasisMatrixODE fl Vector3d.UnitZ contact.normal) →
      ∃ c, ContactConstraint.ctor fl wd0 contact = some c ∧ c.mDim = 3) ∧
    (¬ min (wd0.bodies contact.bodyNode1).mFrictionCoeff
        (wd0.bodies contact.bodyNode2).mFrictionCoeff > DART_FRICTION_COEFF_THRESHOLD →
      ∃ c, ContactConstraint.ctor fl wd0 contact = some c ∧ c.mIsFrictionOn = false ∧
        c.mDim = 1 ∧
        ∀ (p : Params K) (wd : World K) (info : ConstraintInfo K),
          (info.findex 0 = -1 → ∃ info1, getInformation p c wd info = some info1) ∧
          ∀ info1, getInformation p c wd info = some info1 →
            (info1.lo 0 = 0 ∧ info1.hi 0 = dInfinity ∧
              info1.b 0 = getRelVelocity c wd info.b 0 +
                bouncingVelocityFrictionless p c contact info.invTimeStep
                  (getRelVelocity c wd info.b 0) ∧
              info1.x 0 = 0) ∧
            ∀ j, 1 ≤ j →
              info1.x j = info.x j ∧ info1.lo j = info.lo j ∧ info1.hi j = info.hi j ∧
              info1.b j = info.b j ∧ info1.w j = info.w j ∧
              info1.findex j = info.findex j) := by
  refine ⟨?_, ?_, ?_⟩
  · intro c hc
    obtain ⟨-, -, -, -, -, -, hF, hD⟩ := ctor_fields fl wd0 contact c hc
    refine ⟨?_, hF⟩
    rw [← hF, hD]
    by_cases hf : c.mIsFrictionOn = true <;> simp [hf]
  · intro hmu ht
    obtain ⟨c, hc⟩ := ctor_friction_isSome fl wd0 contact hmu ht
    obtain ⟨-, -, -, -, -, -, hF, hD⟩ := ctor_fields fl wd0 contact c hc
    refine ⟨c, hc, ?_⟩
    rw [hD, if_pos (hF.mpr hmu)]
  · intro hmu
    obtain ⟨c, hc⟩ := ctor_frictionless_isSome fl wd0 contact hmu
    obtain ⟨hcts, -, -, -, -, -, hF, hD⟩ := ctor_fields fl wd0 contact c hc
    have hf0 : c.mIsFrictionOn = false := by
      by_cases hf : c.mIsFrictionOn = true
      · exact absurd (hF.mp hf) hmu
      · simpa using hf
    have hd1 : c.mDim = 1 := by rw [hD]; simp [hf0]
    refine ⟨c, hc, hf0, hd1, ?_⟩
    intro p wd info
    constructor
    · intro hfi
      apply getInformation_isSome
      unfold getInformationAsserts assertsFrictionless
      simp only [hf0, Bool.false_eq_true, if_false, hcts, List.length_singleton]
      intro k hk
      have : k = 0 := by omega
      subst this
      exact hfi
    · intro info1 h
      have hk : c.mContacts[0]? = some contact := by rw [hcts]; rfl
      obtain ⟨a1, a2, -, a4, a5, -⟩ :=
        getInformation_frictionless_rows p c wd info info1 hf0 h 0 contact hk
      refine ⟨⟨a1, a2, a4, a5⟩, ?_⟩
      intro j hj
      unfold getInformation at h
      simp only [hf0, Bool.false_eq_true, if_false] at h
      obtain ⟨hfi, -, hfr⟩ := getInformationFrictionless_frame p c c.mContacts 0 _ info1 h
      obtain ⟨b1, b2, b3, b4, b5⟩ := hfr j (Or.inr (by rw [hcts]; simpa using hj))
      simp only at b1 b2 b3 b4 b5 hfi
      rw [getRelVelocity_frame c wd info.b j (by omega)] at b4
      exact ⟨b1, b2, b3, b4, b5, by rw [hfi]⟩

/-- C10: building the constraint from the same contact with its two bodies exchanged gives the
same restitution coefficient, friction coefficient, bounce flag, friction flag and dimension,
and the constructor returns for the one exactly when it returns for the other. -/
theorem C10_coefficients_symmetric_in_bodies (fl : FloatLib K) (wd : World K)
    (contact : Contact K) :
    (ContactConstraint.ctor fl wd contact.swapBodies).map
        (fun c => (c.mRestitutionCoeff, c.mFrictionCoeff, c.mIsBounceOn, c.mIsFrictionOn,
          c.mDim)) =
      (ContactConstraint.ctor fl wd contact).map
        (fun c => (c.mRestitutionCoeff, c.mFrictionCoeff, c.mIsBounceOn, c.mIsFrictionOn,
          c.mDim)) := by
  unfold ContactConstraint.ctor Contact.swapBodies
  simp only [jacobiansFriction]
  rw [mul_comm (wd.bodies contact.bodyNode2).mRestitutionCoeff,
    min_comm (wd.bodies contact.bodyNode2).mFrictionCoeff]
  by_cases hmu : min (wd.bodies contact.bodyNode1).mFrictionCoeff
      (wd.bodies contact.bodyNode2).mFrictionCoeff > DART_FRICTION_COEFF_THRESHOLD
  · by_cases ht : tangentBasisAsserts contact.normal
        (getTangentBasisMatrixODE fl Vector3d.UnitZ contact.normal)
    · simp [hmu, ht]
    · simp [hmu, ht]
  · simp [hmu]

end Constructor

/-! ## Claims on `getInformation` -/

section GetInformation

variable {K : Type} [LinearOrderedField K]

/-- C1 (amended): with friction on, bounce off and a maximum error-reduction velocity that is not
negative, `getInformation` returns whenever its assertions hold, and the normal row of every
contact then holds the negative relative normal velocity of `getRelVelocity` plus the penetration
correction `min(max(0, depth - allowance) * ERP * invTimeStep, MAX_ERV)`. -/
theorem C1_normal_bias_is_clamped_penetration_correction (p : Params K)
    (c : ContactConstraint K) (wd : World K) (info : ConstraintInfo K)
    (hf : c.mIsFrictionOn = true) (hb : c.mIsBounceOn = false)
    (herv : 0 ≤ p.mMaxErrorReductionVelocity) (ha : getInformationAsserts c info) :
    ∃ info1, getInformation p c wd info = some info1 ∧
      ∀ (k : Nat) (ct : Contact K), c.mContacts[k]? = some ct →
        info1.b (3 * k) = getRelVelocity c wd info.b (3 * k) +
          min (max 0 (ct.penetrationDepth - p.mErrorAllowance) * p.mErrorReductionParameter *
            info.invTimeStep) p.mMaxErrorReductionVelocity := by
  obtain ⟨info1, h⟩ := getInformation_isSome p c wd info ha
  refine ⟨info1, h, ?_⟩
  intro k ct hk
  obtain ⟨-, -, -, ⟨hb0, -, -⟩, -⟩ := getInformation_friction_rows p c wd info info1 hf h k ct hk
  rw [hb0, ← penetrationCorrection_eq_min _ _ _ _ _ herv]
  simp [bouncingVelocityFriction, restitution, hb]

/-- The restitution step spelled out: it replaces the penetration correction only when the
restitution velocity exceeds both the bouncing-velocity threshold and that correction. -/
theorem restitution_on (e nrv beta : K) :
    restitution true e nrv beta =
      (if e * nrv > DART_BOUNCING_VELOCITY_THRESHOLD ∧ e * nrv > beta then
        min (e * nrv) DART_MAX_BOUNCING_VELOCITY else beta) := by
  unfold restitution
  rw [mul_comm nrv e]
  by_cases h1 : e * nrv > DART_BOUNCING_VELOCITY_THRESHOLD
  · by_cases h2 : e * nrv > beta
    · by_cases h3 : e * nrv > DART_MAX_BOUNCING_VELOCITY
      · simp only [h1, h2, h3, if_true, and_self]
        rw [min_eq_right (le_of_lt h3)]
      · simp only [h1, h2, h3, if_true, if_false, and_self]
        rw [min_eq_left (not_lt.mp h3)]
    · simp [h1, h2]
  · simp [h1]

/-- C2 (amended): for a constraint built by the constructor from bodies with
`e = e1 * e2 > RESTITUTION_THRESHOLD`, `getInformation` returns whenever its assertions hold and
the bias added to the normal row is `min(e * (-v_rel_n), MAX_BOUNCE_VEL)` when `e * (-v_rel_n)`
exceeds both `BOUNCE_VEL_THRESHOLD` and the penetration correction, and the penetration
correction otherwise. -/
theorem C2_restitution_bias_with_threshold (fl : FloatLib K) (wd0 wd : World K)
    (contact : Contact K) (c : ContactConstraint K) (p : Params K) (info : ConstraintInfo K)
    (hc : ContactConstraint.ctor fl wd0 contact = some c)
    (he : (wd0.bodies contact.bodyNode1).mRestitutionCoeff *
      (wd0.bodies contact.bodyNode2).mRestitutionCoeff > DART_RESTITUTION_COEFF_THRESHOLD)
    (ha : getInformationAsserts c info) :
    ∃ info1, getInformation p c wd info = some info1 ∧
      info1.b 0 = getRelVelocity c wd info.b 0 +
        (if (wd0.bodies contact.bodyNode1).mRestitutionCoeff *
              (wd0.bodies contact.bodyNode2).mRestitutionCoeff *
                getRelVelocity c wd info.b 0 > DART_BOUNCING_VELOCITY_THRESHOLD ∧
            (wd0.bodies contact.bodyNode1).mRestitutionCoeff *
              (wd0.bodies contact.bodyNode2).mRestitutionCoeff *
                getRelVelocity c wd info.b 0 >
              (if c.mIsFrictionOn = true then
                penetrationCorrection contact.penetrationDepth p.mErrorAllowance
                  p.mErrorReductionParameter info.invTimeStep p.mMaxErrorReductionVelocity
              else
                penetrationCorrection contact.penetrationDepth DART_ERROR_ALLOWANCE
                  p.mErrorReductionParameter info.invTimeStep DART_MAX_ERV) then
          min ((wd0.bodies contact.bodyNode1).mRestitutionCoeff *
              (wd0.bodies contact.bodyNode2).mRestitutionCoeff *
                getRelVelocity c wd info.b 0) DART_MAX_BOUNCING_VELOCITY
        else
          (if c.mIsFrictionOn = true then
            penetrationCorrection contact.penetrationDepth p.mErrorAllowance
              p.mErrorReductionParameter info.invTimeStep p.mMaxErrorReductionVelocity
          else
            penetrationCorrection contact.penetrationDepth DART_ERROR_ALLOWANCE
              p.mErrorReductionParameter info.invTimeStep DART_MAX_ERV)) := by
  obtain ⟨hcts, -, -, hE, hB, -, -, -⟩ := ctor_fields fl wd0 contact c hc
  have hbounce : c.mIsBounceOn = true := hB.mpr he
  have hk : c.mContacts[0]? = some contact := by rw [hcts]; rfl
  obtain ⟨info1, h⟩ := getInformation_isSome p c wd info ha
  refine ⟨info1, h, ?_⟩
  rw [← hE]
  by_cases hf : c.mIsFrictionOn = true
  · obtain ⟨-, -, -, ⟨hb0, -, -⟩, -⟩ :=
      getInformation_friction_rows p c wd info info1 hf h 0 contact hk
    simp only [Nat.mul_zero] at hb0
    rw [hb0]
    simp only [hf, if_true, bouncingVelocityFriction, hbounce, restitution_on]
  · have hf0 : c.mIsFrictionOn = false := by simpa using hf
    obtain ⟨-, -, -, hb0, -, -⟩ :=
      getInformation_frictionless_rows p c wd info info1 hf0 h 0 contact hk
    rw [hb0]
    simp only [hf0, Bool.false_eq_true, if_false, bouncingVelocityFrictionless, hbounce,
      restitution_on]

/-- C3: `getInformation` returns whenever its assertions hold, and in every result, with
friction on or off, the normal row of each contact has lower bound 0, upper bound `dInfinity`
and friction index -1. -/
theorem C3_normal_row_bounds (p : Params K) (c : ContactConstraint K) (wd : World K)
    (info : ConstraintInfo K) :
    (getInformationAsserts c info → ∃ info1, getInformation p c wd info = some info1) ∧
    ∀ info1, getInformation p c wd info = some info1 →
      ∀ k, k < c.mContacts.length →
        info1.lo (if c.mIsFrictionOn = true then 3 * k else k) = 0 ∧
        info1.hi (if c.mIsFrictionOn = true then 3 * k else k) = dInfinity ∧
        info1.findex (if c.mIsFrictionOn = true then 3 * k else k) = -1 := by
  refine ⟨getInformation_isSome p c wd info, ?_⟩
  intro info1 h k hk
  have hk1 : c.mContacts[k]? = some (c.mContacts.get ⟨k, hk⟩) := by
    simp [List.getElem?_eq_getElem hk]
  by_cases hf : c.mIsFrictionOn = true
  · obtain ⟨h0, -⟩ := getInformation_friction_rows p c wd info info1 hf h k _ hk1
    simpa only [hf, if_true] using h0
  · have hf0 : c.mIsFrictionOn = false := by simpa using hf
    obtain ⟨a, b, d, -⟩ := getInformation_frictionless_rows p c wd info info1 hf0 h k _ hk1
    simp only [hf0, Bool.false_eq_true, if_false]
    exact ⟨a, b, d⟩

/-- C4: for a constraint built by the constructor with friction on, `getInformation` returns
whenever its assertions hold, and both tangent rows (rows 1 and 2) then have lower bound `-mu`
and upper bound `mu` with `mu = min(mu1, mu2)`, and friction index 0, the normal row. -/
theorem C4_tangent_row_bounds (fl : FloatLib K) (wd0 wd : World K) (contact : Contact K)
    (c : ContactConstraint K) (p : Params K) (info : ConstraintInfo K)
    (hc : ContactConstraint.ctor fl wd0 contact = some c)
    (hf : c.mIsFrictionOn = true) (ha : getInformationAsserts c info) :
    ∃ info1, getInformation p c wd info = some info1 ∧
      info1.lo 1 = -min (wd0.bodies contact.bodyNode1).mFrictionCoeff
        (wd0.bodies contact.bodyNode2).mFrictionCoeff ∧
      info1.hi 1 = ((min (wd0.bodies contact.bodyNode1).mFrictionCoeff
        (wd0.bodies contact.bodyNode2).mFrictionCoeff : K) : WithTop K) ∧
      info1.findex 1 = 0 ∧
      info1.lo 2 = -min (wd0.bodies contact.bodyNode1).mFrictionCoeff
        (wd0.bodies contact.bodyNode2).mFrictionCoeff ∧
      info1.hi 2 = ((min (wd0.bodies contact.bodyNode1).mFrictionCoeff
        (wd0.bodies contact.bodyNode2).mFrictionCoeff : K) : WithTop K) ∧
      info1.findex 2 = 0 := by
  obtain ⟨hcts, -, -, -, -, hMu, -, -⟩ := ctor_fields fl wd0 contact c hc
  have hk : c.mContacts[0]? = some contact := by rw [hcts]; rfl
  obtain ⟨info1, h⟩ := getInformation_isSome p c wd info ha
  obtain ⟨-, ⟨l1, u1, f1⟩, ⟨l2, u2, f2⟩, -, -⟩ :=
    getInformation_friction_rows p c wd info info1 hf h 0 contact hk
  simp only [Nat.mul_zero, Nat.zero_add, Nat.cast_zero, hMu] at l1 u1 f1 l2 u2 f2
  exact ⟨info1, h, l1, u1, f1, l2, u2, f2⟩

end GetInformation

/-! ## Claims on the impulse methods -/

section Impulses

variable {K : Type} [LinearOrderedField K]

theorem Vector6d.add_zero (a : Vector6d K) : a.add Vector6d.zero = a := by
  ext <;> simp [Vector6d.add, Vector6d.zero, Vector3d.add, Vector3d.zero]

theorem Vector6d.add_assoc (a b c : Vector6d K) : (a.add b).add c = a.add (b.add c) := by
  ext <;> simp [Vector6d.add, Vector3d.add] <;> ring

theorem Vector6d.add_right_comm (a b c : Vector6d K) : (a.add b).add c = (a.add c).add b := by
  ext <;> simp [Vector6d.add, Vector3d.add] <;> ring

theorem Vector6d.zero_add (a : Vector6d K) : Vector6d.zero.add a = a := by
  ext <;> simp [Vector6d.add, Vector6d.zero, Vector3d.add, Vector3d.zero]

theorem impulseSum_zero (js : List (Vector6d K)) (lambda : Nat → K) :
    impulseSum js lambda 0 = Vector6d.zero := by
  simp [impulseSum, forLoop_zero]

theorem impulseSum_succ (js : List (Vector6d K)) (lambda : Nat → K) (n : Nat) :
    impulseSum js lambda (n + 1) =
      (impulseSum js lambda n).add (Vector6d.smul (lambda n) (jacobianAt js n)) := by
  simp [impulseSum, forLoop_succ]

/-- An iteration of `getVelocityChange` writes row `i` only. -/
theorem getVelocityChangeStep_other (c : ContactConstraint K) (wd : World K) (i j : Nat)
    (vel : Nat → K) (h : j ≠ i) : getVelocityChangeStep c wd i vel j = vel j := by
  unfold getVelocityChangeStep
  split_ifs <;> simp [Function.update_apply, h]

/-- The value an iteration of `getVelocityChange` leaves in its row. -/
theorem getVelocityChangeStep_same (c : ContactConstraint K) (wd : World K) (i : Nat)
    (vel : Nat → K) :
    getVelocityChangeStep c wd i vel i =
      (if (wd.skeletons (wd.bodies c.mBodyNode1).mSkeleton).mIsImpulseApplied = true ∧
            (wd.bodies c.mBodyNode1).impulseReponsible = true then
          (jacobianAt c.mJacobians1 i).dot (wd.bodies c.mBodyNode1).mDelV else 0) +
        (if (wd.skeletons (wd.bodies c.mBodyNode2).mSkeleton).mIsImpulseApplied = true ∧
            (wd.bodies c.mBodyNode2).impulseReponsible = true then
          (jacobianAt c.mJacobians2 i).dot (wd.bodies c.mBodyNode2).mDelV else 0) := by
  unfold getVelocityChangeStep
  split_ifs <;> simp

/-- The loop of `getVelocityChange` in closed form. -/
theorem getVelocityChange_loop (c : ContactConstraint K) (wd : World K) (vel : Nat → K)
    (n j : Nat) :
    forLoop n (getVelocityChangeStep c wd) vel j =
      if j < n then
        (if (wd.skeletons (wd.bodies c.mBodyNode1).mSkeleton).mIsImpulseApplied = true ∧
              (wd.bodies c.mBodyNode1).impulseReponsible = true then
            (jacobianAt c.mJacobians1 j).dot (wd.bodies c.mBodyNode1).mDelV else 0) +
          (if (wd.skeletons (wd.bodies c.mBodyNode2).mSkeleton).mIsImpulseApplied = true ∧
              (wd.bodies c.mBodyNode2).impulseReponsible = true then
            (jacobianAt c.mJacobians2 j).dot (wd.bodies c.mBodyNode2).mDelV else 0)
      else vel j := by
  induction n with
  | zero => simp [forLoop_zero]
  | succ n ih =>
    rw [forLoop_succ]
    by_cases hj : j = n
    · subst hj
      have hlt1 : j < j + 1 := Nat.lt_succ_self j
      simp only [getVelocityChangeStep_same, hlt1, if_true]
    · rw [getVelocityChangeStep_other c wd n j _ hj, ih]
      by_cases hlt : j < n
      · have hlt1 : j < n + 1 := by omega
        simp only [hlt, hlt1, if_true]
      · have hlt1 : ¬ j < n + 1 := by omega
        simp only [hlt, hlt1, if_false]

/-- C8: when the assertions of `applyUnitImpulse(k)` hold (`k < mDim`, the constraint is active
and one body is impulse-responsible) it returns, and then `getVelocityChange` with and without
CFM both return, agree in every row but `k`, every row `i < mDim` without CFM holds
`J1[i]·dV1 + J2[i]·dV2` over the impulse-responsible bodies whose skeleton has an impulse
applied, and row `k` with CFM holds that value multiplied by `1 + CFM`. -/
theorem C8_velocity_change_cfm_only_on_applied_row (ops : SkeletonOps K) (p : Params K)
    (c : ContactConstraint K) (wd : World K) (k : Nat) (out : Nat → K)
    (hk : k < c.mDim) (hact : c.mActive = true)
    (hresp : (wd.bodies c.mBodyNode1).impulseReponsible = true ∨
      (wd.bodies c.mBodyNode2).impulseReponsible = true) :
    ∃ wd1 c1 v0 v1, applyUnitImpulse ops c wd k = some (wd1, c1) ∧
      getVelocityChange p c1 wd1 out false = some v0 ∧
      getVelocityChange p c1 wd1 out true = some v1 ∧
      (∀ i, i ≠ k → v1 i = v0 i) ∧
      (∀ i, i < c.mDim → v0 i =
        (if (wd1.skeletons (wd1.bodies c.mBodyNode1).mSkeleton).mIsImpulseApplied = true ∧
              (wd1.bodies c.mBodyNode1).impulseReponsible = true then
            (jacobianAt c.mJacobians1 i).dot (wd1.bodies c.mBodyNode1).mDelV else 0) +
          (if (wd1.skeletons (wd1.bodies c.mBodyNode2).mSkeleton).mIsImpulseApplied = true ∧
              (wd1.bodies c.mBodyNode2).impulseReponsible = true then
            (jacobianAt c.mJacobians2 i).dot (wd1.bodies c.mBodyNode2).mDelV else 0)) ∧
      v1 k = v0 k * (1 + p.mConstraintForceMixing) := by
  have happ : ∃ wd1, applyUnitImpulse ops c wd k =
      some (wd1, { c with mAppliedImpulseIndex := some k }) := by
    unfold applyUnitImpulse
    rw [if_pos ⟨hk, hact, hresp⟩]
    exact ⟨_, rfl⟩
  obtain ⟨wd1, h1⟩ := happ
  refine ⟨wd1, _, _, _, h1, rfl, rfl, ?_, ?_, ?_⟩
  · intro i hi
    simp only [Function.update_apply, if_neg hi]
  · intro i hi
    rw [getVelocityChange_loop]
    simp only [if_pos hi]
  · simp only [Function.update_same]
    ring

/-- The flags and the accumulators after the two guarded calls of one row of `applyImpulse`. -/
theorem applyImpulseRow_spec (c : ContactConstraint K) (lambda : Nat → K) (index : Nat)
    (wd : World K) (body : Nat) :
    ((applyImpulseRow c lambda index wd).bodies body).impulseReponsible =
        (wd.bodies body).impulseReponsible ∧
    ((applyImpulseRow c lambda index wd).bodies body).mConstraintImpulse =
      (((wd.bodies body).mConstraintImpulse).add
        (if body = c.mBodyNode1 ∧ (wd.bodies c.mBodyNode1).impulseReponsible = true then
          Vector6d.smul (lambda index) (jacobianAt c.mJacobians1 index) else Vector6d.zero)).add
        (if body = c.mBodyNode2 ∧ (wd.bodies c.mBodyNode2).impulseReponsible = true then
          Vector6d.smul (lambda index) (jacobianAt c.mJacobians2 index) else Vector6d.zero) := by
  unfold applyImpulseRow addConstraintImpulse
  by_cases h1 : (wd.bodies c.mBodyNode1).impulseReponsible = true <;>
  by_cases h2 : (wd.bodies c.mBodyNode2).impulseReponsible = true <;>
  by_cases e1 : body = c.mBodyNode1 <;>
  by_cases e2 : body = c.mBodyNode2 <;>
  by_cases e12 : c.mBodyNode2 = c.mBodyNode1 <;>
  simp_all [Function.update_apply, Vector6d.add_zero]

theorem Vector6d.add_add_add_comm (a s1 s2 j1 j2 : Vector6d K) :
    (((a.add s1).add s2).add j1).add j2 = (a.add (s1.add j1)).add (s2.add j2) := by
  ext <;> simp [Vector6d.add, Vector3d.add] <;> ring

/-- One row of `applyImpulse` takes the accumulated state of `n` rows to that of `n + 1`. -/
theorem applyImpulseRow_accumulated (c : ContactConstraint K) (lambda : Nat → K)
    (wd0 wd : World K) (n : Nat) (h : ImpulseAccumulated c lambda wd0 n wd) :
    ImpulseAccumulated c lambda wd0 (n + 1) (applyImpulseRow c lambda n wd) := by
  intro body
  obtain ⟨f, a⟩ := applyImpulseRow_spec c lambda n wd body
  obtain ⟨hf, ha⟩ := h body
  refine ⟨f.trans hf, ?_⟩
  rw [a, ha, (h c.mBodyNode1).1, (h c.mBodyNode2).1, impulseSum_succ, impulseSum_succ]
  by_cases c1 : body = c.mBodyNode1 ∧ (wd0.bodies c.mBodyNode1).impulseReponsible = true <;>
  by_cases c2 : body = c.mBodyNode2 ∧ (wd0.bodies c.mBodyNode2).impulseReponsible = true
  · rw [if_pos c1, if_pos c2, if_pos c1, if_pos c2, if_pos c1, if_pos c2]
    exact Vector6d.add_add_add_comm _ _ _ _ _
  · rw [if_pos c1, if_neg c2, if_pos c1, if_neg c2, if_pos c1, if_neg c2]
    simp only [Vector6d.add_zero]
    exact Vector6d.add_assoc _ _ _
  · rw [if_neg c1, if_pos c2, if_neg c1, if_pos c2, if_neg c1, if_pos c2]
    simp only [Vector6d.add_zero]
    exact Vector6d.add_assoc _ _ _
  · rw [if_neg c1, if_neg c2, if_neg c1, if_neg c2, if_neg c1, if_neg c2]
    simp only [Vector6d.add_zero]

/-- The friction loop of `applyImpulse` accumulates three rows per contact. -/
theorem applyImpulseFriction_accumulated (c : ContactConstraint K) (lambda : Nat → K)
    (wd0 : World K) (cts : List (Contact K)) :
    ∀ (index : Nat) (wd : World K), ImpulseAccumulated c lambda wd0 index wd →
      ImpulseAccumulated c lambda wd0 (index + 3 * cts.length)
        (applyImpulseFriction c lambda cts index wd) := by
  induction cts with
  | nil =>
    intro index wd h
    simpa [applyImpulseFriction] using h
  | cons ct rest ih =>
    intro index wd h
    have h1 := applyImpulseRow_accumulated c lambda wd0 _ index h
    have h2 := applyImpulseRow_accumulated c lambda wd0 _ (index + 1) h1
    have h3 := applyImpulseRow_accumulated c lambda wd0 _ (index + 2) h2
    have h4 := ih (index + 3) _ h3
    have e : index + 3 * (ct :: rest).length = index + 3 + 3 * rest.length := by
      simp only [List.length_cons]; omega
    rw [e]
    exact h4

/-- The frictionless loop of `applyImpulse` accumulates one row per contact. -/
theorem applyImpulseFrictionless_accumulated (c : ContactConstraint K) (lambda : Nat → K)
    (wd0 : World K) (cts : List (Contact K)) :
    ∀ (i : Nat) (wd : World K), ImpulseAccumulated c lambda wd0 i wd →
      ImpulseAccumulated c lambda wd0 (i + cts.length)
        (applyImpulseFrictionless c lambda cts i wd) := by
  induction cts with
  | nil =>
    intro i wd h
    simpa [applyImpulseFrictionless] using h
  | cons ct rest ih =>
    intro i wd h
    have h1 := applyImpulseRow_accumulated c lambda wd0 _ i h
    have h4 := ih (i + 1) _ h1
    have e : i + (ct :: rest).length = i + 1 + rest.length := by
      simp only [List.length_cons]; omega
    rw [e]
    exact h4

/-- C9: for every impulse vector `lambda` and every body node, `applyImpulse` leaves in the
body's constraint-impulse accumulator its old value plus, if the body is body 1 of the
constraint and impulse-responsible, the sum over all rows `r` (3 per contact with friction, 1
without) of `J1[r] * lambda[r]`, plus the like sum of `J2[r] * lambda[r]` if it is body 2 and
impulse-responsible; a body that is not impulse-responsible gets nothing added. -/
theorem C9_apply_impulse_accumulates_row_sums (c : ContactConstraint K) (lambda : Nat → K)
    (wd : World K) (body : Nat) :
    ((applyImpulse c lambda wd).bodies body).mConstraintImpulse =
      (((wd.bodies body).mConstraintImpulse).add
        (if body = c.mBodyNode1 ∧ (wd.bodies c.mBodyNode1).impulseReponsible = true then
          impulseSum c.mJacobians1 lambda (impulseRows c) else Vector6d.zero)).add
        (if body = c.mBodyNode2 ∧ (wd.bodies c.mBodyNode2).impulseReponsible = true then
          impulseSum c.mJacobians2 lambda (impulseRows c) else Vector6d.zero) := by
  have h0 : ImpulseAccumulated c lambda wd 0 wd := by
    intro b
    refine ⟨rfl, ?_⟩
    simp only [impulseSum_zero, ite_self, Vector6d.add_zero]
  unfold applyImpulse impulseRows
  by_cases hf : c.mIsFrictionOn = true
  · have h := applyImpulseFriction_accumulated c lambda wd c.mContacts 0 wd h0 body
    simpa only [hf, if_true, Nat.zero_add] using h.2
  · have h := applyImpulseFrictionless_accumulated c lambda wd c.mContacts 0 wd h0 body
    simpa only [hf, if_false, Nat.zero_add] using h.2

end Impulses

/-! ## Union of skeletons -/

section UnionFind

variable {K : Type}

/-- A skeleton has at most one root. -/
theorem IsUnionRoot.unique {parent : Nat → Nat} {s r1 r2 : Nat}
    (h1 : IsUnionRoot parent s r1) (h2 : IsUnionRoot parent s r2) : r1 = r2 := by
  induction h1 with
  | root r hr =>
    cases h2 with
    | root _ _ => rfl
    | step _ _ hne _ => exact absurd hr hne
  | step s r hne _ ih =>
    cases h2 with
    | root _ hr => exact absurd hr hne
    | step _ _ _ h => exact ih h

/-- The root of a set is its own link. -/
theorem IsUnionRoot.root_self {parent : Nat → Nat} {s r : Nat}
    (h : IsUnionRoot parent s r) : parent r = r := by
  induction h with
  | root r hr => exact hr
  | step s r _ _ ih => exact ih

/-- In a forest every skeleton has a root. -/
theorem UnionForest.exists_root {parent rank : Nat → Nat} {N : Nat}
    (hf : UnionForest parent rank N) :
    ∀ (d s : Nat), N - rank s ≤ d → ∃ r, IsUnionRoot parent s r := by
  intro d
  induction d with
  | zero =>
    intro s hs
    by_cases hp : parent s = s
    · exact ⟨s, IsUnionRoot.root s hp⟩
    · have h1 := (hf s).2 hp
      have h2 := (hf (parent s)).1
      omega
  | succ d ih =>
    intro s hs
    by_cases hp : parent s = s
    · exact ⟨s, IsUnionRoot.root s hp⟩
    · have h1 := (hf s).2 hp
      have h2 := (hf (parent s)).1
      obtain ⟨r, hr⟩ := ih (parent s) (by omega)
      exact ⟨r, IsUnionRoot.step s r hp hr⟩

/-- Replacing the link of a skeleton by the link of the skeleton it points to keeps every
root. -/
theorem IsUnionRoot.halve {parent rank : Nat → Nat} {N : Nat}
    (hf : UnionForest parent rank N) (s : Nat) (hs : parent s ≠ s) {t r : Nat}
    (h : IsUnionRoot parent t r) :
    IsUnionRoot (Function.update parent s (parent (parent s))) t r := by
  have hup : parent (parent s) ≠ s := by
    intro e
    have h1 := (hf s).2 hs
    by_cases hp : parent (parent s) = parent s
    · rw [hp] at e
      exact hs e
    · have h2 := (hf (parent s)).2 hp
      rw [e] at h2
      omega
  have key : IsUnionRoot (Function.update parent s (parent (parent s))) t r ∧
      (parent t ≠ t → IsUnionRoot (Function.update parent s (parent (parent s))) (parent t) r) := by
    induction h with
    | root r hr =>
      refine ⟨IsUnionRoot.root r ?_, fun hne => absurd hr hne⟩
      have hrs : r ≠ s := by
        intro e
        rw [e] at hr
        exact hs hr
      rw [Function.update_noteq hrs]
      exact hr
    | step t r hne _ ih =>
      refine ⟨?_, fun _ => ih.1⟩
      by_cases hts : t = s
      · subst hts
        apply IsUnionRoot.step
        · rw [Function.update_same]
          exact hup
        · rw [Function.update_same]
          have pick : ∀ (q : Nat → Nat), IsUnionRoot q (parent t) r →
              (parent (parent t) ≠ parent t → IsUnionRoot q (parent (parent t)) r) →
              IsUnionRoot q (parent (parent t)) r := by
            intro q a b
            by_cases hp : parent (parent t) = parent t
            · rw [hp]
              exact a
            · exact b hp
          exact pick _ ih.1 ih.2
      · apply IsUnionRoot.step
        · rw [Function.update_noteq hts]
          exact hne
        · rw [Function.update_noteq hts]
          exact ih.1
  exact key.1

/-- Replacing the link of a skeleton by the link of the skeleton it points to keeps the
forest. -/
theorem UnionForest.halve_forest {parent rank : Nat → Nat} {N : Nat}
    (hf : UnionForest parent rank N) (s : Nat) (hs : parent s ≠ s) :
    UnionForest (Function.update parent s (parent (parent s))) rank N := by
  intro t
  refine ⟨(hf t).1, ?_⟩
  by_cases hts : t = s
  · subst hts
    rw [Function.update_same]
    intro _
    have h1 := (hf t).2 hs
    by_cases hp : parent (parent t) = parent t
    · rw [hp]
      exact h1
    · have h2 := (hf (parent t)).2 hp
      omega
  · rw [Function.update_noteq hts]
    exact (hf t).2

/-- The links after one iteration of `compressPath` at a skeleton that is not a root. -/
theorem unionParent_halve (wd : World K) (s : Nat) :
    unionParent
        ({ wd with
          skeletons := Function.update wd.skeletons s
            { wd.skeletons s with
              mUnionRootSkeleton :=
                (wd.skeletons (wd.skeletons s).mUnionRootSkeleton).mUnionRootSkeleton } } :
          World K) =
      Function.update (unionParent wd) s (unionParent wd (unionParent wd s)) := by
  funext t
  unfold unionParent
  by_cases hts : t = s
  · subst hts
    simp
  · simp [Function.update_noteq hts]

/-- With fuel above the height of the forest, `compressPath` returns the root of the skeleton;
it keeps the bodies, the forest, the root of every skeleton, every union size and every
root's own link. -/
theorem compressPath_spec (rank : Nat → Nat) (N : Nat) :
    ∀ (fuel : Nat) (wd : World K) (s : Nat),
      UnionForest (unionParent wd) rank N → N - rank s < fuel →
      ∃ wd1 r, compressPath fuel wd s = some (wd1, r) ∧
        IsUnionRoot (unionParent wd) s r ∧ wd1.bodies = wd.bodies ∧
        UnionForest (unionParent wd1) rank N ∧
        (∀ t r1, IsUnionRoot (unionParent wd) t r1 → IsUnionRoot (unionParent wd1) t r1) ∧
        (∀ t, (wd1.skeletons t).mUnionSize = (wd.skeletons t).mUnionSize) ∧
        (∀ t, unionParent wd t = t → unionParent wd1 t = t) := by
  intro fuel
  induction fuel with
  | zero =>
    intro wd s _ hfuel
    omega
  | succ fuel ih =>
    intro wd s hf hfuel
    by_cases hp : (wd.skeletons s).mUnionRootSkeleton = s
    · refine ⟨wd, s, ?_, IsUnionRoot.root s hp, rfl, hf, fun _ _ h => h, fun _ => rfl,
        fun _ h => h⟩
      simp [compressPath, hp]
    · have hps : unionParent wd s ≠ s := hp
      have hrank1 := (hf s).2 hps
      have hrank2 : rank s < rank (unionParent wd (unionParent wd s)) := by
        by_cases hpp : unionParent wd (unionParent wd s) = unionParent wd s
        · rw [hpp]
          exact hrank1
        · have := (hf (unionParent wd s)).2 hpp
          omega
      have hbound := (hf (unionParent wd (unionParent wd s))).1
      have hf1 := UnionForest.halve_forest hf s hps
      rw [← unionParent_halve] at hf1
      obtain ⟨wd2, r, hc, hr, hb, hf2, hpres, hsize, hroots⟩ :=
        ih _ (unionParent wd (unionParent wd s)) hf1 (by omega)
      refine ⟨wd2, r, ?_, ?_, ?_, hf2, ?_, ?_, ?_⟩
      · simp only [compressPath, hp, if_false]
        exact hc
      · obtain ⟨r0, hr0⟩ := hf.exists_root N s (by omega)
        have h1 := IsUnionRoot.halve hf s hps hr0
        have hup : unionParent wd (unionParent wd s) ≠ s := by
          intro e
          rw [e] at hrank2
          omega
        rw [unionParent_halve] at hr
        have h2 : IsUnionRoot
            (Function.update (unionParent wd) s (unionParent wd (unionParent wd s))) s r :=
          IsUnionRoot.step s r (by rw [Function.update_same]; exact hup)
            (by rw [Function.update_same]; exact hr)
        rw [← h1.unique h2]
        exact hr0
      · rw [hb]
      · intro t r1 h
        apply hpres
        rw [unionParent_halve]
        exact IsUnionRoot.halve hf s hps h
      · intro t
        rw [hsize]
        by_cases hts : t = s
        · subst hts
          simp
        · simp [Function.update_noteq hts]
      · intro t ht
        apply hroots
        rw [unionParent_halve]
        have hts : t ≠ s := by
          intro e
          rw [e] at ht
          exact hps ht
        rw [Function.update_noteq hts]
        exact ht

/-- The links after a merge: only the link of the attached root changes. -/
theorem unionParent_mergeRoot (wd : World K) (a b : Nat) :
    unionParent (mergeRoot wd a b) = Function.update (unionParent wd) a b := by
  funext t
  unfold unionParent mergeRoot
  by_cases hta : t = a <;> by_cases htb : t = b <;> by_cases hab : a = b <;>
    simp_all [Function.update_apply]

/-- Attaching the root `a` beneath the root `b` sends the skeletons of `a` to `b` and keeps the
root of all others. -/
theorem IsUnionRoot.link {parent : Nat → Nat} {a b : Nat} (ha : parent a = a)
    (hb : parent b = b) (hab : a ≠ b) {t r : Nat} (h : IsUnionRoot parent t r) :
    IsUnionRoot (Function.update parent a b) t (if r = a then b else r) := by
  induction h with
  | root r hr =>
    by_cases hra : r = a
    · subst hra
      rw [if_pos rfl]
      apply IsUnionRoot.step
      · rw [Function.update_same]
        exact fun e => hab e.symm
      · rw [Function.update_same]
        apply IsUnionRoot.root
        rw [Function.update_noteq (fun e => hab e.symm)]
        exact hb
    · rw [if_neg hra]
      apply IsUnionRoot.root
      rw [Function.update_noteq hra]
      exact hr
  | step t r hne _ ih =>
    have hta : t ≠ a := by
      intro e
      rw [e] at hne
      exact hne ha
    apply IsUnionRoot.step
    · rw [Function.update_noteq hta]
      exact hne
    · rw [Function.update_noteq hta]
      exact ih

/-- Attaching the root `a` beneath the root `b` gives a forest one level higher at most. -/
theorem UnionForest.link_forest {parent rank : Nat → Nat} {N : Nat} (hf : UnionForest parent rank N)
    {a b : Nat} (ha : parent a = a) (hb : parent b = b) (hab : a ≠ b) :
    UnionForest (Function.update parent a b)
      (Function.update rank b (max (rank b) (rank a + 1))) (N + 1) := by
  have hge : ∀ t, rank t ≤ Function.update rank b (max (rank b) (rank a + 1)) t := by
    intro t
    by_cases htb : t = b
    · subst htb
      rw [Function.update_same]
      exact le_max_left _ _
    · rw [Function.update_noteq htb]
  intro t
  constructor
  · by_cases htb : t = b
    · subst htb
      rw [Function.update_same]
      have h1 := (hf t).1
      have h2 := (hf a).1
      exact max_le (by omega) (by omega)
    · rw [Function.update_noteq htb]
      have h1 := (hf t).1
      omega
  · by_cases hta : t = a
    · subst hta
      rw [Function.update_same, Function.update_same, Function.update_noteq hab]
      intro _
      have := le_max_right (rank b) (rank t + 1)
      omega
    · rw [Function.update_noteq hta]
      intro hne
      have htb : t ≠ b := by
        intro e
        rw [e] at hne
        exact hne hb
      rw [Function.update_noteq htb]
      have h1 := (hf t).2 hne
      have h2 := hge (parent t)
      omega

/-- After a merge of two distinct roots, with fuel above the new height, `compressPath`
returns the surviving root for every skeleton of the two sets. -/
theorem compressPath_after_merge (rank : Nat → Nat) (N fuel : Nat) (wd : World K) (a b : Nat)
    (hf : UnionForest (unionParent wd) rank N) (hfuel : N + 1 < fuel)
    (ha : unionParent wd a = a) (hb : unionParent wd b = b) (hab : a ≠ b) (t r : Nat)
    (ht : IsUnionRoot (unionParent wd) t r) :
    ∃ w, compressPath fuel (mergeRoot wd a b) t = some (w, if r = a then b else r) := by
  have hf1 := UnionForest.link_forest hf ha hb hab
  rw [← unionParent_mergeRoot] at hf1
  obtain ⟨w, r1, hc, hr1, -⟩ := compressPath_spec _ (N + 1) fuel (mergeRoot wd a b) t hf1
    (by omega)
  have hr2 := IsUnionRoot.link ha hb hab ht
  rw [← unionParent_mergeRoot] at hr2
  rw [hr1.unique hr2] at hc
  exact ⟨w, hc⟩

/-- C7: in a forest of skeletons, with fuel above its height, `uniteSkeletons` on a contact whose
two bodies are impulse-responsible and belong to different skeletons returns; afterwards
`compressPath` returns one and the same root for both skeletons, and when the two former roots
have different union sizes, the link `mUnionRootSkeleton` of the root with the strictly smaller
size is the other root. -/
theorem C7_unite_skeletons_joins_under_larger_root (c : ContactConstraint K) (wd : World K)
    (rank : Nat → Nat) (N fuel : Nat)
    (hforest : UnionForest (unionParent wd) rank N) (hfuel : N + 1 < fuel)
    (h1 : (wd.bodies c.mBodyNode1).impulseReponsible = true)
    (h2 : (wd.bodies c.mBodyNode2).impulseReponsible = true)
    (hne : (wd.bodies c.mBodyNode1).mSkeleton ≠ (wd.bodies c.mBodyNode2).mSkeleton) :
    ∃ wd1 r1 r2 root w1 w2,
      uniteSkeletons fuel c wd = some wd1 ∧
      IsUnionRoot (unionParent wd) (wd.bodies c.mBodyNode1).mSkeleton r1 ∧
      IsUnionRoot (unionParent wd) (wd.bodies c.mBodyNode2).mSkeleton r2 ∧
      compressPath fuel wd1 (wd.bodies c.mBodyNode1).mSkeleton = some (w1, root) ∧
      compressPath fuel wd1 (wd.bodies c.mBodyNode2).mSkeleton = some (w2, root) ∧
      ((wd.skeletons r1).mUnionSize < (wd.skeletons r2).mUnionSize →
        (wd1.skeletons r1).mUnionRootSkeleton = r2) ∧
      ((wd.skeletons r2).mUnionSize < (wd.skeletons r1).mUnionSize →
        (wd1.skeletons r2).mUnionRootSkeleton = r1) := by
  obtain ⟨wa, r1, hc1, hr1, hba, hfa, hpa, hsa, hra⟩ :=
    compressPath_spec rank N fuel wd (wd.bodies c.mBodyNode1).mSkeleton hforest (by omega)
  obtain ⟨wb, r2, hc2, hr2, -, hfb, hpb, hsb, hrb⟩ :=
    compressPath_spec rank N fuel wa (wd.bodies c.mBodyNode2).mSkeleton hfa (by omega)
  -- the root of skeleton 2 before the call
  obtain ⟨r2w, hr2w⟩ := hforest.exists_root N (wd.bodies c.mBodyNode2).mSkeleton (by omega)
  have e2 : r2w = r2 := (hpa _ _ hr2w).unique hr2
  subst e2
  -- roots in the world the two compressions leave
  have s1b : IsUnionRoot (unionParent wb) (wd.bodies c.mBodyNode1).mSkeleton r1 :=
    hpb _ _ (hpa _ _ hr1)
  have s2b : IsUnionRoot (unionParent wb) (wd.bodies c.mBodyNode2).mSkeleton r2w :=
    hpb _ _ hr2
  have root1 : unionParent wb r1 = r1 := s1b.root_self
  have root2 : unionParent wb r2w = r2w := s2b.root_self
  have size1 : (wb.skeletons r1).mUnionSize = (wd.skeletons r1).mUnionSize := by
    rw [hsb, hsa]
  have size2 : (wb.skeletons r2w).mUnionSize = (wd.skeletons r2w).mUnionSize := by
    rw [hsb, hsa]
  have hunite : uniteSkeletons fuel c wd =
      (if r1 = r2w then some wb
        else if (wb.skeletons r1).mUnionSize < (wb.skeletons r2w).mUnionSize then
          some (mergeRoot wb r1 r2w)
        else some (mergeRoot wb r2w r1)) := by
    unfold uniteSkeletons
    simp only [h1, h2, hne, Bool.true_eq_false, or_self, if_false, hc1, hba, hc2]
  by_cases heq : r1 = r2w
  · subst heq
    obtain ⟨w1, ρ1, hd1, hρ1, -⟩ := compressPath_spec rank N fuel wb
      (wd.bodies c.mBodyNode1).mSkeleton hfb (by omega)
    obtain ⟨w2, ρ2, hd2, hρ2, -⟩ := compressPath_spec rank N fuel wb
      (wd.bodies c.mBodyNode2).mSkeleton hfb (by omega)
    rw [hρ1.unique s1b] at hd1
    rw [hρ2.unique s2b] at hd2
    refine ⟨wb, r1, r1, r1, w1, w2, ?_, hr1, hr2w, hd1, hd2, ?_, ?_⟩
    · rw [hunite, if_pos rfl]
    · intro h
      exact absurd h (lt_irrefl _)
    · intro h
      exact absurd h (lt_irrefl _)
  · by_cases hlt : (wb.skeletons r1).mUnionSize < (wb.skeletons r2w).mUnionSize
    · obtain ⟨w1, hd1⟩ := compressPath_after_merge rank N fuel wb r1 r2w hfb hfuel root1 root2
        heq _ _ s1b
      obtain ⟨w2, hd2⟩ := compressPath_after_merge rank N fuel wb r1 r2w hfb hfuel root1 root2
        heq _ _ s2b
      rw [if_pos rfl] at hd1
      rw [if_neg (fun e => heq e.symm)] at hd2
      refine ⟨mergeRoot wb r1 r2w, r1, r2w, r2w, w1, w2, ?_, hr1, hr2w, hd1, hd2, ?_, ?_⟩
      · rw [hunite, if_neg heq, if_pos hlt]
      · intro _
        have := congrFun (unionParent_mergeRoot wb r1 r2w) r1
        rw [Function.update_same] at this
        exact this
      · intro h
        rw [size1, size2] at hlt
        omega
    · obtain ⟨w1, hd1⟩ := compressPath_after_merge rank N fuel wb r2w r1 hfb hfuel root2 root1
        (fun e => heq e.symm) _ _ s1b
      obtain ⟨w2, hd2⟩ := compressPath_after_merge rank N fuel wb r2w r1 hfb hfuel root2 root1
        (fun e => heq e.symm) _ _ s2b
      rw [if_neg heq] at hd1
      rw [if_pos rfl] at hd2
      refine ⟨mergeRoot wb r2w r1, r1, r2w, r1, w1, w2, ?_, hr1, hr2w, hd1, hd2, ?_, ?_⟩
      · rw [hunite, if_neg heq, if_neg hlt]
      · intro h
        rw [size1, size2] at hlt
        exact absurd h hlt
      · intro _
        have := congrFun (unionParent_mergeRoot wb r2w r1) r2w
        rw [Function.update_same] at this
        exact this

end UnionFind

/-! ## Tangent basis -/

section TangentBasis

variable {K : Type} [LinearOrderedField K]

/-- With an exact quarter-turn quaternion, the rotation of a vector orthogonal to the unit axis
is the cross product with the axis. -/
theorem rotateHalfPi_eq_cross (fl : FloatLib K) (n v : Vector3d K)
    (hcs : 2 * fl.cosQuarterPi * fl.sinQuarterPi = 1)
    (hss : 2 * fl.sinQuarterPi * fl.sinQuarterPi = 1)
    (hnn : n.squaredNorm = 1) (hnv : n.dot v = 0) :
    rotateHalfPi fl n v = n.cross v := by
  simp only [Vector3d.squaredNorm, Vector3d.dot] at hnn hnv
  ext
  · simp only [rotateHalfPi, Vector3d.add, Vector3d.smul, Vector3d.cross]
    linear_combination (n.y * v.z - n.z * v.y) * hcs +
      (n.y * (n.x * v.y - n.y * v.x) - n.z * (n.z * v.x - n.x * v.z)) * hss +
      n.x * hnv - v.x * hnn
  · simp only [rotateHalfPi, Vector3d.add, Vector3d.smul, Vector3d.cross]
    linear_combination (n.z * v.x - n.x * v.z) * hcs +
      (n.z * (n.y * v.z - n.z * v.y) - n.x * (n.x * v.y - n.y * v.x)) * hss +
      n.y * hnv - v.y * hnn
  · simp only [rotateHalfPi, Vector3d.add, Vector3d.smul, Vector3d.cross]
    linear_combination (n.x * v.y - n.y * v.x) * hcs +
      (n.x * (n.z * v.x - n.x * v.z) - n.y * (n.y * v.z - n.z * v.y)) * hss +
      n.z * hnv - v.z * hnn

/-- A cross product with `n` is orthogonal to `n`. -/
theorem Vector3d.dot_cross_self (u n : Vector3d K) : n.dot (u.cross n) = 0 := by
  simp only [Vector3d.dot, Vector3d.cross]
  ring

/-- Normalising a vector of non-zero length with an exact square root gives a unit vector. -/
theorem Vector3d.normalized_squaredNorm (fl : FloatLib K) (t : Vector3d K)
    (hs : fl.sqrt t.squaredNorm * fl.sqrt t.squaredNorm = t.squaredNorm)
    (ht : t.squaredNorm ≠ 0) : (t.normalized fl).squaredNorm = 1 := by
  have hs0 : fl.sqrt t.squaredNorm ≠ 0 := by
    intro e
    rw [e] at hs
    exact ht (by rw [← hs]; ring)
  simp only [Vector3d.normalized, Vector3d.norm, Vector3d.squaredNorm, Vector3d.dot] at *
  field_simp
  linear_combination -hs

/-- Normalising keeps orthogonality. -/
theorem Vector3d.dot_normalized (fl : FloatLib K) (n t : Vector3d K) (h : n.dot t = 0) :
    n.dot (t.normalized fl) = 0 := by
  simp only [Vector3d.normalized, Vector3d.dot] at *
  have e : n.x * (t.x / t.norm fl) + n.y * (t.y / t.norm fl) + n.z * (t.z / t.norm fl) =
      (n.x * t.x + n.y * t.y + n.z * t.z) / t.norm fl := by ring
  rw [e, h, zero_div]

/-- The cross product of a unit vector with a unit vector orthogonal to it is a unit vector. -/
theorem Vector3d.cross_squaredNorm (n v : Vector3d K) (hnn : n.squaredNorm = 1)
    (hvv : v.squaredNorm = 1) (hnv : n.dot v = 0) : (n.cross v).squaredNorm = 1 := by
  simp only [Vector3d.squaredNorm, Vector3d.dot, Vector3d.cross] at *
  linear_combination (v.x * v.x + v.y * v.y + v.z * v.z) * hnn + hvv -
    (n.x * v.x + n.y * v.y + n.z * v.z) * hnv

theorem Vector3d.dot_cross_left (n v : Vector3d K) : n.dot (n.cross v) = 0 := by
  simp only [Vector3d.dot, Vector3d.cross]
  ring

theorem Vector3d.dot_cross_right (n v : Vector3d K) : v.dot (n.cross v) = 0 := by
  simp only [Vector3d.dot, Vector3d.cross]
  ring

theorem Vector3d.squaredNorm_nonneg (t : Vector3d K) : 0 ≤ t.squaredNorm := by
  simp only [Vector3d.squaredNorm, Vector3d.dot]
  nlinarith [mul_self_nonneg t.x, mul_self_nonneg t.y, mul_self_nonneg t.z]

theorem Vector3d.dot_comm (a b : Vector3d K) : a.dot b = b.dot a := by
  simp only [Vector3d.dot]
  ring

/-- The tangent the method settles on, before normalisation. -/
theorem getTangentBasisMatrixODE_eq (fl : FloatLib K) (d n : Vector3d K) :
    getTangentBasisMatrixODE fl d n =
      ((if (d.cross n).norm fl < DART_CONTACT_CONSTRAINT_EPSILON then Vector3d.UnitX.cross n
          else d.cross n).normalized fl,
        rotateHalfPi fl n
          ((if (d.cross n).norm fl < DART_CONTACT_CONSTRAINT_EPSILON then Vector3d.UnitX.cross n
            else d.cross n).normalized fl)) := rfl

/-- With exact square root and quarter-turn quaternion, the basis built from a chosen tangent
that is not zero consists of two unit vectors, orthogonal to the normal and to each other. -/
theorem tangentBasis_core (fl : FloatLib K) (d n : Vector3d K)
    (hsqrt : ∀ x, 0 ≤ x → 0 ≤ fl.sqrt x ∧ fl.sqrt x * fl.sqrt x = x)
    (hcs : 2 * fl.cosQuarterPi * fl.sinQuarterPi = 1)
    (hss : 2 * fl.sinQuarterPi * fl.sinQuarterPi = 1)
    (hnn : n.squaredNorm = 1)
    (hchoice : DART_CONTACT_CONSTRAINT_EPSILON ≤ (d.cross n).norm fl ∨
      (Vector3d.UnitX.cross n).squaredNorm ≠ 0) :
    (getTangentBasisMatrixODE fl d n).1.squaredNorm = 1 ∧
    (getTangentBasisMatrixODE fl d n).2.squaredNorm = 1 ∧
    n.dot (getTangentBasisMatrixODE fl d n).1 = 0 ∧
    n.dot (getTangentBasisMatrixODE fl d n).2 = 0 ∧
    (getTangentBasisMatrixODE fl d n).1.dot (getTangentBasisMatrixODE fl d n).2 = 0 := by
  rw [getTangentBasisMatrixODE_eq]
  -- the chosen tangent is a cross product with `n` and is not zero
  have hchosen : ∃ u : Vector3d K,
      (if (d.cross n).norm fl < DART_CONTACT_CONSTRAINT_EPSILON then Vector3d.UnitX.cross n
        else d.cross n) = u.cross n ∧ (u.cross n).squaredNorm ≠ 0 := by
    by_cases htest : (d.cross n).norm fl < DART_CONTACT_CONSTRAINT_EPSILON
    · rw [if_pos htest]
      rcases hchoice with h | h
      · exact absurd htest (not_lt.mpr h)
      · exact ⟨Vector3d.UnitX, rfl, h⟩
    · rw [if_neg htest]
      refine ⟨d, rfl, ?_⟩
      intro e
      have hs := (hsqrt _ (Vector3d.squaredNorm_nonneg (d.cross n))).2
      have hge : DART_CONTACT_CONSTRAINT_EPSILON ≤ fl.sqrt (d.cross n).squaredNorm :=
        not_lt.mp htest
      rw [e] at hs
      have hz : fl.sqrt (d.cross n).squaredNorm = 0 := by
        rcases mul_self_eq_zero.mp hs with h0
        rw [e]
        exact h0
      rw [hz] at hge
      have : (0 : K) < DART_CONTACT_CONSTRAINT_EPSILON := by
        unfold DART_CONTACT_CONSTRAINT_EPSILON
        norm_num
      exact absurd hge (not_le.mpr this)
  obtain ⟨u, hu, hne⟩ := hchosen
  rw [hu]
  have h1 : ((u.cross n).normalized fl).squaredNorm = 1 :=
    Vector3d.normalized_squaredNorm fl _
      (hsqrt _ (Vector3d.squaredNorm_nonneg (u.cross n))).2 hne
  have h2 : n.dot ((u.cross n).normalized fl) = 0 :=
    Vector3d.dot_normalized fl n _ (Vector3d.dot_cross_self u n)
  have hrot := rotateHalfPi_eq_cross fl n ((u.cross n).normalized fl) hcs hss hnn h2
  simp only [hrot]
  exact ⟨h1, Vector3d.cross_squaredNorm n _ hnn h1 h2, h2, Vector3d.dot_cross_left n _,
    Vector3d.dot_cross_right n _⟩

/-- For the default first frictional direction, unit Z, one of the two cross products is far
from zero whatever the unit normal. -/
theorem unitZ_choice (fl : FloatLib K) (n : Vector3d K)
    (hsqrt : ∀ x, 0 ≤ x → 0 ≤ fl.sqrt x ∧ fl.sqrt x * fl.sqrt x = x)
    (hnn : n.squaredNorm = 1) :
    DART_CONTACT_CONSTRAINT_EPSILON ≤ ((Vector3d.UnitZ : Vector3d K).cross n).norm fl ∨
      ((Vector3d.UnitX : Vector3d K).cross n).squaredNorm ≠ 0 := by
  by_cases htest : DART_CONTACT_CONSTRAINT_EPSILON ≤
      ((Vector3d.UnitZ : Vector3d K).cross n).norm fl
  · exact Or.inl htest
  · right
    have hlt := not_le.mp htest
    obtain ⟨h0, hs⟩ := hsqrt _ (Vector3d.squaredNorm_nonneg ((Vector3d.UnitZ : Vector3d K).cross n))
    simp only [Vector3d.norm] at hlt
    have hsmall : ((Vector3d.UnitZ : Vector3d K).cross n).squaredNorm < 1 := by
      rw [← hs]
      unfold DART_CONTACT_CONSTRAINT_EPSILON at hlt
      nlinarith
    simp only [Vector3d.squaredNorm, Vector3d.dot, Vector3d.cross, Vector3d.UnitZ,
      Vector3d.UnitX] at hsmall hnn ⊢
    intro e
    nlinarith [mul_self_nonneg n.x, mul_self_nonneg n.y, mul_self_nonneg n.z]

/-- The assertions of the constructor hold for a basis that is exactly orthogonal. -/
theorem tangentBasisAsserts_of_orthogonal (n : Vector3d K) (D : Vector3d K × Vector3d K)
    (h1 : n.dot D.1 = 0) (h2 : n.dot D.2 = 0) (h3 : D.1.dot D.2 = 0) :
    tangentBasisAsserts n D := by
  unfold tangentBasisAsserts DART_EPSILON
  rw [h1, h2, h3, abs_zero]
  norm_num

/-- C5 (amended): with exact `sqrt`, `sin` and `cos`, for every unit contact normal `n` and every
first frictional direction `d` that is the default unit Z, or has `|d × n| >= 1e-6`, or comes
with a normal that is not parallel to the X axis, the two columns of `getTangentBasisMatrixODE`
are unit vectors orthogonal to `n` and to each other, the three tangent-basis assertions hold
for them, and the constructor (which uses the default direction) returns for every contact with
that normal. -/
theorem C5_tangent_basis_orthonormal (fl : FloatLib K) (d n : Vector3d K)
    (hsqrt : ∀ x, 0 ≤ x → 0 ≤ fl.sqrt x ∧ fl.sqrt x * fl.sqrt x = x)
    (hcs : 2 * fl.cosQuarterPi * fl.sinQuarterPi = 1)
    (hss : 2 * fl.sinQuarterPi * fl.sinQuarterPi = 1)
    (hnn : n.squaredNorm = 1)
    (hchoice : d = Vector3d.UnitZ ∨
      DART_CONTACT_CONSTRAINT_EPSILON ≤ (d.cross n).norm fl ∨
      (Vector3d.UnitX.cross n).squaredNorm ≠ 0) :
    (getTangentBasisMatrixODE fl d n).1.squaredNorm = 1 ∧
    (getTangentBasisMatrixODE fl d n).2.squaredNorm = 1 ∧
    (getTangentBasisMatrixODE fl d n).1.dot n = 0 ∧
    (getTangentBasisMatrixODE fl d n).2.dot n = 0 ∧
    (getTangentBasisMatrixODE fl d n).1.dot (getTangentBasisMatrixODE fl d n).2 = 0 ∧
    tangentBasisAsserts n (getTangentBasisMatrixODE fl d n) ∧
    ∀ (wd : World K) (contact : Contact K), contact.normal = n →
      ∃ c, ContactConstraint.ctor fl wd contact = some c := by
  have hch : DART_CONTACT_CONSTRAINT_EPSILON ≤ (d.cross n).norm fl ∨
      (Vector3d.UnitX.cross n).squaredNorm ≠ 0 := by
    rcases hchoice with h | h
    · rw [h]
      exact unitZ_choice fl n hsqrt hnn
    · exact h
  obtain ⟨a1, a2, a3, a4, a5⟩ := tangentBasis_core fl d n hsqrt hcs hss hnn hch
  refine ⟨a1, a2, ?_, ?_, a5, tangentBasisAsserts_of_orthogonal n _ a3 a4 a5, ?_⟩
  · rw [Vector3d.dot_comm]
    exact a3
  · rw [Vector3d.dot_comm]
    exact a4
  · intro wd contact hn
    obtain ⟨b1, b2, b3, b4, b5⟩ :=
      tangentBasis_core fl Vector3d.UnitZ n hsqrt hcs hss hnn (unitZ_choice fl n hsqrt hnn)
    by_cases hmu : min (wd.bodies contact.bodyNode1).mFrictionCoeff
        (wd.bodies contact.bodyNode2).mFrictionCoeff > DART_FRICTION_COEFF_THRESHOLD
    · apply ctor_friction_isSome fl wd contact hmu
      rw [hn]
      exact tangentBasisAsserts_of_orthogonal n _ b3 b4 b5
    · exact ctor_frictionless_isSome fl wd contact hmu

end TangentBasis

/-! ## Setters of the static members -/

section Setters

/-- C20 (the code at the failing input): `setConstraintForceMixing` stores its argument whatever
it is, so after `setConstraintForceMixing(-1)` the stored value is `-1`, below `1e-9`. -/
theorem C20_cfm_setter_stores_argument_unclamped :
    (∀ (p : Params ℚ) (cfm : ℚ), (setConstraintForceMixing p cfm).mConstraintForceMixing = cfm) ∧
    (setConstraintForceMixing (Params.default : Params ℚ) (-1)).mConstraintForceMixing = -1 ∧
    ¬ ((1 : ℚ) / 1000000000 ≤
      (setConstraintForceMixing (Params.default : Params ℚ) (-1)).mConstraintForceMixing) := by
  have h : ∀ (p : Params ℚ) (cfm : ℚ),
      (setConstraintForceMixing p cfm).mConstraintForceMixing = cfm := by
    intro p cfm
    rfl
  refine ⟨h, h _ _, ?_⟩
  rw [h]
  norm_num

end Setters

/-! ## Joints -/

section Joints

/-- A filled vector holds `g i` at every index when every entry can be computed as `g i`. -/
theorem fillVector_eq_map {K : Type} (f : Nat → Option K) (g : Nat → K) (n : Nat)
    (h : ∀ i, i < n → f i = some (g i)) :
    fillVector f n = some ((List.range n).map g) := by
  induction n with
  | zero => rfl
  | succ n ih =>
    have h1 := ih (fun i hi => h i (by omega))
    have h2 := h n (by omega)
    simp only [fillVector, h1, h2, List.range_succ, List.map_append, List.map_cons, List.map_nil]

variable {K : Type} [LinearOrderedField K]

/-- C11: for every joint whose stiffness, damping and rest-position vectors have an entry for
each of its DOFs, `getSpringForces(dt)` and `getDampingForces()` return vectors with one entry
per DOF, and for every DOF index `i` the entries are `-k_i * (q_i + v_i * dt - q0_i)` and
`-d_i * v_i`. -/
theorem C11_spring_and_damping_forces (j : Joint K) (dt : K)
    (hk : j.mSpringStiffness.length = j.mGenCoords.length)
    (hd : j.mDampingCoefficient.length = j.mGenCoords.length)
    (hq : j.mRestPosition.length = j.mGenCoords.length) :
    ∃ fs fd, j.getSpringForces dt = some fs ∧ j.getDampingForces = some fd ∧
      fs.length = j.mGenCoords.length ∧ fd.length = j.mGenCoords.length ∧
      ∀ (i : Nat) (g : GenCoord K) (k d q0 : K),
        j.mGenCoords[i]? = some g → j.mSpringStiffness[i]? = some k →
        j.mDampingCoefficient[i]? = some d → j.mRestPosition[i]? = some q0 →
        fs[i]? = some (-k * (g.pos + g.vel * dt - q0)) ∧ fd[i]? = some (-d * g.vel) := by
  let g0 : GenCoord K := ⟨0, 0, 0, 0⟩
  have hs : j.getSpringForces dt = some ((List.range j.mGenCoords.length).map
      (fun i => -(j.mSpringStiffness.getD i 0) *
        ((j.mGenCoords.getD i g0).pos + (j.mGenCoords.getD i g0).vel * dt -
          j.mRestPosition.getD i 0))) := by
    unfold Joint.getSpringForces
    apply fillVector_eq_map
    intro i hi
    have h1 : j.mSpringStiffness[i]? = some (j.mSpringStiffness.getD i 0) := by
      rw [List.getD_eq_getElem?_getD, List.getElem?_eq_getElem (by omega)]
      rfl
    have h2 : j.mGenCoords[i]? = some (j.mGenCoords.getD i g0) := by
      rw [List.getD_eq_getElem?_getD, List.getElem?_eq_getElem hi]
      rfl
    have h3 : j.mRestPosition[i]? = some (j.mRestPosition.getD i 0) := by
      rw [List.getD_eq_getElem?_getD, List.getElem?_eq_getElem (by omega)]
      rfl
    simp only [h1, h2, h3]
  have hdm : j.getDampingForces = some ((List.range j.mGenCoords.length).map
      (fun i => -(j.mDampingCoefficient.getD i 0) * (j.mGenCoords.getD i g0).vel)) := by
    unfold Joint.getDampingForces
    apply fillVector_eq_map
    intro i hi
    have h1 : j.mDampingCoefficient[i]? = some (j.mDampingCoefficient.getD i 0) := by
      rw [List.getD_eq_getElem?_getD, List.getElem?_eq_getElem (by omega)]
      rfl
    have h2 : j.mGenCoords[i]? = some (j.mGenCoords.getD i g0) := by
      rw [List.getD_eq_getElem?_getD, List.getElem?_eq_getElem hi]
      rfl
    simp only [h1, h2]
  refine ⟨_, _, hs, hdm, by simp, by simp, ?_⟩
  intro i g k d q0 e1 e2 e3 e4
  have hi : i < j.mGenCoords.length := by
    by_contra hcon
    rw [List.getElem?_eq_none (by omega)] at e1
    exact absurd e1 (by simp)
  simp only [List.getElem?_map, List.getElem?_range hi, Option.map_some',
    List.getD_eq_getElem?_getD, e1, e2, e3, e4, Option.getD_some]
  exact ⟨trivial, trivial⟩

/-- C12: for every ball joint state with its three coordinates and every `dt`,
`integrateConfigs(dt)` returns; the rotation part of `mR` becomes `R * expMapRot(v * dt)` with
`v` the generalized velocity, the three positions become the entries of `logMap` of the new
rotation, and the velocities, the limits and everything else in the joint stay as they were. -/
theorem C12_ball_joint_integrate_configs (expMapRot : Vector3d K → Matrix3d K)
    (logMap : Matrix3d K → Vector3d K) (j : BallJoint K) (dt : K) (c0 c1 c2 : GenCoord K)
    (hc : j.mGenCoords = [c0, c1, c2]) :
    ∃ j1, BallJoint.integrateConfigs expMapRot logMap j dt = some j1 ∧
      j1.mR.linear = j.mR.linear.mul (expMapRot ⟨c0.vel * dt, c1.vel * dt, c2.vel * dt⟩) ∧
      j1.mR.translation = j.mR.translation ∧
      j1.mGenCoords.map GenCoord.pos =
        [(logMap j1.mR.linear).x, (logMap j1.mR.linear).y, (logMap j1.mR.linear).z] ∧
      j1.mGenCoords.map GenCoord.vel = j.mGenCoords.map GenCoord.vel ∧
      j1.mGenCoords.map GenCoord.posMin = j.mGenCoords.map GenCoord.posMin ∧
      j1.mGenCoords.map GenCoord.posMax = j.mGenCoords.map GenCoord.posMax ∧
      j1.mSpringStiffness = j.mSpringStiffness ∧
      j1.mDampingCoefficient = j.mDampingCoefficient ∧
      j1.mRestPosition = j.mRestPosition := by
  unfold BallJoint.integrateConfigs
  simp only [hc, getGenVels3, setConfigs3]
  refine ⟨_, rfl, ?_⟩
  simp

end Joints

/-! ## Support functions and the MPR query -/

section Support

variable {K : Type} [LinearOrderedField K]

/-- C17: for every cylinder and every local direction `d`, with `CCD_EPS > 0`: when
`ccdIsZero` holds for the length of the xy-part of `d`, `supportCyl` has the local point
`(0, 0, ccdSign(d.z) * height)`; otherwise it has `(r * d.x / |d_xy|, r * d.y / |d_xy|,
ccdSign(d.z) * height)` and `|d_xy|` is not zero; in both cases the function returns (no
division meets a zero divisor) and the returned point is the transformed local point. -/
theorem C17_support_cyl_branches_and_safe_division (lib : CcdLib K) (cyl : ccd_cyl_t K)
    (dir_ : Vector3d K) (heps : 0 < lib.CCD_EPS) :
    (ccdIsZero lib
        (lib.sqrt ((localDirection lib cyl.toccd_obj_t dir_).x *
            (localDirection lib cyl.toccd_obj_t dir_).x +
          (localDirection lib cyl.toccd_obj_t dir_).y *
            (localDirection lib cyl.toccd_obj_t dir_).y)) →
      supportCylLocal lib cyl (localDirection lib cyl.toccd_obj_t dir_) =
        some ⟨0, 0, ccdSign lib (localDirection lib cyl.toccd_obj_t dir_).z * cyl.height⟩) ∧
    (¬ ccdIsZero lib
        (lib.sqrt ((localDirection lib cyl.toccd_obj_t dir_).x *
            (localDirection lib cyl.toccd_obj_t dir_).x +
          (localDirection lib cyl.toccd_obj_t dir_).y *
            (localDirection lib cyl.toccd_obj_t dir_).y)) →
      lib.sqrt ((localDirection lib cyl.toccd_obj_t dir_).x *
            (localDirection lib cyl.toccd_obj_t dir_).x +
          (localDirection lib cyl.toccd_obj_t dir_).y *
            (localDirection lib cyl.toccd_obj_t dir_).y) ≠ 0 ∧
      supportCylLocal lib cyl (localDirection lib cyl.toccd_obj_t dir_) =
        some ⟨cyl.radius * (localDirection lib cyl.toccd_obj_t dir_).x /
            lib.sqrt ((localDirection lib cyl.toccd_obj_t dir_).x *
                (localDirection lib cyl.toccd_obj_t dir_).x +
              (localDirection lib cyl.toccd_obj_t dir_).y *
                (localDirection lib cyl.toccd_obj_t dir_).y),
          cyl.radius * (localDirection lib cyl.toccd_obj_t dir_).y /
            lib.sqrt ((localDirection lib cyl.toccd_obj_t dir_).x *
                (localDirection lib cyl.toccd_obj_t dir_).x +
              (localDirection lib cyl.toccd_obj_t dir_).y *
                (localDirection lib cyl.toccd_obj_t dir_).y),
          ccdSign lib (localDirection lib cyl.toccd_obj_t dir_).z * cyl.height⟩) ∧
    ∃ v, supportCylLocal lib cyl (localDirection lib cyl.toccd_obj_t dir_) = some v ∧
      supportCyl lib cyl dir_ = some (transformSupportVertex lib cyl.toccd_obj_t v) := by
  have hsome : ∀ v, supportCylLocal lib cyl (localDirection lib cyl.toccd_obj_t dir_) = some v →
      supportCyl lib cyl dir_ = some (transformSupportVertex lib cyl.toccd_obj_t v) := by
    intro v hv
    unfold supportCyl
    rw [hv]
    rfl
  generalize localDirection lib cyl.toccd_obj_t dir_ = d at hsome ⊢
  by_cases hz : ccdIsZero lib (lib.sqrt (d.x * d.x + d.y * d.y))
  · have hloc : supportCylLocal lib cyl d = some ⟨0, 0, ccdSign lib d.z * cyl.height⟩ := by
      unfold supportCylLocal
      simp only [hz, if_true]
    exact ⟨fun _ => hloc, fun h => absurd hz h, _, hloc, hsome _ hloc⟩
  · have hne : lib.sqrt (d.x * d.x + d.y * d.y) ≠ 0 := by
      intro e
      apply hz
      unfold ccdIsZero
      rw [e, abs_zero]
      exact heps
    have hloc : supportCylLocal lib cyl d =
        some ⟨cyl.radius * d.x / lib.sqrt (d.x * d.x + d.y * d.y),
          cyl.radius * d.y / lib.sqrt (d.x * d.x + d.y * d.y),
          ccdSign lib d.z * cyl.height⟩ := by
      unfold supportCylLocal checkedDiv
      simp only [hz, if_false, hne, div_mul_eq_mul_div]
    exact ⟨fun h => absurd h hz, fun _ => ⟨hne, hloc⟩, _, hloc, hsome _ hloc⟩

/-- C18: when `ccdCollide` is called with non-null point, normal and penetration outputs and the
MPR penetration query reports status 0 with `depth`, `dir` and `pos`, it returns `true` with
point `pos`, normal `-dir` in every component and penetration `depth`. -/
theorem C18_ccd_collide_reports_negated_direction {Obj : Type} (mpr : MprLib K Obj)
    (obj1 obj2 : Obj) (supp1 supp2 : Obj → Vector3d K → Vector3d K)
    (cen1 cen2 : Obj → Vector3d K) (max_iteration : Nat) (tolerance : K)
    (point0 normal0 : Vector3d K) (penetration0 : K)
    (hs : (mpr.ccdMPRPenetration obj1 obj2
      { support1 := supp1, support2 := supp2, center1 := cen1, center2 := cen2,
        max_iterations := max_iteration, mpr_tolerance := tolerance }).status = 0) :
    ccdCollide mpr obj1 supp1 cen1 obj2 supp2 cen2 max_iteration tolerance
        (some point0) (some normal0) (some penetration0) =
      some (true,
        some (mpr.ccdMPRPenetration obj1 obj2
          { support1 := supp1, support2 := supp2, center1 := cen1, center2 := cen2,
            max_iterations := max_iteration, mpr_tolerance := tolerance }).pos,
        some ⟨-(mpr.ccdMPRPenetration obj1 obj2
            { support1 := supp1, support2 := supp2, center1 := cen1, center2 := cen2,
              max_iterations := max_iteration, mpr_tolerance := tolerance }).dir.x,
          -(mpr.ccdMPRPenetration obj1 obj2
            { support1 := supp1, support2 := supp2, center1 := cen1, center2 := cen2,
              max_iterations := max_iteration, mpr_tolerance := tolerance }).dir.y,
          -(mpr.ccdMPRPenetration obj1 obj2
            { support1 := supp1, support2 := supp2, center1 := cen1, center2 := cen2,
              max_iterations := max_iteration, mpr_tolerance := tolerance }).dir.z⟩,
        some (mpr.ccdMPRPenetration obj1 obj2
          { support1 := supp1, support2 := supp2, center1 := cen1, center2 := cen2,
            max_iterations := max_iteration, mpr_tolerance := tolerance }).depth) := by
  unfold ccdCollide
  simp [hs, ccdVec3Scale]

/-- C19: `ccdCollide` called with a non-null point output returns `false` and leaves the three
outputs as they were for every status of the MPR penetration query other than 0; whenever it
returns, the returned value is `true` exactly when the status is 0; and for status 0 it does
return `true` when the normal and penetration outputs are non-null. -/
theorem C19_ccd_collide_true_iff_mpr_success {Obj : Type} (mpr : MprLib K Obj)
    (obj1 obj2 : Obj) (supp1 supp2 : Obj → Vector3d K → Vector3d K)
    (cen1 cen2 : Obj → Vector3d K) (max_iteration : Nat) (tolerance : K)
    (point0 : Vector3d K) (normal : Option (Vector3d K)) (penetration : Option K) :
    ((mpr.ccdMPRPenetration obj1 obj2
        { support1 := supp1, support2 := supp2, center1 := cen1, center2 := cen2,
          max_iterations := max_iteration, mpr_tolerance := tolerance }).status ≠ 0 →
      ccdCollide mpr obj1 supp1 cen1 obj2 supp2 cen2 max_iteration tolerance
          (some point0) normal penetration =
        some (false, some point0, normal, penetration)) ∧
    (∀ r, ccdCollide mpr obj1 supp1 cen1 obj2 supp2 cen2 max_iteration tolerance
          (some point0) normal penetration = some r →
      (r.1 = true ↔
        (mpr.ccdMPRPenetration obj1 obj2
          { support1 := supp1, support2 := supp2, center1 := cen1, center2 := cen2,
            max_iterations := max_iteration, mpr_tolerance := tolerance }).status = 0)) ∧
    ((mpr.ccdMPRPenetration obj1 obj2
        { support1 := supp1, support2 := supp2, center1 := cen1, center2 := cen2,
          max_iterations := max_iteration, mpr_tolerance := tolerance }).status = 0 →
      normal ≠ none → penetration ≠ none →
      ∃ r, ccdCollide mpr obj1 supp1 cen1 obj2 supp2 cen2 max_iteration tolerance
          (some point0) normal penetration = some r ∧ r.1 = true) := by
  refine ⟨?_, ?_, ?_⟩
  · intro hs
    unfold ccdCollide
    simp [hs]
  · intro r hr
    unfold ccdCollide at hr
    by_cases hs : (mpr.ccdMPRPenetration obj1 obj2
        { support1 := supp1, support2 := supp2, center1 := cen1, center2 := cen2,
          max_iterations := max_iteration, mpr_tolerance := tolerance }).status = 0
    · cases normal with
      | none => simp [hs] at hr
      | some n =>
        cases penetration with
        | none => simp [hs] at hr
        | some pen =>
          simp [hs] at hr
          rw [← hr]
          simp [hs]
    · simp [hs] at hr
      rw [← hr]
      simp [hs]
  · intro hs hn hp
    cases normal with
    | none => exact absurd rfl hn
    | some n =>
      cases penetration with
      | none => exact absurd rfl hp
      | some pen =>
        unfold ccdCollide
        simp [hs]

/-- The value of `ccdSign` away from zero. -/
theorem ccdSign_of_not_isZero (lib : CcdLib K) (x : K) (h : ¬ ccdIsZero lib x) :
    ccdSign lib x = if x < 0 then -1 else 1 := by
  unfold ccdSign
  rw [if_neg h]

/-- A signed extent is largest when the sign is that of the direction. -/
theorem signed_extent_le (x dim s : K) (hdim : 0 ≤ dim) (hs : s = 1 ∨ s = -1) :
    x * (s * dim) ≤ x * ((if x < 0 then -1 else 1) * dim) := by
  by_cases hx : x < 0
  · rw [if_pos hx]
    rcases hs with h | h
    · subst h
      nlinarith
    · subst h
      nlinarith
  · rw [if_neg hx]
    have hx0 : 0 ≤ x := not_lt.mp hx
    rcases hs with h | h
    · subst h
      nlinarith
    · subst h
      nlinarith

/-- C14 (amended): for every box with non-negative `dim` and every direction whose three
components in the box's local frame are not near zero (`ccdIsZero` fails for them, that is
`|component| >= CCD_EPS`), `supportBox` returns the world image (rotate by the box rotation,
then add the box position) of the local corner `(sign(d.x)*dim0, sign(d.y)*dim1,
sign(d.z)*dim2)`, and this corner maximises `d·p` over the eight corners. -/
theorem C14_support_box_signed_corner (lib : CcdLib K) (o : ccd_box_t K) (dir_ : Vector3d K)
    (hx : ¬ ccdIsZero lib (lib.ccdQuatRotVec dir_ o.rot_inv).x)
    (hy : ¬ ccdIsZero lib (lib.ccdQuatRotVec dir_ o.rot_inv).y)
    (hz : ¬ ccdIsZero lib (lib.ccdQuatRotVec dir_ o.rot_inv).z)
    (h0 : 0 ≤ o.dim0) (h1 : 0 ≤ o.dim1) (h2 : 0 ≤ o.dim2) :
    supportBox lib o dir_ =
      (lib.ccdQuatRotVec
        ⟨(if (lib.ccdQuatRotVec dir_ o.rot_inv).x < 0 then -1 else 1) * o.dim0,
          (if (lib.ccdQuatRotVec dir_ o.rot_inv).y < 0 then -1 else 1) * o.dim1,
          (if (lib.ccdQuatRotVec dir_ o.rot_inv).z < 0 then -1 else 1) * o.dim2⟩ o.rot).add
        o.pos ∧
    ∀ s0 s1 s2 : K, (s0 = 1 ∨ s0 = -1) → (s1 = 1 ∨ s1 = -1) → (s2 = 1 ∨ s2 = -1) →
      (lib.ccdQuatRotVec dir_ o.rot_inv).dot ⟨s0 * o.dim0, s1 * o.dim1, s2 * o.dim2⟩ ≤
        (lib.ccdQuatRotVec dir_ o.rot_inv).dot
          ⟨(if (lib.ccdQuatRotVec dir_ o.rot_inv).x < 0 then -1 else 1) * o.dim0,
            (if (lib.ccdQuatRotVec dir_ o.rot_inv).y < 0 then -1 else 1) * o.dim1,
            (if (lib.ccdQuatRotVec dir_ o.rot_inv).z < 0 then -1 else 1) * o.dim2⟩ := by
  constructor
  · unfold supportBox supportBoxLocal transformSupportVertex localDirection
    rw [ccdSign_of_not_isZero lib _ hx, ccdSign_of_not_isZero lib _ hy,
      ccdSign_of_not_isZero lib _ hz]
  · intro s0 s1 s2 e0 e1 e2
    simp only [Vector3d.dot]
    have a := signed_extent_le (lib.ccdQuatRotVec dir_ o.rot_inv).x o.dim0 s0 h0 e0
    have b := signed_extent_le (lib.ccdQuatRotVec dir_ o.rot_inv).y o.dim1 s1 h1 e1
    have c := signed_extent_le (lib.ccdQuatRotVec dir_ o.rot_inv).z o.dim2 s2 h2 e2
    linarith

/-- The loop of `supportConvex` either leaves its state, when no remaining vertex exceeds
`maxdot`, or ends on the first remaining vertex whose centre-relative dot product is the
largest, having stored that dot product. -/
theorem supportConvexLoop_spec (center dir : Vector3d K) (l : List (Vector3d K)) :
    ∀ (maxdot : K) (v : Vector3d K),
      (supportConvexLoop center dir l (maxdot, v) = (maxdot, v) ∧
        ∀ p ∈ l, dir.dot (p.sub center) ≤ maxdot) ∨
      (∃ pre post, l = pre ++ (supportConvexLoop center dir l (maxdot, v)).2 :: post ∧
        (supportConvexLoop center dir l (maxdot, v)).1 =
          dir.dot ((supportConvexLoop center dir l (maxdot, v)).2.sub center) ∧
        maxdot < dir.dot ((supportConvexLoop center dir l (maxdot, v)).2.sub center) ∧
        (∀ p ∈ pre, dir.dot (p.sub center) <
          dir.dot ((supportConvexLoop center dir l (maxdot, v)).2.sub center)) ∧
        (∀ p ∈ post, dir.dot (p.sub center) ≤
          dir.dot ((supportConvexLoop center dir l (maxdot, v)).2.sub center))) := by
  induction l with
  | nil =>
    intro maxdot v
    left
    exact ⟨rfl, by simp⟩
  | cons c rest ih =>
    intro maxdot v
    have hstep : supportConvexLoop center dir (c :: rest) (maxdot, v) =
        if dir.dot (c.sub center) > maxdot then
          supportConvexLoop center dir rest (dir.dot (c.sub center), c)
        else supportConvexLoop center dir rest (maxdot, v) := rfl
    by_cases hgt : dir.dot (c.sub center) > maxdot
    · rw [hstep, if_pos hgt]
      right
      rcases ih (dir.dot (c.sub center)) c with ⟨heq, hall⟩ | ⟨pre, post, hl, hm, hlt, hpre, hpost⟩
      · rw [heq]
        exact ⟨[], rest, rfl, rfl, hgt, by simp, hall⟩
      · refine ⟨c :: pre, post, ?_, hm, lt_trans hgt hlt, ?_, hpost⟩
        · rw [List.cons_append, ← hl]
        · intro p hp
          rcases List.mem_cons.mp hp with h | h
          · rw [h]
            exact hlt
          · exact hpre p h
    · rw [hstep, if_neg hgt]
      have hle : dir.dot (c.sub center) ≤ maxdot := not_lt.mp hgt
      rcases ih maxdot v with ⟨heq, hall⟩ | ⟨pre, post, hl, hm, hlt, hpre, hpost⟩
      · left
        refine ⟨heq, ?_⟩
        intro p hp
        rcases List.mem_cons.mp hp with h | h
        · rw [h]
          exact hle
        · exact hall p h
      · right
        refine ⟨c :: pre, post, ?_, hm, hlt, ?_, hpost⟩
        · rw [List.cons_append, ← hl]
        · intro p hp
          rcases List.mem_cons.mp hp with h | h
          · rw [h]
            exact lt_of_le_of_lt hle hlt
          · exact hpre p h

/-- The centre-relative dot product is the dot product shifted by a constant. -/
theorem Vector3d.dot_sub (d p c : Vector3d K) : d.dot (p.sub c) = d.dot p - d.dot c := by
  simp only [Vector3d.dot, Vector3d.sub]
  ring

/-- C15 (amended): for a convex shape with a vertex whose centre-relative dot product with the
local direction `d` exceeds `-CCD_REAL_MAX`, the local point of `supportConvex` is a vertex
`p*` of the shape, the first in storage order among those with the largest `d·p`: every vertex
stored before it has a strictly smaller `d·p` and every vertex stored after it has `d·p` at most
`d·p*`, so `d·p* >= d·p` for every vertex `p`; this description does not mention the centre. The
returned point is the transformed `p*`. -/
theorem C15_support_convex_first_maximal_vertex (lib : CcdLib K) (c : ccd_convex_t K)
    (dir_ v : Vector3d K)
    (h : ∃ p ∈ c.convex.points,
      -lib.CCD_REAL_MAX < (localDirection lib c.toccd_obj_t dir_).dot (p.sub c.convex.center)) :
    (∃ pre post,
      c.convex.points =
        pre ++ supportConvexLocal lib c (localDirection lib c.toccd_obj_t dir_) v :: post ∧
      (∀ p ∈ pre, (localDirection lib c.toccd_obj_t dir_).dot p <
        (localDirection lib c.toccd_obj_t dir_).dot
          (supportConvexLocal lib c (localDirection lib c.toccd_obj_t dir_) v)) ∧
      (∀ p ∈ post, (localDirection lib c.toccd_obj_t dir_).dot p ≤
        (localDirection lib c.toccd_obj_t dir_).dot
          (supportConvexLocal lib c (localDirection lib c.toccd_obj_t dir_) v))) ∧
    supportConvexLocal lib c (localDirection lib c.toccd_obj_t dir_) v ∈ c.convex.points ∧
    (∀ p ∈ c.convex.points, (localDirection lib c.toccd_obj_t dir_).dot p ≤
      (localDirection lib c.toccd_obj_t dir_).dot
        (supportConvexLocal lib c (localDirection lib c.toccd_obj_t dir_) v)) ∧
    supportConvex lib c dir_ v =
      (lib.ccdQuatRotVec (supportConvexLocal lib c (localDirection lib c.toccd_obj_t dir_) v)
        c.rot).add c.pos := by
  have hfin : supportConvex lib c dir_ v =
      (lib.ccdQuatRotVec (supportConvexLocal lib c (localDirection lib c.toccd_obj_t dir_) v)
        c.rot).add c.pos := rfl
  rw [hfin]
  generalize localDirection lib c.toccd_obj_t dir_ = d at h ⊢
  obtain ⟨p0, hp0, hp0gt⟩ := h
  have hdec : ∃ pre post,
      c.convex.points = pre ++ supportConvexLocal lib c d v :: post ∧
      (∀ p ∈ pre, d.dot p < d.dot (supportConvexLocal lib c d v)) ∧
      (∀ p ∈ post, d.dot p ≤ d.dot (supportConvexLocal lib c d v)) := by
    unfold supportConvexLocal
    rcases supportConvexLoop_spec c.convex.center d c.convex.points (-lib.CCD_REAL_MAX) v with
      ⟨-, hall⟩ | ⟨pre, post, hl, -, -, hpre, hpost⟩
    · exact absurd (hall p0 hp0) (not_le.mpr hp0gt)
    · refine ⟨pre, post, hl, ?_, ?_⟩
      · intro p hp
        have := hpre p hp
        rw [Vector3d.dot_sub, Vector3d.dot_sub] at this
        linarith
      · intro p hp
        have := hpost p hp
        rw [Vector3d.dot_sub, Vector3d.dot_sub] at this
        linarith
  obtain ⟨pre, post, hl, hpre, hpost⟩ := hdec
  refine ⟨⟨pre, post, hl, hpre, hpost⟩, ?_, ?_, rfl⟩
  · rw [hl]
    simp
  · intro p hp
    rw [hl] at hp
    rcases List.mem_append.mp hp with h1 | h1
    · exact le_of_lt (hpre p h1)
    · rcases List.mem_cons.mp h1 with h2 | h2
      · rw [h2]
      · exact hpost p h2

/-- An upper bound from a bound on the square. -/
theorem le_of_sq_le_sq_of_nonneg (a b : K) (hb : 0 ≤ b) (h : a * a ≤ b * b) : a ≤ b := by
  by_contra hcon
  have hlt : b < a := not_le.mp hcon
  nlinarith

/-- The Cauchy-Schwarz inequality in three dimensions. -/
theorem Vector3d.dot_sq_le (d u : Vector3d K) :
    d.dot u * d.dot u ≤ d.squaredNorm * u.squaredNorm := by
  simp only [Vector3d.squaredNorm, Vector3d.dot]
  nlinarith [sq_nonneg (d.x * u.y - d.y * u.x), sq_nonneg (d.y * u.z - d.z * u.y),
    sq_nonneg (d.z * u.x - d.x * u.z)]

/-- The two candidates of `supportCap`, compared. -/
theorem supportCapLocal_dot (o : ccd_cap_t K) (d : Vector3d K) :
    d.dot (supportCapLocal o d) = |d.z * o.height| + o.radius * d.squaredNorm ∧
    (supportCapLocal o d = (⟨0, 0, o.height⟩ : Vector3d K).add (ccdVec3Scale d o.radius) ∨
      supportCapLocal o d = (⟨0, 0, -o.height⟩ : Vector3d K).add (ccdVec3Scale d o.radius)) := by
  unfold supportCapLocal
  by_cases hc : d.dot ((⟨0, 0, o.height⟩ : Vector3d K).add (ccdVec3Scale d o.radius)) >
      d.dot ((⟨0, 0, -o.height⟩ : Vector3d K).add (ccdVec3Scale d o.radius))
  · simp only [hc, if_true]
    refine ⟨?_, Or.inl trivial⟩
    simp only [Vector3d.dot, Vector3d.add, ccdVec3Scale, Vector3d.squaredNorm] at hc ⊢
    have hpos : 0 ≤ d.z * o.height := by linarith
    rw [abs_of_nonneg hpos]
    ring
  · simp only [hc, if_false]
    refine ⟨?_, Or.inr trivial⟩
    simp only [Vector3d.dot, Vector3d.add, ccdVec3Scale, Vector3d.squaredNorm] at hc ⊢
    have hneg : d.z * o.height ≤ 0 := by linarith
    rw [abs_of_nonpos hneg]
    ring

/-- What `supportCap` does for unit directions: for every capsule with radius `r >= 0` and
every unit direction `d` of the
local frame, the local point of `supportCap` lies within distance `r` of the axis segment and
maximises `d·p` over the capsule; the returned point is its image under the rotation and the
translation of the capsule. -/
theorem supportCap_farthest_for_unit_direction (lib : CcdLib K) (o : ccd_cap_t K)
    (dir_ : Vector3d K) (hr : 0 ≤ o.radius)
    (hunit : (localDirection lib o.toccd_obj_t dir_).squaredNorm = 1) :
    InCapsule o (supportCapLocal o (localDirection lib o.toccd_obj_t dir_)) ∧
    (∀ p, InCapsule o p →
      (localDirection lib o.toccd_obj_t dir_).dot p ≤
        (localDirection lib o.toccd_obj_t dir_).dot
          (supportCapLocal o (localDirection lib o.toccd_obj_t dir_))) ∧
    supportCap lib o dir_ =
      (lib.ccdQuatRotVec (supportCapLocal o (localDirection lib o.toccd_obj_t dir_)) o.rot).add
        o.pos := by
  have hfin : supportCap lib o dir_ =
      (lib.ccdQuatRotVec (supportCapLocal o (localDirection lib o.toccd_obj_t dir_)) o.rot).add
        o.pos := rfl
  rw [hfin]
  generalize localDirection lib o.toccd_obj_t dir_ = d at hunit ⊢
  obtain ⟨hdot, hcase⟩ := supportCapLocal_dot o d
  have hu : d.x * d.x + d.y * d.y + d.z * d.z = 1 := by
    simpa only [Vector3d.squaredNorm, Vector3d.dot] using hunit
  refine ⟨?_, ?_, rfl⟩
  · rcases hcase with e | e
    · rw [e]
      refine ⟨o.height, ?_, le_abs_self _, ?_⟩
      · have := neg_abs_le o.height
        linarith
      · simp only [Vector3d.add, ccdVec3Scale]
        have : (0 + d.x * o.radius) * (0 + d.x * o.radius) +
            (0 + d.y * o.radius) * (0 + d.y * o.radius) +
            (o.height + d.z * o.radius - o.height) * (o.height + d.z * o.radius - o.height) =
            o.radius * o.radius * (d.x * d.x + d.y * d.y + d.z * d.z) := by ring
        rw [this, hu, mul_one]
    · rw [e]
      refine ⟨-o.height, ?_, ?_, ?_⟩
      · have := le_abs_self o.height
        linarith
      · have := neg_abs_le o.height
        have h2 := neg_le_abs o.height
        linarith
      · simp only [Vector3d.add, ccdVec3Scale]
        have : (0 + d.x * o.radius) * (0 + d.x * o.radius) +
            (0 + d.y * o.radius) * (0 + d.y * o.radius) +
            (-o.height + d.z * o.radius - -o.height) * (-o.height + d.z * o.radius - -o.height) =
            o.radius * o.radius * (d.x * d.x + d.y * d.y + d.z * d.z) := by ring
        rw [this, hu, mul_one]
  · intro p hp
    obtain ⟨t, ht1, ht2, hdist⟩ := hp
    rw [hdot, hunit, mul_one]
    -- the part of `p` off the axis point `(0, 0, t)`
    have hcs := Vector3d.dot_sq_le d ⟨p.x, p.y, p.z - t⟩
    rw [hunit, one_mul] at hcs
    have hoff : d.dot ⟨p.x, p.y, p.z - t⟩ ≤ o.radius := by
      apply le_of_sq_le_sq_of_nonneg _ _ hr
      have hsq : (⟨p.x, p.y, p.z - t⟩ : Vector3d K).squaredNorm =
          p.x * p.x + p.y * p.y + (p.z - t) * (p.z - t) := rfl
      rw [hsq] at hcs
      exact le_trans hcs hdist
    have haxis : d.z * t ≤ |d.z * o.height| := by
      have h1 : d.z * t ≤ |d.z * t| := le_abs_self _
      have h2 : |d.z * t| = |d.z| * |t| := abs_mul _ _
      have h3 : |t| ≤ |o.height| := abs_le.mpr ⟨ht1, ht2⟩
      have h4 : |d.z| * |t| ≤ |d.z| * |o.height| :=
        mul_le_mul_of_nonneg_left h3 (abs_nonneg _)
      rw [abs_mul]
      linarith
    have hsplit : d.dot p = d.z * t + d.dot ⟨p.x, p.y, p.z - t⟩ := by
      simp only [Vector3d.dot]
      ring
    rw [hsplit]
    linarith

/-- With an exact square root, the test of `supportCone` compares the apex with the base rim:
`d.z > |d| * r / sqrt(r^2 + 4 h^2)` exactly when `r * |d_xy| < 2 * h * d.z`. -/
theorem cone_test_iff (r h dz z2 zd len s : K) (hh : 0 < h) (hzd0 : 0 ≤ zd)
    (hzd : zd * zd = z2) (hlen0 : 0 ≤ len) (hlen : len * len = z2 + dz * dz) (hs0 : 0 < s)
    (hs : s * s = r * r + 4 * h * h) (hr : 0 < r) :
    dz > len * (r / s) ↔ r * zd < 2 * h * dz := by
  have e : len * (r / s) = len * r / s := by ring
  rw [gt_iff_lt, e, div_lt_iff₀ hs0]
  have hlr : (len * r) * (len * r) = (z2 + dz * dz) * (r * r) := by
    rw [← hlen]
    ring
  have hds : (dz * s) * (dz * s) = dz * dz * (r * r + 4 * h * h) := by
    rw [← hs]
    ring
  have hrz : (r * zd) * (r * zd) = z2 * (r * r) := by
    rw [← hzd]
    ring
  have hlr0 : 0 ≤ len * r := mul_nonneg hlen0 (le_of_lt hr)
  have hrz0 : 0 ≤ r * zd := mul_nonneg (le_of_lt hr) hzd0
  constructor
  · intro hlt
    have hpos : 0 < dz * s := lt_of_le_of_lt hlr0 hlt
    have hdz : 0 < dz := by
      by_contra hcon
      have : dz * s ≤ 0 := mul_nonpos_of_nonpos_of_nonneg (not_lt.mp hcon) (le_of_lt hs0)
      linarith
    have hsq := mul_self_lt_mul_self hlr0 hlt
    rw [hlr, hds] at hsq
    by_contra hcon
    have hle : 2 * h * dz ≤ r * zd := not_lt.mp hcon
    have h2 : 0 ≤ 2 * h * dz := by positivity
    have hsq2 := mul_self_le_mul_self h2 hle
    rw [hrz] at hsq2
    have e4 : 2 * h * dz * (2 * h * dz) = dz * dz * (4 * h * h) := by ring
    rw [e4] at hsq2
    have e5 : (z2 + dz * dz) * (r * r) = z2 * (r * r) + dz * dz * (r * r) := by ring
    have e6 : dz * dz * (r * r + 4 * h * h) = dz * dz * (r * r) + dz * dz * (4 * h * h) := by
      ring
    rw [e5, e6] at hsq
    linarith
  · intro hlt
    have hpos : 0 < 2 * h * dz := lt_of_le_of_lt hrz0 hlt
    have hdz : 0 < dz := by
      by_contra hcon
      have : 2 * h * dz ≤ 0 := by
        have h2h : 0 ≤ 2 * h := by positivity
        exact mul_nonpos_of_nonneg_of_nonpos h2h (not_lt.mp hcon)
      linarith
    have hsq := mul_self_lt_mul_self hrz0 hlt
    rw [hrz] at hsq
    by_contra hcon
    have hle : dz * s ≤ len * r := not_lt.mp hcon
    have h2 : 0 ≤ dz * s := le_of_lt (mul_pos hdz hs0)
    have hsq2 := mul_self_le_mul_self h2 hle
    rw [hlr, hds] at hsq2
    have e4 : 2 * h * dz * (2 * h * dz) = dz * dz * (4 * h * h) := by ring
    rw [e4] at hsq
    have e5 : (z2 + dz * dz) * (r * r) = z2 * (r * r) + dz * dz * (r * r) := by ring
    have e6 : dz * dz * (r * r + 4 * h * h) = dz * dz * (r * r) + dz * dz * (4 * h * h) := by
      ring
    rw [e5, e6] at hsq2
    linarith

/-- Every point of the cone is below the better of the apex and the base rim in direction `d`:
twice the height times `d·p` is at most `r |d_xy| (h - z) + 2 h d.z z`. -/
theorem cone_dot_le (cone : ccd_cone_t K) (d p : Vector3d K) (zd : K)
    (hr : 0 < cone.radius) (hzd0 : 0 ≤ zd) (hzd : zd * zd = d.x * d.x + d.y * d.y)
    (hp : InCone cone p) :
    2 * cone.height * d.dot p ≤
      cone.radius * zd * (cone.height - p.z) + 2 * cone.height * d.z * p.z := by
  obtain ⟨hlo, hhi, hdisc⟩ := hp
  have hcs : (d.x * p.x + d.y * p.y) * (d.x * p.x + d.y * p.y) ≤
      (d.x * d.x + d.y * d.y) * (p.x * p.x + p.y * p.y) := by
    nlinarith [sq_nonneg (d.x * p.y - d.y * p.x)]
  have hrhs0 : 0 ≤ cone.radius * zd * (cone.height - p.z) := by
    have : 0 ≤ cone.height - p.z := by linarith
    positivity
  have hz2 : 0 ≤ d.x * d.x + d.y * d.y := by nlinarith [mul_self_nonneg d.x, mul_self_nonneg d.y]
  have hxy : 2 * cone.height * (d.x * p.x + d.y * p.y) ≤
      cone.radius * zd * (cone.height - p.z) := by
    apply le_of_sq_le_sq_of_nonneg _ _ hrhs0
    have e1 : 2 * cone.height * (d.x * p.x + d.y * p.y) *
        (2 * cone.height * (d.x * p.x + d.y * p.y)) =
        (2 * cone.height) * (2 * cone.height) *
          ((d.x * p.x + d.y * p.y) * (d.x * p.x + d.y * p.y)) := by ring
    have e2 : cone.radius * zd * (cone.height - p.z) *
        (cone.radius * zd * (cone.height - p.z)) =
        (zd * zd) * (cone.radius * cone.radius *
          ((cone.height - p.z) * (cone.height - p.z))) := by ring
    rw [e1, e2, hzd]
    have h4 : 0 ≤ (2 * cone.height) * (2 * cone.height) := mul_self_nonneg _
    calc (2 * cone.height) * (2 * cone.height) *
          ((d.x * p.x + d.y * p.y) * (d.x * p.x + d.y * p.y))
        ≤ (2 * cone.height) * (2 * cone.height) *
          ((d.x * d.x + d.y * d.y) * (p.x * p.x + p.y * p.y)) :=
          mul_le_mul_of_nonneg_left hcs h4
      _ = (d.x * d.x + d.y * d.y) *
          ((2 * cone.height) * (2 * cone.height) * (p.x * p.x + p.y * p.y)) := by ring
      _ ≤ (d.x * d.x + d.y * d.y) * (cone.radius * cone.radius *
          ((cone.height - p.z) * (cone.height - p.z))) :=
          mul_le_mul_of_nonneg_left hdisc hz2
  have hsplit : 2 * cone.height * d.dot p =
      2 * cone.height * (d.x * p.x + d.y * p.y) + 2 * cone.height * d.z * p.z := by
    simp only [Vector3d.dot]
    ring
  rw [hsplit]
  linarith

/-- C13: with a square root that is exact at the three values `supportCone` feeds it
(`d.x^2 + d.y^2`, `|d|^2` and `r^2 + 4 h^2`), for a cone with radius `r > 0` and height parameter `h > 0`
and every non-zero local direction `d`, the local point of `supportCone` is the apex
`(0, 0, h)` exactly when `d.z > |d| * r / sqrt(r^2 + 4 h^2)`; otherwise it lies in the base plane
`z = -h`, on the rim (at distance `r` from the axis) when `d.x`, `d.y` are not both zero and at
the base centre when they are; in every case it is a point of the cone and maximises `d·p` over
the cone. The returned point is its image under the rotation and translation of the cone. -/
theorem C13_support_cone_apex_or_base_rim (lib : CcdLib K) (cone : ccd_cone_t K)
    (dir_ d : Vector3d K)
    (hsqrt1 : 0 ≤ lib.sqrt (d.x * d.x + d.y * d.y) ∧
      lib.sqrt (d.x * d.x + d.y * d.y) * lib.sqrt (d.x * d.x + d.y * d.y) =
        d.x * d.x + d.y * d.y)
    (hsqrt2 : 0 ≤ lib.sqrt (d.x * d.x + d.y * d.y + d.z * d.z) ∧
      lib.sqrt (d.x * d.x + d.y * d.y + d.z * d.z) *
          lib.sqrt (d.x * d.x + d.y * d.y + d.z * d.z) =
        d.x * d.x + d.y * d.y + d.z * d.z)
    (hsqrt3 : 0 ≤ lib.sqrt (cone.radius * cone.radius + 4 * cone.height * cone.height) ∧
      lib.sqrt (cone.radius * cone.radius + 4 * cone.height * cone.height) *
          lib.sqrt (cone.radius * cone.radius + 4 * cone.height * cone.height) =
        cone.radius * cone.radius + 4 * cone.height * cone.height)
    (hr : 0 < cone.radius) (hh : 0 < cone.height)
    (hd : localDirection lib cone.toccd_obj_t dir_ = d) (hd0 : d.squaredNorm ≠ 0) :
    (supportConeLocal lib cone d = ⟨0, 0, cone.height⟩ ↔
      d.z > lib.sqrt (d.x * d.x + d.y * d.y + d.z * d.z) *
        (cone.radius /
          lib.sqrt (cone.radius * cone.radius + 4 * cone.height * cone.height))) ∧
    (¬ d.z > lib.sqrt (d.x * d.x + d.y * d.y + d.z * d.z) *
        (cone.radius /
          lib.sqrt (cone.radius * cone.radius + 4 * cone.height * cone.height)) →
      (supportConeLocal lib cone d).z = -cone.height ∧
      (d.x = 0 ∧ d.y = 0 → supportConeLocal lib cone d = ⟨0, 0, -cone.height⟩) ∧
      (¬ (d.x = 0 ∧ d.y = 0) →
        (supportConeLocal lib cone d).x * (supportConeLocal lib cone d).x +
          (supportConeLocal lib cone d).y * (supportConeLocal lib cone d).y =
            cone.radius * cone.radius)) ∧
    InCone cone (supportConeLocal lib cone d) ∧
    (∀ p, InCone cone p → d.dot p ≤ d.dot (supportConeLocal lib cone d)) ∧
    supportCone lib cone dir_ =
      (lib.ccdQuatRotVec (supportConeLocal lib cone d) cone.rot).add cone.pos := by
  have hfin : supportCone lib cone dir_ =
      (lib.ccdQuatRotVec (supportConeLocal lib cone d) cone.rot).add cone.pos := by
    rw [← hd]
    rfl
  -- the three square roots
  have hz2 : 0 ≤ d.x * d.x + d.y * d.y := by
    nlinarith [mul_self_nonneg d.x, mul_self_nonneg d.y]
  obtain ⟨hzd0, hzd⟩ := hsqrt1
  have hL2 : 0 < d.x * d.x + d.y * d.y + d.z * d.z := by
    have h0 := Vector3d.squaredNorm_nonneg d
    have h1 : d.squaredNorm = d.x * d.x + d.y * d.y + d.z * d.z := rfl
    rw [h1] at h0 hd0
    exact lt_of_le_of_ne h0 (Ne.symm hd0)
  obtain ⟨hlen0, hlen⟩ := hsqrt2
  have hS2 : 0 < cone.radius * cone.radius + 4 * cone.height * cone.height := by positivity
  obtain ⟨hs0, hs⟩ := hsqrt3
  have hspos : 0 < lib.sqrt (cone.radius * cone.radius + 4 * cone.height * cone.height) := by
    rcases lt_or_eq_of_le hs0 with h1 | h1
    · exact h1
    · rw [← h1] at hs
      linarith
  have htest := cone_test_iff cone.radius cone.height d.z (d.x * d.x + d.y * d.y)
    (lib.sqrt (d.x * d.x + d.y * d.y)) (lib.sqrt (d.x * d.x + d.y * d.y + d.z * d.z))
    (lib.sqrt (cone.radius * cone.radius + 4 * cone.height * cone.height))
    hh hzd0 hzd hlen0 hlen hspos hs hr
  have hbound := fun p hp => cone_dot_le cone d p (lib.sqrt (d.x * d.x + d.y * d.y)) hr hzd0 hzd hp
  have h2h : 0 < 2 * cone.height := by positivity
  by_cases ht : d.z > lib.sqrt (d.x * d.x + d.y * d.y + d.z * d.z) *
      (cone.radius / lib.sqrt (cone.radius * cone.radius + 4 * cone.height * cone.height))
  · -- the apex
    have hloc : supportConeLocal lib cone d = ⟨0, 0, cone.height⟩ := by
      simp only [supportConeLocal, ht, if_true]
    have hcmp := htest.mp ht
    rw [hloc]
    refine ⟨⟨fun _ => ht, fun _ => rfl⟩, fun hn => absurd ht hn, ?_, ?_, by rw [hfin, hloc]⟩
    · refine ⟨by linarith, le_refl _, ?_⟩
      simp
    · intro p hp
      have hb := hbound p hp
      obtain ⟨-, hhi, -⟩ := hp
      have hprod : 0 ≤ (2 * cone.height * d.z - cone.radius *
          lib.sqrt (d.x * d.x + d.y * d.y)) * (cone.height - p.z) :=
        mul_nonneg (by linarith) (by linarith)
      have hval : d.dot (⟨0, 0, cone.height⟩ : Vector3d K) = d.z * cone.height := by
        simp [Vector3d.dot]
      rw [hval]
      have : 2 * cone.height * d.dot p ≤ 2 * cone.height * (d.z * cone.height) := by
        linarith
      exact le_of_mul_le_mul_left this h2h
  · have hcmp : 2 * cone.height * d.z ≤ cone.radius * lib.sqrt (d.x * d.x + d.y * d.y) := by
      by_contra hcon
      exact ht (htest.mpr (not_le.mp hcon))
    by_cases hzpos : lib.sqrt (d.x * d.x + d.y * d.y) > 0
    · -- a point of the base rim
      have hloc : supportConeLocal lib cone d =
          ⟨cone.radius / lib.sqrt (d.x * d.x + d.y * d.y) * d.x,
            cone.radius / lib.sqrt (d.x * d.x + d.y * d.y) * d.y, -cone.height⟩ := by
        simp only [supportConeLocal, ht, if_false, hzpos, if_true]
      have hne : lib.sqrt (d.x * d.x + d.y * d.y) ≠ 0 := ne_of_gt hzpos
      have hrim : cone.radius / lib.sqrt (d.x * d.x + d.y * d.y) * d.x *
            (cone.radius / lib.sqrt (d.x * d.x + d.y * d.y) * d.x) +
          cone.radius / lib.sqrt (d.x * d.x + d.y * d.y) * d.y *
            (cone.radius / lib.sqrt (d.x * d.x + d.y * d.y) * d.y) =
          cone.radius * cone.radius := by
        generalize lib.sqrt (d.x * d.x + d.y * d.y) = zd at hzd hne ⊢
        field_simp
        linear_combination (-(cone.radius * cone.radius)) * hzd
      have hval : d.dot (⟨cone.radius / lib.sqrt (d.x * d.x + d.y * d.y) * d.x,
            cone.radius / lib.sqrt (d.x * d.x + d.y * d.y) * d.y, -cone.height⟩ : Vector3d K) =
          cone.radius * lib.sqrt (d.x * d.x + d.y * d.y) - d.z * cone.height := by
        simp only [Vector3d.dot]
        generalize lib.sqrt (d.x * d.x + d.y * d.y) = zd at hzd hne ⊢
        field_simp
        linear_combination (-cone.radius) * hzd
      rw [hloc]
      refine ⟨⟨fun e => ?_, fun h => absurd h ht⟩, fun _ => ⟨rfl, ?_, fun _ => hrim⟩, ?_, ?_,
        by rw [hfin, hloc]⟩
      · have hz : -cone.height = cone.height := congrArg Vector3d.z e
        linarith
      · intro hxy
        exfalso
        rw [hxy.1, hxy.2] at hzd
        have : lib.sqrt (0 * 0 + 0 * 0) = 0 := by
          have h0 : lib.sqrt (0 * 0 + 0 * 0) * lib.sqrt (0 * 0 + 0 * 0) = 0 := by
            rw [hzd]
            ring
          exact mul_self_eq_zero.mp h0
        rw [hxy.1, hxy.2] at hne
        exact hne this
      · refine ⟨le_refl _, by linarith, ?_⟩
        show 2 * cone.height * (2 * cone.height) * _ ≤ _
        rw [hrim]
        have : cone.height - -cone.height = 2 * cone.height := by ring
        rw [this]
        linarith [mul_comm (2 * cone.height * (2 * cone.height)) (cone.radius * cone.radius)]
      · intro p hp
        have hb := hbound p hp
        obtain ⟨hlo, -, -⟩ := hp
        have hprod : 0 ≤ (cone.radius * lib.sqrt (d.x * d.x + d.y * d.y) -
            2 * cone.height * d.z) * (p.z + cone.height) :=
          mul_nonneg (by linarith) (by linarith)
        rw [hval]
        have : 2 * cone.height * d.dot p ≤ 2 * cone.height *
            (cone.radius * lib.sqrt (d.x * d.x + d.y * d.y) - d.z * cone.height) := by
          linarith
        exact le_of_mul_le_mul_left this h2h
    · -- the base centre
      have hzero : lib.sqrt (d.x * d.x + d.y * d.y) = 0 :=
        le_antisymm (not_lt.mp hzpos) hzd0
      have hloc : supportConeLocal lib cone d = ⟨0, 0, -cone.height⟩ := by
        simp only [supportConeLocal, ht, if_false, hzpos]
      have hxy0 : d.x = 0 ∧ d.y = 0 := by
        have hsum : d.x * d.x + d.y * d.y = 0 := by
          rw [← hzd, hzero]
          ring
        have hxx : d.x * d.x = 0 :=
          le_antisymm (by linarith [mul_self_nonneg d.y]) (mul_self_nonneg d.x)
        have hyy : d.y * d.y = 0 :=
          le_antisymm (by linarith [mul_self_nonneg d.x]) (mul_self_nonneg d.y)
        exact ⟨mul_self_eq_zero.mp hxx, mul_self_eq_zero.mp hyy⟩
      rw [hloc]
      refine ⟨⟨fun e => ?_, fun h => absurd h ht⟩,
        fun _ => ⟨rfl, fun _ => rfl, fun hn => absurd hxy0 hn⟩, ?_, ?_, by rw [hfin, hloc]⟩
      · have hz : -cone.height = cone.height := congrArg Vector3d.z e
        linarith
      · refine ⟨le_refl _, ?_, ?_⟩
        · show -cone.height ≤ cone.height
          linarith
        · show 2 * cone.height * (2 * cone.height) * (0 * 0 + 0 * 0) ≤
            cone.radius * cone.radius *
              ((cone.height - -cone.height) * (cone.height - -cone.height))
          have h1 : 0 ≤ cone.radius * cone.radius *
              ((cone.height - -cone.height) * (cone.height - -cone.height)) :=
            mul_nonneg (mul_self_nonneg _) (mul_self_nonneg _)
          have h2 : 2 * cone.height * (2 * cone.height) * (0 * 0 + 0 * 0) = (0 : K) := by ring
          rw [h2]
          exact h1
      · intro p hp
        have hb := hbound p hp
        obtain ⟨hlo, -, -⟩ := hp
        rw [hzero] at hb hcmp
        have hdz : d.z ≤ 0 := by
          by_contra hcon
          have : 0 < 2 * cone.height * d.z := mul_pos h2h (not_le.mp hcon)
          linarith
        have hprod : 0 ≤ 2 * cone.height * ((-d.z) * (p.z + cone.height)) :=
          mul_nonneg (le_of_lt h2h) (mul_nonneg (by linarith) (by linarith))
        have hval : d.dot (⟨0, 0, -cone.height⟩ : Vector3d K) = -(d.z * cone.height) := by
          simp [Vector3d.dot]
        rw [hval]
        have : 2 * cone.height * d.dot p ≤ 2 * cone.height * (-(d.z * cone.height)) := by
          linarith
        exact le_of_mul_le_mul_left this h2h

end Support

/-! ## Facts on the concrete scene -/

section Scene

theorem exConstraintFriction_ctor :
    ContactConstraint.ctor exFloatLib exWorldFriction exContact = some exConstraintFriction := by
  norm_num [ContactConstraint.ctor, exFloatLib, exWorldFriction, exContact, exConstraintFriction,
    exWorldOf, exBody, jacobiansFriction, getTangentBasisMatrixODE, tangentBasisAsserts,
    rowJacobians, Vector3d.cross, Vector3d.dot, Vector3d.norm, Vector3d.normalized,
    Vector3d.squaredNorm, Vector3d.UnitZ, Vector3d.UnitX, rotateHalfPi, Vector3d.smul,
    Vector3d.add, Vector3d.neg, Vector3d.sub, Matrix3d.transposeMulVec,
    Isometry3d.inverseMulPoint, exIdentity, DART_EPSILON, DART_CONTACT_CONSTRAINT_EPSILON,
    DART_FRICTION_COEFF_THRESHOLD, DART_RESTITUTION_COEFF_THRESHOLD, abs_lt]

theorem exInfo_asserts_friction : getInformationAsserts exConstraintFriction exInfo := by
  simp [getInformationAsserts, assertsFriction, exConstraintFriction, exInfo]

theorem exRelVelocity_friction (b : Nat → ℚ) :
    getRelVelocity exConstraintFriction exWorldFriction b 0 = 0 := by
  rw [getRelVelocity_row _ _ _ _ (by norm_num [exConstraintFriction])]
  norm_num [exConstraintFriction, exWorldFriction, exWorldOf, exBody, jacobianAt,
    Vector6d.dot, Vector3d.dot]

theorem exConstraintBounce_ctor :
    ContactConstraint.ctor exFloatLib exWorldBounce exContact = some exConstraintBounce := by
  norm_num [ContactConstraint.ctor, exFloatLib, exWorldBounce, exContact, exConstraintBounce,
    exConstraintFriction,
    exWorldOf, exBody, jacobiansFriction, getTangentBasisMatrixODE, tangentBasisAsserts,
    rowJacobians, Vector3d.cross, Vector3d.dot, Vector3d.norm, Vector3d.normalized,
    Vector3d.squaredNorm, Vector3d.UnitZ, Vector3d.UnitX, rotateHalfPi, Vector3d.smul,
    Vector3d.add, Vector3d.neg, Vector3d.sub, Matrix3d.transposeMulVec,
    Isometry3d.inverseMulPoint, exIdentity, DART_EPSILON, DART_CONTACT_CONSTRAINT_EPSILON,
    DART_FRICTION_COEFF_THRESHOLD, DART_RESTITUTION_COEFF_THRESHOLD, abs_lt]

theorem exConstraintFrictionless_ctor :
    ContactConstraint.ctor exFloatLib exWorldFrictionless exContact
      = some exConstraintFrictionless := by
  norm_num [ContactConstraint.ctor, exFloatLib, exWorldFrictionless, exContact,
    exConstraintFrictionless, exWorldOf, exBody, jacobiansFrictionless,
    rowJacobians, Vector3d.cross, Vector3d.UnitZ, Vector3d.neg, Vector3d.sub,
    Matrix3d.transposeMulVec, Isometry3d.inverseMulPoint, exIdentity,
    DART_FRICTION_COEFF_THRESHOLD, DART_RESTITUTION_COEFF_THRESHOLD]

theorem exInfo_asserts_bounce : getInformationAsserts exConstraintBounce exInfo := by
  simp [getInformationAsserts, assertsFriction, exConstraintBounce, exConstraintFriction, exInfo]

theorem exRelVelocity_bounce (b : Nat → ℚ) :
    getRelVelocity exConstraintBounce exWorldBounce b 0 = 1 / 20 := by
  rw [getRelVelocity_row _ _ _ _ (by norm_num [exConstraintBounce, exConstraintFriction])]
  norm_num [exConstraintBounce, exConstraintFriction, exWorldBounce, exWorldOf, exBody,
    jacobianAt, Vector6d.dot, Vector3d.dot]

theorem exBounce_restitution :
    (exWorldBounce.bodies exContact.bodyNode1).mRestitutionCoeff *
      (exWorldBounce.bodies exContact.bodyNode2).mRestitutionCoeff >
        (DART_RESTITUTION_COEFF_THRESHOLD : ℚ) := by
  norm_num [exWorldBounce, exWorldOf, exBody, exContact, DART_RESTITUTION_COEFF_THRESHOLD]

end Scene

/-! ## Witnesses and counterexamples for `getInformation` -/

section GetInformationScene

/-- C1, witness: the default parameters in the frictional scene. -/
theorem C1_witness :
    exConstraintFriction.mIsFrictionOn = true ∧
    exConstraintFriction.mIsBounceOn = false ∧
    0 ≤ (Params.default : Params ℚ).mMaxErrorReductionVelocity ∧
    getInformationAsserts exConstraintFriction exInfo ∧
    ∃ info1, getInformation Params.default exConstraintFriction exWorldFriction exInfo
        = some info1 ∧
      ∀ (k : Nat) (ct : Contact ℚ), exConstraintFriction.mContacts[k]? = some ct →
        info1.b (3 * k) =
          getRelVelocity exConstraintFriction exWorldFriction exInfo.b (3 * k) +
          min (max 0 (ct.penetrationDepth - (Params.default : Params ℚ).mErrorAllowance) *
            (Params.default : Params ℚ).mErrorReductionParameter * exInfo.invTimeStep)
            (Params.default : Params ℚ).mMaxErrorReductionVelocity :=
  ⟨rfl, rfl, by norm_num [Params.default, DART_MAX_ERV], exInfo_asserts_friction,
    C1_normal_bias_is_clamped_penetration_correction Params.default
      exConstraintFriction exWorldFriction exInfo rfl rfl
      (by norm_num [Params.default, DART_MAX_ERV]) exInfo_asserts_friction⟩

/-- C1, counterexample: after `setErrorAllowance(1)` and `setMaxErrorReductionVelocity(-1)` the
contact of depth `1/100` gets the bias `0`, while the claimed clamp is `min(0, -1) = -1`. -/
theorem C1_counterexample_negative_max_erv :
    ContactConstraint.ctor exFloatLib exWorldFriction exContact = some exConstraintFriction ∧
    exConstraintFriction.mIsFrictionOn = true ∧
    exConstraintFriction.mIsBounceOn = false ∧
    0 ≤ exParamsNegativeErv.mErrorReductionParameter ∧ 0 ≤ exInfo.invTimeStep ∧
    ∃ info1, getInformation exParamsNegativeErv exConstraintFriction exWorldFriction exInfo
        = some info1 ∧
      info1.b 0 = 0 ∧
      info1.b 0 ≠ getRelVelocity exConstraintFriction exWorldFriction exInfo.b 0 +
        min (max 0 (exContact.penetrationDepth - exParamsNegativeErv.mErrorAllowance) *
          exParamsNegativeErv.mErrorReductionParameter * exInfo.invTimeStep)
          exParamsNegativeErv.mMaxErrorReductionVelocity := by
  refine ⟨exConstraintFriction_ctor, rfl, rfl, ?_, ?_, ?_⟩
  · norm_num [exParamsNegativeErv, setMaxErrorReductionVelocity, setErrorAllowance,
      Params.default, DART_ERP]
  · norm_num [exInfo]
  · obtain ⟨info1, h⟩ := getInformation_isSome exParamsNegativeErv exConstraintFriction
      exWorldFriction exInfo exInfo_asserts_friction
    obtain ⟨-, -, -, ⟨hb0, -, -⟩, -⟩ := getInformation_friction_rows exParamsNegativeErv
      exConstraintFriction exWorldFriction exInfo info1 rfl h 0 exContact rfl
    have hbv : info1.b 0 = 0 := by
      rw [hb0, exRelVelocity_friction]
      norm_num [bouncingVelocityFriction, restitution, penetrationCorrection,
        exConstraintFriction, exContact, exParamsNegativeErv, setMaxErrorReductionVelocity,
        setErrorAllowance, Params.default]
    refine ⟨info1, h, hbv, ?_⟩
    rw [hbv, exRelVelocity_friction]
    norm_num [exContact, exParamsNegativeErv, setMaxErrorReductionVelocity,
      setErrorAllowance, Params.default, exInfo, DART_ERP]

/-- C2, witness: the bouncing scene with the default parameters. -/
theorem C2_witness :
    ContactConstraint.ctor exFloatLib exWorldBounce exContact = some exConstraintBounce ∧
    (exWorldBounce.bodies exContact.bodyNode1).mRestitutionCoeff *
      (exWorldBounce.bodies exContact.bodyNode2).mRestitutionCoeff >
        (DART_RESTITUTION_COEFF_THRESHOLD : ℚ) ∧
    getInformationAsserts exConstraintBounce exInfo ∧
    ∃ info1, getInformation Params.default exConstraintBounce exWorldBounce exInfo
        = some info1 ∧
      info1.b 0 = getRelVelocity exConstraintBounce exWorldBounce exInfo.b 0 +
        (if (exWorldBounce.bodies exContact.bodyNode1).mRestitutionCoeff *
              (exWorldBounce.bodies exContact.bodyNode2).mRestitutionCoeff *
                getRelVelocity exConstraintBounce exWorldBounce exInfo.b 0 >
                DART_BOUNCING_VELOCITY_THRESHOLD ∧
            (exWorldBounce.bodies exContact.bodyNode1).mRestitutionCoeff *
              (exWorldBounce.bodies exContact.bodyNode2).mRestitutionCoeff *
                getRelVelocity exConstraintBounce exWorldBounce exInfo.b 0 >
              (if exConstraintBounce.mIsFrictionOn = true then
                penetrationCorrection exContact.penetrationDepth
                  (Params.default : Params ℚ).mErrorAllowance
                  (Params.default : Params ℚ).mErrorReductionParameter exInfo.invTimeStep
                  (Params.default : Params ℚ).mMaxErrorReductionVelocity
              else
                penetrationCorrection exContact.penetrationDepth DART_ERROR_ALLOWANCE
                  (Params.default : Params ℚ).mErrorReductionParameter exInfo.invTimeStep
                  DART_MAX_ERV) then
          min ((exWorldBounce.bodies exContact.bodyNode1).mRestitutionCoeff *
              (exWorldBounce.bodies exContact.bodyNode2).mRestitutionCoeff *
                getRelVelocity exConstraintBounce exWorldBounce exInfo.b 0)
            DART_MAX_BOUNCING_VELOCITY
        else
          (if exConstraintBounce.mIsFrictionOn = true then
            penetrationCorrection exContact.penetrationDepth
              (Params.default : Params ℚ).mErrorAllowance
              (Params.default : Params ℚ).mErrorReductionParameter exInfo.invTimeStep
              (Params.default : Params ℚ).mMaxErrorReductionVelocity
          else
            penetrationCorrection exContact.penetrationDepth DART_ERROR_ALLOWANCE
              (Params.default : Params ℚ).mErrorReductionParameter exInfo.invTimeStep
              DART_MAX_ERV)) :=
  ⟨exConstraintBounce_ctor, exBounce_restitution, exInfo_asserts_bounce,
    C2_restitution_bias_with_threshold exFloatLib exWorldBounce exWorldBounce exContact
      exConstraintBounce Params.default exInfo exConstraintBounce_ctor exBounce_restitution
      exInfo_asserts_bounce⟩

/-- C2, counterexample: restitution `e = 1`, negative relative normal velocity `1/20` and
penetration correction `0` (allowance `1/50` above the depth `1/100`): the restitution velocity
`1/20` does not exceed the bouncing-velocity threshold `1/10`, so the code adds `0`, while the
claimed bias is `min(max(0, 1/20), 100) = 1/20`. -/
theorem C2_counterexample_below_bouncing_threshold :
    ContactConstraint.ctor exFloatLib exWorldBounce exContact = some exConstraintBounce ∧
    (exWorldBounce.bodies exContact.bodyNode1).mRestitutionCoeff *
      (exWorldBounce.bodies exContact.bodyNode2).mRestitutionCoeff >
        (DART_RESTITUTION_COEFF_THRESHOLD : ℚ) ∧
    ∃ info1, getInformation exParamsAllowance exConstraintBounce exWorldBounce exInfo
        = some info1 ∧
      getRelVelocity exConstraintBounce exWorldBounce exInfo.b 0 = 1 / 20 ∧
      info1.b 0 - getRelVelocity exConstraintBounce exWorldBounce exInfo.b 0 = 0 ∧
      info1.b 0 - getRelVelocity exConstraintBounce exWorldBounce exInfo.b 0 ≠
        min (max (penetrationCorrection exContact.penetrationDepth
              exParamsAllowance.mErrorAllowance exParamsAllowance.mErrorReductionParameter
              exInfo.invTimeStep exParamsAllowance.mMaxErrorReductionVelocity)
            (exConstraintBounce.mRestitutionCoeff *
              getRelVelocity exConstraintBounce exWorldBounce exInfo.b 0))
          DART_MAX_BOUNCING_VELOCITY := by
  refine ⟨exConstraintBounce_ctor, exBounce_restitution, ?_⟩
  obtain ⟨info1, h⟩ := getInformation_isSome exParamsAllowance exConstraintBounce
    exWorldBounce exInfo exInfo_asserts_bounce
  obtain ⟨-, -, -, ⟨hb0, -, -⟩, -⟩ := getInformation_friction_rows exParamsAllowance
    exConstraintBounce exWorldBounce exInfo info1 rfl h 0 exContact rfl
  have hbv : info1.b 0 = 1 / 20 := by
    rw [hb0, exRelVelocity_bounce]
    norm_num [bouncingVelocityFriction, restitution, penetrationCorrection,
      exConstraintBounce, exConstraintFriction, exContact, exParamsAllowance,
      setErrorAllowance, Params.default, DART_BOUNCING_VELOCITY_THRESHOLD]
  refine ⟨info1, h, exRelVelocity_bounce _, ?_, ?_⟩
  · rw [hbv, exRelVelocity_bounce]
    norm_num
  · rw [hbv, exRelVelocity_bounce]
    norm_num [penetrationCorrection, exConstraintBounce, exConstraintFriction, exContact,
      exParamsAllowance, setErrorAllowance, Params.default, DART_MAX_BOUNCING_VELOCITY]

/-- C4, witness: the frictional scene, where `mu = min(1, 1/2)`. -/
theorem C4_witness :
    ContactConstraint.ctor exFloatLib exWorldFriction exContact = some exConstraintFriction ∧
    exConstraintFriction.mIsFrictionOn = true ∧
    getInformationAsserts exConstraintFriction exInfo ∧
    ∃ info1, getInformation Params.default exConstraintFriction exWorldFriction exInfo
        = some info1 ∧
      info1.lo 1 = -min (exWorldFriction.bodies exContact.bodyNode1).mFrictionCoeff
        (exWorldFriction.bodies exContact.bodyNode2).mFrictionCoeff ∧
      info1.hi 1 = ((min (exWorldFriction.bodies exContact.bodyNode1).mFrictionCoeff
        (exWorldFriction.bodies exContact.bodyNode2).mFrictionCoeff : ℚ) : WithTop ℚ) ∧
      info1.findex 1 = 0 ∧
      info1.lo 2 = -min (exWorldFriction.bodies exContact.bodyNode1).mFrictionCoeff
        (exWorldFriction.bodies exContact.bodyNode2).mFrictionCoeff ∧
      info1.hi 2 = ((min (exWorldFriction.bodies exContact.bodyNode1).mFrictionCoeff
        (exWorldFriction.bodies exContact.bodyNode2).mFrictionCoeff : ℚ) : WithTop ℚ) ∧
      info1.findex 2 = 0 :=
  ⟨exConstraintFriction_ctor, rfl, exInfo_asserts_friction,
    C4_tangent_row_bounds exFloatLib exWorldFriction exWorldFriction exContact
      exConstraintFriction Params.default exInfo exConstraintFriction_ctor rfl
      exInfo_asserts_friction⟩

end GetInformationScene

/-! ## Witnesses for the impulse methods -/

section ImpulsesScene

/-- C8, witness: a unit impulse on row 1 of the active frictional constraint. -/
theorem C8_witness :
    1 < exConstraintActive.mDim ∧ exConstraintActive.mActive = true ∧
    ((exWorldFriction.bodies exConstraintActive.mBodyNode1).impulseReponsible = true ∨
      (exWorldFriction.bodies exConstraintActive.mBodyNode2).impulseReponsible = true) ∧
    ∃ wd1 c1 v0 v1, applyUnitImpulse exSkeletonOps exConstraintActive exWorldFriction 1
        = some (wd1, c1) ∧
      getVelocityChange Params.default c1 wd1 exInfo.x false = some v0 ∧
      getVelocityChange Params.default c1 wd1 exInfo.x true = some v1 ∧
      (∀ i, i ≠ 1 → v1 i = v0 i) ∧
      (∀ i, i < exConstraintActive.mDim → v0 i =
        (if (wd1.skeletons (wd1.bodies exConstraintActive.mBodyNode1).mSkeleton).mIsImpulseApplied
              = true ∧
              (wd1.bodies exConstraintActive.mBodyNode1).impulseReponsible = true then
            (jacobianAt exConstraintActive.mJacobians1 i).dot
              (wd1.bodies exConstraintActive.mBodyNode1).mDelV else 0) +
          (if (wd1.skeletons (wd1.bodies exConstraintActive.mBodyNode2).mSkeleton).mIsImpulseApplied
              = true ∧
              (wd1.bodies exConstraintActive.mBodyNode2).impulseReponsible = true then
            (jacobianAt exConstraintActive.mJacobians2 i).dot
              (wd1.bodies exConstraintActive.mBodyNode2).mDelV else 0)) ∧
      v1 1 = v0 1 * (1 + (Params.default : Params ℚ).mConstraintForceMixing) :=
  ⟨by simp [exConstraintActive, update, exConstraintFriction, exWorldFriction, exWorldOf, exBody],
    by simp [exConstraintActive, update, exConstraintFriction, exWorldFriction, exWorldOf, exBody],
    by simp [exConstraintActive, update, exConstraintFriction, exWorldFriction, exWorldOf, exBody],
    C8_velocity_change_cfm_only_on_applied_row exSkeletonOps Params.default exConstraintActive
      exWorldFriction 1 exInfo.x
      (by simp [exConstraintActive, update, exConstraintFriction, exWorldFriction, exWorldOf,
        exBody])
      (by simp [exConstraintActive, update, exConstraintFriction, exWorldFriction, exWorldOf,
        exBody])
      (by simp [exConstraintActive, update, exConstraintFriction, exWorldFriction, exWorldOf,
        exBody])⟩

end ImpulsesScene

/-! ## Witnesses and counterexamples for the tangent basis and the union -/

section BasisAndUnionScene

/-- C5, witness: over the reals, with the real square root and `cos = sin = sqrt 2 / 2`, the
default direction and the normal `(0, 1, 0)`. -/
theorem C5_witness :
    (fun (fl : FloatLib ℝ) (d n : Vector3d ℝ) =>
      (∀ x, 0 ≤ x → 0 ≤ fl.sqrt x ∧ fl.sqrt x * fl.sqrt x = x) ∧
      2 * fl.cosQuarterPi * fl.sinQuarterPi = 1 ∧
      2 * fl.sinQuarterPi * fl.sinQuarterPi = 1 ∧
      n.squaredNorm = 1 ∧
      (d = Vector3d.UnitZ ∨ DART_CONTACT_CONSTRAINT_EPSILON ≤ (d.cross n).norm fl ∨
        (Vector3d.UnitX.cross n).squaredNorm ≠ 0) ∧
      (getTangentBasisMatrixODE fl d n).1.squaredNorm = 1 ∧
      (getTangentBasisMatrixODE fl d n).2.squaredNorm = 1 ∧
      (getTangentBasisMatrixODE fl d n).1.dot n = 0 ∧
      (getTangentBasisMatrixODE fl d n).2.dot n = 0 ∧
      (getTangentBasisMatrixODE fl d n).1.dot (getTangentBasisMatrixODE fl d n).2 = 0 ∧
      tangentBasisAsserts n (getTangentBasisMatrixODE fl d n) ∧
      ∀ (wd : World ℝ) (contact : Contact ℝ), contact.normal = n →
        ∃ c, ContactConstraint.ctor fl wd contact = some c)
      { sqrt := Real.sqrt, cosQuarterPi := Real.sqrt 2 / 2, sinQuarterPi := Real.sqrt 2 / 2 }
      Vector3d.UnitZ ⟨0, 1, 0⟩ := by
  have hsqrt : ∀ x : ℝ, 0 ≤ x → 0 ≤ Real.sqrt x ∧ Real.sqrt x * Real.sqrt x = x :=
    fun x hx => ⟨Real.sqrt_nonneg x, Real.mul_self_sqrt hx⟩
  have h2 : Real.sqrt 2 * Real.sqrt 2 = 2 := Real.mul_self_sqrt (by norm_num)
  have hcs : 2 * (Real.sqrt 2 / 2) * (Real.sqrt 2 / 2) = 1 := by linear_combination (1 / 2) * h2
  have hnn : (⟨0, 1, 0⟩ : Vector3d ℝ).squaredNorm = 1 := by
    norm_num [Vector3d.squaredNorm, Vector3d.dot]
  exact ⟨hsqrt, hcs, hcs, hnn, Or.inl rfl,
    C5_tangent_basis_orthonormal
      { sqrt := Real.sqrt, cosQuarterPi := Real.sqrt 2 / 2, sinQuarterPi := Real.sqrt 2 / 2 }
      Vector3d.UnitZ ⟨0, 1, 0⟩ hsqrt hcs hcs hnn (Or.inl rfl)⟩

/-- C5, counterexample: after `setFrictionDirection((1, 0, 0))` and for the unit normal
`(1, 0, 0)` both cross products vanish, and the first column is the zero vector, not a unit
vector (the square root is exact at the two values it is given, `1` and `0`). -/
theorem C5_counterexample_direction_along_normal :
    (⟨1, 0, 0⟩ : Vector3d ℚ).squaredNorm = 1 ∧
    setFrictionDirection exFloatLib (⟨1, 0, 0⟩ : Vector3d ℚ) = ⟨1, 0, 0⟩ ∧
    (getTangentBasisMatrixODE exFloatLib (setFrictionDirection exFloatLib ⟨1, 0, 0⟩)
      (⟨1, 0, 0⟩ : Vector3d ℚ)).1 = ⟨0, 0, 0⟩ ∧
    (getTangentBasisMatrixODE exFloatLib (setFrictionDirection exFloatLib ⟨1, 0, 0⟩)
      (⟨1, 0, 0⟩ : Vector3d ℚ)).1.squaredNorm ≠ 1 := by
  have hd : setFrictionDirection exFloatLib (⟨1, 0, 0⟩ : Vector3d ℚ) = ⟨1, 0, 0⟩ := by
    norm_num [setFrictionDirection, Vector3d.normalized, Vector3d.norm, Vector3d.squaredNorm,
      Vector3d.dot, exFloatLib]
  have ht : (getTangentBasisMatrixODE exFloatLib (⟨1, 0, 0⟩ : Vector3d ℚ)
      (⟨1, 0, 0⟩ : Vector3d ℚ)).1 = ⟨0, 0, 0⟩ := by
    norm_num [getTangentBasisMatrixODE, Vector3d.normalized, Vector3d.norm,
      Vector3d.squaredNorm, Vector3d.dot, Vector3d.cross, Vector3d.UnitX, exFloatLib,
      DART_CONTACT_CONSTRAINT_EPSILON]
  refine ⟨by norm_num [Vector3d.squaredNorm, Vector3d.dot], hd, ?_, ?_⟩
  · rw [hd, ht]
  · rw [hd, ht]
    norm_num [Vector3d.squaredNorm, Vector3d.dot]

/-- C7, witness: the two skeletons of the frictional scene, each its own root of size one. -/
theorem C7_witness :
    UnionForest (unionParent exWorldFriction) (fun _ => 0) 0 ∧ 0 + 1 < 2 ∧
    (exWorldFriction.bodies exConstraintFriction.mBodyNode1).impulseReponsible = true ∧
    (exWorldFriction.bodies exConstraintFriction.mBodyNode2).impulseReponsible = true ∧
    (exWorldFriction.bodies exConstraintFriction.mBodyNode1).mSkeleton ≠
      (exWorldFriction.bodies exConstraintFriction.mBodyNode2).mSkeleton ∧
    ∃ wd1 r1 r2 root w1 w2,
      uniteSkeletons 2 exConstraintFriction exWorldFriction = some wd1 ∧
      IsUnionRoot (unionParent exWorldFriction)
        (exWorldFriction.bodies exConstraintFriction.mBodyNode1).mSkeleton r1 ∧
      IsUnionRoot (unionParent exWorldFriction)
        (exWorldFriction.bodies exConstraintFriction.mBodyNode2).mSkeleton r2 ∧
      compressPath 2 wd1 (exWorldFriction.bodies exConstraintFriction.mBodyNode1).mSkeleton
        = some (w1, root) ∧
      compressPath 2 wd1 (exWorldFriction.bodies exConstraintFriction.mBodyNode2).mSkeleton
        = some (w2, root) ∧
      ((exWorldFriction.skeletons r1).mUnionSize < (exWorldFriction.skeletons r2).mUnionSize →
        (wd1.skeletons r1).mUnionRootSkeleton = r2) ∧
      ((exWorldFriction.skeletons r2).mUnionSize < (exWorldFriction.skeletons r1).mUnionSize →
        (wd1.skeletons r2).mUnionRootSkeleton = r1) :=
  have hforest : UnionForest (unionParent exWorldFriction) (fun _ => 0) 0 := by
    intro s
    simp [unionParent, exWorldFriction, exWorldOf]
  have h1 : (exWorldFriction.bodies exConstraintFriction.mBodyNode1).impulseReponsible = true := by
    simp [exWorldFriction, exWorldOf, exBody, exConstraintFriction]
  have h2 : (exWorldFriction.bodies exConstraintFriction.mBodyNode2).impulseReponsible = true := by
    simp [exWorldFriction, exWorldOf, exBody, exConstraintFriction]
  have hne : (exWorldFriction.bodies exConstraintFriction.mBodyNode1).mSkeleton ≠
      (exWorldFriction.bodies exConstraintFriction.mBodyNode2).mSkeleton := by
    simp [exWorldFriction, exWorldOf, exBody, exConstraintFriction]
  ⟨hforest, by decide, h1, h2, hne,
    C7_unite_skeletons_joins_under_larger_root exConstraintFriction exWorldFriction
      (fun _ => 0) 0 2 hforest (by decide) h1 h2 hne⟩

end BasisAndUnionScene

/-! ## Witnesses for the joints -/

section JointsScene

/-- C11, witness: the joint `exJoint` over the step `1/2`; its second DOF has `k = 20`,
`d = 2`, `q0 = 1`, `q = 2` and `v = 5`. -/
theorem C11_witness :
    exJoint.mSpringStiffness.length = exJoint.mGenCoords.length ∧
    exJoint.mDampingCoefficient.length = exJoint.mGenCoords.length ∧
    exJoint.mRestPosition.length = exJoint.mGenCoords.length ∧
    ∃ fs fd : List ℚ,
      exJoint.getSpringForces (1 / 2) = some fs ∧ exJoint.getDampingForces = some fd ∧
      fs.length = 3 ∧ fd.length = 3 ∧
      fs[1]? = some ((-20 : ℚ) * (2 + 5 * (1 / 2) - 1)) ∧ fd[1]? = some ((-2 : ℚ) * 5) := by
  obtain ⟨fs, fd, h1, h2, h3, h4, h⟩ :=
    C11_spring_and_damping_forces exJoint (1 / 2) rfl rfl rfl
  exact ⟨rfl, rfl, rfl, fs, fd, h1, h2, h3, h4, h 1 ⟨2, 5, -10, 10⟩ 20 2 1 rfl rfl rfl rfl⟩

/-- C12, witness: the ball joint `exBallJoint` over the step `0`, where the exponential map
gives the identity and the logarithm of the identity is zero. -/
theorem C12_witness :
    exBallJoint.mGenCoords = [⟨1, 4, -10, 10⟩, ⟨2, 5, -10, 10⟩, ⟨3, 6, -10, 10⟩] ∧
    ∃ j1, BallJoint.integrateConfigs (fun _ => exIdentity.linear) (fun _ => ⟨0, 0, 0⟩)
        exBallJoint 0 = some j1 ∧
      j1.mGenCoords.map GenCoord.pos = [0, 0, 0] ∧
      j1.mGenCoords.map GenCoord.vel = [4, 5, 6] := by
  obtain ⟨j1, h, -, -, hp, hv, -⟩ :=
    C12_ball_joint_integrate_configs (fun _ => exIdentity.linear) (fun _ => ⟨0, 0, 0⟩)
      exBallJoint 0 ⟨1, 4, -10, 10⟩ ⟨2, 5, -10, 10⟩ ⟨3, 6, -10, 10⟩ rfl
  exact ⟨rfl, j1, h, hp, hv⟩

end JointsScene

/-! ## Witnesses and counterexamples for the support functions and the MPR query -/

section SupportScene

/-- The identity quaternion rotates nothing. -/
theorem quatRotVecFormula_identity (v : Vector3d ℚ) : quatRotVecFormula v ⟨0, 0, 0, 1⟩ = v := by
  ext <;> simp [quatRotVecFormula, Vector3d.add, Vector3d.smul, Vector3d.cross]

/-- With the identity rotation "transform support vertex" adds the position `(1, 2, 3)`. -/
theorem transformSupportVertex_exObj (v : Vector3d ℚ) :
    transformSupportVertex exCcdLib exObj v = ⟨v.x + 1, v.y + 2, v.z + 3⟩ := by
  show (quatRotVecFormula v ⟨0, 0, 0, 1⟩).add ⟨1, 2, 3⟩ = _
  rw [quatRotVecFormula_identity]
  rfl

/-- With the identity rotation the local direction is the direction. -/
theorem localDirection_exObj (v : Vector3d ℚ) : localDirection exCcdLib exObj v = v :=
  quatRotVecFormula_identity v

/-- C13, witness: the cone `exCone` (`r = 3`, `h = 2`, so `sqrt(r^2 + 4 h^2) = 5`) and the
direction `(3, 4, 0)` of length 5; the support point is the rim point `(9/5, 12/5, -2)`. -/
theorem C13_witness :
    (0 : ℚ) < exCone.radius ∧ (0 : ℚ) < exCone.height ∧
    localDirection exCcdLib exCone.toccd_obj_t ⟨3, 4, 0⟩ = ⟨3, 4, 0⟩ ∧
    (⟨3, 4, 0⟩ : Vector3d ℚ).squaredNorm ≠ 0 ∧
    supportConeLocal exCcdLib exCone ⟨3, 4, 0⟩ = ⟨9 / 5, 12 / 5, -2⟩ ∧
    InCone exCone (supportConeLocal exCcdLib exCone ⟨3, 4, 0⟩) ∧
    (∀ p, InCone exCone p →
      (⟨3, 4, 0⟩ : Vector3d ℚ).dot p ≤
        (⟨3, 4, 0⟩ : Vector3d ℚ).dot (supportConeLocal exCcdLib exCone ⟨3, 4, 0⟩)) := by
  have hr : (0 : ℚ) < exCone.radius := by norm_num [exCone]
  have hh : (0 : ℚ) < exCone.height := by norm_num [exCone]
  have hd : localDirection exCcdLib exCone.toccd_obj_t ⟨3, 4, 0⟩ = ⟨3, 4, 0⟩ :=
    localDirection_exObj _
  have hd0 : (⟨3, 4, 0⟩ : Vector3d ℚ).squaredNorm ≠ 0 := by
    norm_num [Vector3d.squaredNorm, Vector3d.dot]
  have hloc : supportConeLocal exCcdLib exCone ⟨3, 4, 0⟩ = ⟨9 / 5, 12 / 5, -2⟩ := by
    norm_num [supportConeLocal, exCcdLib, exCone]
  have h := C13_support_cone_apex_or_base_rim exCcdLib exCone ⟨3, 4, 0⟩ ⟨3, 4, 0⟩
    (by norm_num [exCcdLib]) (by norm_num [exCcdLib]) (by norm_num [exCcdLib, exCone])
    hr hh hd hd0
  exact ⟨hr, hh, hd, hd0, hloc, h.2.2.1, h.2.2.2.1⟩

/-- C14, witness: the unit box `exBox` and the direction `(1, -1, 1)`; the corner is
`(1, -1, 1)` and its world image `(2, 1, 4)`. -/
theorem C14_witness :
    ¬ ccdIsZero exCcdLib (exCcdLib.ccdQuatRotVec ⟨1, -1, 1⟩ exBox.rot_inv).x ∧
    ¬ ccdIsZero exCcdLib (exCcdLib.ccdQuatRotVec ⟨1, -1, 1⟩ exBox.rot_inv).y ∧
    ¬ ccdIsZero exCcdLib (exCcdLib.ccdQuatRotVec ⟨1, -1, 1⟩ exBox.rot_inv).z ∧
    (0 : ℚ) ≤ exBox.dim0 ∧ (0 : ℚ) ≤ exBox.dim1 ∧ (0 : ℚ) ≤ exBox.dim2 ∧
    supportBox exCcdLib exBox ⟨1, -1, 1⟩ = ⟨2, 1, 4⟩ := by
  have hq : exCcdLib.ccdQuatRotVec ⟨1, -1, 1⟩ exBox.rot_inv = ⟨1, -1, 1⟩ :=
    quatRotVecFormula_identity _
  have hx : ¬ ccdIsZero exCcdLib (exCcdLib.ccdQuatRotVec ⟨1, -1, 1⟩ exBox.rot_inv).x := by
    rw [hq]
    norm_num [ccdIsZero, exCcdLib]
  have hy : ¬ ccdIsZero exCcdLib (exCcdLib.ccdQuatRotVec ⟨1, -1, 1⟩ exBox.rot_inv).y := by
    rw [hq]
    norm_num [ccdIsZero, exCcdLib]
  have hz : ¬ ccdIsZero exCcdLib (exCcdLib.ccdQuatRotVec ⟨1, -1, 1⟩ exBox.rot_inv).z := by
    rw [hq]
    norm_num [ccdIsZero, exCcdLib]
  have h0 : (0 : ℚ) ≤ exBox.dim0 := by norm_num [exBox]
  have h1 : (0 : ℚ) ≤ exBox.dim1 := by norm_num [exBox]
  have h2 : (0 : ℚ) ≤ exBox.dim2 := by norm_num [exBox]
  have h := (C14_support_box_signed_corner exCcdLib exBox ⟨1, -1, 1⟩ hx hy hz h0 h1 h2).1
  refine ⟨hx, hy, hz, h0, h1, h2, ?_⟩
  rw [h, hq]
  show transformSupportVertex exCcdLib exObj _ = _
  rw [transformSupportVertex_exObj]
  norm_num [exBox]

/-- C14, counterexample: for the unit box at `(1, 2, 3)` and the direction `(10^-17, 1, 1)`,
whose components are all non-zero, `ccdSign` of the first component is 0 and `supportBox`
returns the image `(1, 3, 4)` of the face point `(0, 1, 1)`, not the image `(2, 3, 4)` of the
corner `(1, 1, 1)`, which lies strictly farther along the direction. -/
theorem C14_counterexample_near_zero_component :
    localDirection exCcdLib exBox.toccd_obj_t ⟨1 / 10 ^ 17, 1, 1⟩ = ⟨1 / 10 ^ 17, 1, 1⟩ ∧
    (1 / 10 ^ 17 : ℚ) ≠ 0 ∧
    supportBoxLocal exCcdLib exBox ⟨1 / 10 ^ 17, 1, 1⟩ = ⟨0, 1, 1⟩ ∧
    supportBox exCcdLib exBox ⟨1 / 10 ^ 17, 1, 1⟩ = ⟨1, 3, 4⟩ ∧
    transformSupportVertex exCcdLib exBox.toccd_obj_t ⟨1, 1, 1⟩ = ⟨2, 3, 4⟩ ∧
    supportBox exCcdLib exBox ⟨1 / 10 ^ 17, 1, 1⟩ ≠
      transformSupportVertex exCcdLib exBox.toccd_obj_t ⟨1, 1, 1⟩ ∧
    (⟨1 / 10 ^ 17, 1, 1⟩ : Vector3d ℚ).dot ⟨0, 1, 1⟩ <
      (⟨1 / 10 ^ 17, 1, 1⟩ : Vector3d ℚ).dot ⟨1, 1, 1⟩ := by
  have hd : localDirection exCcdLib exBox.toccd_obj_t ⟨1 / 10 ^ 17, 1, 1⟩ =
      ⟨1 / 10 ^ 17, 1, 1⟩ := localDirection_exObj _
  have hloc : supportBoxLocal exCcdLib exBox ⟨1 / 10 ^ 17, 1, 1⟩ = ⟨0, 1, 1⟩ := by
    norm_num [supportBoxLocal, ccdSign, ccdIsZero, exCcdLib, exBox, abs_lt]
  have hbox : supportBox exCcdLib exBox ⟨1 / 10 ^ 17, 1, 1⟩ = ⟨1, 3, 4⟩ := by
    unfold supportBox
    rw [hd, hloc]
    show transformSupportVertex exCcdLib exObj _ = _
    rw [transformSupportVertex_exObj]
    norm_num
  have hcorner : transformSupportVertex exCcdLib exBox.toccd_obj_t ⟨1, 1, 1⟩ = ⟨2, 3, 4⟩ := by
    show transformSupportVertex exCcdLib exObj _ = _
    rw [transformSupportVertex_exObj]
    norm_num
  refine ⟨hd, by norm_num, hloc, hbox, hcorner, ?_, ?_⟩
  · rw [hbox, hcorner]
    intro e
    have := congrArg Vector3d.x e
    norm_num at this
  · norm_num [Vector3d.dot]

/-- C15, witness: the convex shape `exConvex` and the direction `(1, 0, 0)`; the vertices
`(2, 0, 0)` and `(2, 1, 0)` are both maximal and the first of them is returned. -/
theorem C15_witness :
    (∃ p ∈ exConvex.convex.points,
      -exCcdLib.CCD_REAL_MAX <
        (localDirection exCcdLib exConvex.toccd_obj_t ⟨1, 0, 0⟩).dot
          (p.sub exConvex.convex.center)) ∧
    supportConvexLocal exCcdLib exConvex
      (localDirection exCcdLib exConvex.toccd_obj_t ⟨1, 0, 0⟩) ⟨0, 0, 0⟩ = ⟨2, 0, 0⟩ ∧
    supportConvexLocal exCcdLib exConvex
      (localDirection exCcdLib exConvex.toccd_obj_t ⟨1, 0, 0⟩) ⟨0, 0, 0⟩ ∈
        exConvex.convex.points ∧
    (∀ p ∈ exConvex.convex.points,
      (localDirection exCcdLib exConvex.toccd_obj_t ⟨1, 0, 0⟩).dot p ≤
        (localDirection exCcdLib exConvex.toccd_obj_t ⟨1, 0, 0⟩).dot
          (supportConvexLocal exCcdLib exConvex
            (localDirection exCcdLib exConvex.toccd_obj_t ⟨1, 0, 0⟩) ⟨0, 0, 0⟩)) := by
  have hd : localDirection exCcdLib exConvex.toccd_obj_t ⟨1, 0, 0⟩ = ⟨1, 0, 0⟩ :=
    localDirection_exObj _
  have hex : ∃ p ∈ exConvex.convex.points,
      -exCcdLib.CCD_REAL_MAX <
        (localDirection exCcdLib exConvex.toccd_obj_t ⟨1, 0, 0⟩).dot
          (p.sub exConvex.convex.center) := by
    rw [hd]
    refine ⟨⟨2, 0, 0⟩, by simp [exConvex], ?_⟩
    norm_num [exConvex, exCcdLib, Vector3d.dot, Vector3d.sub]
  have hloc : supportConvexLocal exCcdLib exConvex
      (localDirection exCcdLib exConvex.toccd_obj_t ⟨1, 0, 0⟩) ⟨0, 0, 0⟩ = ⟨2, 0, 0⟩ := by
    rw [hd]
    norm_num [supportConvexLocal, supportConvexLoop, exConvex, exCcdLib, Vector3d.dot]
  have h := C15_support_convex_first_maximal_vertex exCcdLib exConvex ⟨1, 0, 0⟩ ⟨0, 0, 0⟩ hex
  exact ⟨hex, hloc, h.2.1, h.2.2.1⟩

/-- C15, counterexample: for the convex shape with the single vertex `(1, 0, 0)`, centre at the
origin, and the local direction `(-CCD_REAL_MAX, 0, 0)`, the dot product of the vertex is
`-CCD_REAL_MAX`, not above the initial `maxdot`; no vertex is selected and the local point is
what the output held before, here `(7, 7, 7)`, which is not a vertex of the shape. -/
theorem C15_counterexample_no_vertex_selected :
    exConvexOne.convex.points = [⟨1, 0, 0⟩] ∧
    localDirection exCcdLib exConvexOne.toccd_obj_t ⟨-exCcdLib.CCD_REAL_MAX, 0, 0⟩ =
      ⟨-exCcdLib.CCD_REAL_MAX, 0, 0⟩ ∧
    supportConvexLocal exCcdLib exConvexOne ⟨-exCcdLib.CCD_REAL_MAX, 0, 0⟩ ⟨7, 7, 7⟩ =
      ⟨7, 7, 7⟩ ∧
    supportConvexLocal exCcdLib exConvexOne ⟨-exCcdLib.CCD_REAL_MAX, 0, 0⟩ ⟨7, 7, 7⟩ ∉
      exConvexOne.convex.points := by
  have hloc : supportConvexLocal exCcdLib exConvexOne ⟨-exCcdLib.CCD_REAL_MAX, 0, 0⟩
      ⟨7, 7, 7⟩ = ⟨7, 7, 7⟩ := by
    simp [supportConvexLocal, supportConvexLoop, exConvexOne, Vector3d.dot]
  refine ⟨rfl, localDirection_exObj _, hloc, ?_⟩
  rw [hloc]
  simp [exConvexOne]

/-- The capsule `exCap` and the unit direction `(0, 0, 1)`: the support point is
the top `(0, 0, 2)` of the upper cap. -/
theorem supportCap_unit_direction_example :
    (0 : ℚ) ≤ exCap.radius ∧
    (localDirection exCcdLib exCap.toccd_obj_t ⟨0, 0, 1⟩).squaredNorm = 1 ∧
    supportCapLocal exCap (localDirection exCcdLib exCap.toccd_obj_t ⟨0, 0, 1⟩) = ⟨0, 0, 2⟩ ∧
    InCapsule exCap (supportCapLocal exCap (localDirection exCcdLib exCap.toccd_obj_t ⟨0, 0, 1⟩)) ∧
    (∀ p, InCapsule exCap p →
      (localDirection exCcdLib exCap.toccd_obj_t ⟨0, 0, 1⟩).dot p ≤
        (localDirection exCcdLib exCap.toccd_obj_t ⟨0, 0, 1⟩).dot
          (supportCapLocal exCap (localDirection exCcdLib exCap.toccd_obj_t ⟨0, 0, 1⟩))) := by
  have hd : localDirection exCcdLib exCap.toccd_obj_t ⟨0, 0, 1⟩ = ⟨0, 0, 1⟩ :=
    localDirection_exObj _
  have hr : (0 : ℚ) ≤ exCap.radius := by norm_num [exCap]
  have hunit : (localDirection exCcdLib exCap.toccd_obj_t ⟨0, 0, 1⟩).squaredNorm = 1 := by
    rw [hd]
    norm_num [Vector3d.squaredNorm, Vector3d.dot]
  have hloc : supportCapLocal exCap (localDirection exCcdLib exCap.toccd_obj_t ⟨0, 0, 1⟩) =
      ⟨0, 0, 2⟩ := by
    rw [hd]
    norm_num [supportCapLocal, ccdVec3Scale, Vector3d.add, Vector3d.dot, exCap]
  have h := supportCap_farthest_for_unit_direction exCcdLib exCap ⟨0, 0, 1⟩ hr hunit
  exact ⟨hr, hunit, hloc, h.1, h.2.1⟩

/-- C16 (the code at the failing input): `supportCap` adds `radius * dir` with the direction as
given, not normalised. For the capsule of radius 1 and height parameter 1 at `(1, 2, 3)` and the
non-zero direction `(2, 0, 0)` its local point is `(2, 0, -1)`, at distance 2 from the axis and
so not a point of the capsule, and the returned point is `(3, 2, 2)`; for the same direction
normalised, `(1, 0, 0)`, the local point `(1, 0, -1)` is a point of the capsule. -/
theorem C16_support_cap_scales_unnormalised_direction :
    (0 : ℚ) < exCap.radius ∧
    localDirection exCcdLib exCap.toccd_obj_t ⟨2, 0, 0⟩ = ⟨2, 0, 0⟩ ∧
    (⟨2, 0, 0⟩ : Vector3d ℚ) ≠ ⟨0, 0, 0⟩ ∧
    supportCapLocal exCap ⟨2, 0, 0⟩ = ⟨2, 0, -1⟩ ∧
    ¬ InCapsule exCap (supportCapLocal exCap ⟨2, 0, 0⟩) ∧
    supportCap exCcdLib exCap ⟨2, 0, 0⟩ = ⟨3, 2, 2⟩ ∧
    supportCapLocal exCap ⟨1, 0, 0⟩ = ⟨1, 0, -1⟩ ∧
    InCapsule exCap (supportCapLocal exCap ⟨1, 0, 0⟩) := by
  have hloc : supportCapLocal exCap ⟨2, 0, 0⟩ = ⟨2, 0, -1⟩ := by
    norm_num [supportCapLocal, ccdVec3Scale, Vector3d.add, Vector3d.dot, exCap]
  have hunit : supportCapLocal exCap ⟨1, 0, 0⟩ = ⟨1, 0, -1⟩ := by
    norm_num [supportCapLocal, ccdVec3Scale, Vector3d.add, Vector3d.dot, exCap]
  have hd : localDirection exCcdLib exCap.toccd_obj_t ⟨2, 0, 0⟩ = ⟨2, 0, 0⟩ :=
    localDirection_exObj _
  refine ⟨by norm_num [exCap], hd, ?_, hloc, ?_, ?_, hunit, ?_⟩
  · intro e
    have := congrArg Vector3d.x e
    norm_num at this
  · rw [hloc]
    rintro ⟨t, -, -, h⟩
    have h1 : (2 : ℚ) * 2 + 0 * 0 + (-1 - t) * (-1 - t) ≤ 1 * 1 := h
    nlinarith [mul_self_nonneg (-1 - t)]
  · unfold supportCap
    rw [hd, hloc]
    show transformSupportVertex exCcdLib exObj _ = _
    rw [transformSupportVertex_exObj]
    norm_num
  · rw [hunit]
    refine ⟨-1, ?_, ?_, ?_⟩ <;> norm_num [exCap]

/-- C17, witness: the cylinder `exCyl` (`r = 2`, `height = 3`) and the direction `(3, 4, 0)`,
whose xy-part has length 5; the local point is the rim point `(6/5, 8/5, 0)`. -/
theorem C17_witness :
    (0 : ℚ) < exCcdLib.CCD_EPS ∧
    supportCylLocal exCcdLib exCyl (localDirection exCcdLib exCyl.toccd_obj_t ⟨3, 4, 0⟩) =
      some ⟨6 / 5, 8 / 5, 0⟩ ∧
    ∃ v, supportCylLocal exCcdLib exCyl
        (localDirection exCcdLib exCyl.toccd_obj_t ⟨3, 4, 0⟩) = some v ∧
      supportCyl exCcdLib exCyl ⟨3, 4, 0⟩ =
        some (transformSupportVertex exCcdLib exCyl.toccd_obj_t v) := by
  have heps : (0 : ℚ) < exCcdLib.CCD_EPS := by norm_num [exCcdLib]
  have hd : localDirection exCcdLib exCyl.toccd_obj_t ⟨3, 4, 0⟩ = ⟨3, 4, 0⟩ :=
    localDirection_exObj _
  have h := C17_support_cyl_branches_and_safe_division exCcdLib exCyl ⟨3, 4, 0⟩ heps
  have hnz : ¬ ccdIsZero exCcdLib
      (exCcdLib.sqrt ((localDirection exCcdLib exCyl.toccd_obj_t ⟨3, 4, 0⟩).x *
          (localDirection exCcdLib exCyl.toccd_obj_t ⟨3, 4, 0⟩).x +
        (localDirection exCcdLib exCyl.toccd_obj_t ⟨3, 4, 0⟩).y *
          (localDirection exCcdLib exCyl.toccd_obj_t ⟨3, 4, 0⟩).y)) := by
    rw [hd]
    norm_num [ccdIsZero, exCcdLib]
  refine ⟨heps, ?_, h.2.2⟩
  rw [(h.2.1 hnz).2, hd]
  norm_num [ccdSign, ccdIsZero, exCcdLib, exCyl]

/-- C18, witness: the MPR query `exMprHit` reports depth `1/10` along `(0, 1, 0)` at the origin;
`ccdCollide` returns `true` with the normal `(0, -1, 0)`. -/
theorem C18_witness :
    (exMprHit.ccdMPRPenetration () ()
      { support1 := fun _ d => d, support2 := fun _ d => d, center1 := fun _ => ⟨0, 0, 0⟩,
        center2 := fun _ => ⟨0, 0, 0⟩, max_iterations := 500,
        mpr_tolerance := 1 / 1000000 }).status = 0 ∧
    ccdCollide exMprHit () (fun _ d => d) (fun _ => ⟨0, 0, 0⟩) () (fun _ d => d)
        (fun _ => ⟨0, 0, 0⟩) 500 (1 / 1000000) (some ⟨9, 9, 9⟩) (some ⟨9, 9, 9⟩) (some 9) =
      some (true, some ⟨0, 0, 0⟩, some ⟨-0, -1, -0⟩, some (1 / 10)) :=
  ⟨rfl,
    C18_ccd_collide_reports_negated_direction exMprHit () () (fun _ d => d) (fun _ d => d)
      (fun _ => ⟨0, 0, 0⟩) (fun _ => ⟨0, 0, 0⟩) 500 (1 / 1000000) ⟨9, 9, 9⟩ ⟨9, 9, 9⟩ 9 rfl⟩

/-- C19, witness: the MPR query `exMprMiss` reports status `-1`; `ccdCollide` returns `false`
and the three outputs keep what they held. -/
theorem C19_witness :
    ccdCollide exMprMiss () (fun _ d => d) (fun _ => ⟨0, 0, 0⟩) () (fun _ d => d)
        (fun _ => ⟨0, 0, 0⟩) 500 (1 / 1000000) (some ⟨9, 9, 9⟩) (some ⟨8, 8, 8⟩) (some 7) =
      some (false, some ⟨9, 9, 9⟩, some ⟨8, 8, 8⟩, some 7) :=
  (C19_ccd_collide_true_iff_mpr_success exMprMiss () () (fun _ d => d) (fun _ d => d)
    (fun _ => ⟨0, 0, 0⟩) (fun _ => ⟨0, 0, 0⟩) 500 (1 / 1000000) ⟨9, 9, 9⟩ (some ⟨8, 8, 8⟩)
    (some 7)).1 (by decide)

end SupportScene

/-! ## Parameters of the contact constraint -/

section Parameters

/-- C21 (the code at the failing inputs): `setErrorReductionParameter` stores its argument
whatever it is, so after `setErrorReductionParameter(-1)` the getter returns `-1`, not `0`, and
after `setErrorReductionParameter(2)` it returns `2`, not `1`. -/
theorem C21_erp_setter_stores_argument_unclamped :
    (∀ (p : Params ℚ) (erp : ℚ),
      getErrorReductionParameter (setErrorReductionParameter p erp) = erp) ∧
    getErrorReductionParameter
      (setErrorReductionParameter (Params.default : Params ℚ) (-1)) = -1 ∧
    getErrorReductionParameter
      (setErrorReductionParameter (Params.default : Params ℚ) (-1)) ≠ 0 ∧
    getErrorReductionParameter
      (setErrorReductionParameter (Params.default : Params ℚ) 2) = 2 ∧
    getErrorReductionParameter
      (setErrorReductionParameter (Params.default : Params ℚ) 2) ≠ 1 := by
  have h : ∀ (p : Params ℚ) (erp : ℚ),
      getErrorReductionParameter (setErrorReductionParameter p erp) = erp := by
    intro p erp
    rfl
  refine ⟨h, h _ _, ?_, h _ _, ?_⟩
  · rw [h]
    norm_num
  · rw [h]
    norm_num

/-- C23: before any setter is called the getters return error allowance `0.0`, ERP `0.01`,
maximum error-reduction velocity `10` and CFM `1e-5`; the thresholds are `1e-3` for the
restitution and the friction coefficient, as the constructor compares them, and `0.1` and `100`
for the bouncing velocity, as the restitution step of `getInformation` uses them. -/
theorem C23_default_parameters_and_thresholds :
    getErrorAllowance (Params.default : Params ℚ) = 0.0 ∧
    getErrorReductionParameter (Params.default : Params ℚ) = 0.01 ∧
    getMaxErrorReductionVelocity (Params.default : Params ℚ) = 10 ∧
    getConstraintForceMixing (Params.default : Params ℚ) = 1e-5 ∧
    (DART_RESTITUTION_COEFF_THRESHOLD : ℚ) = 1e-3 ∧
    (DART_FRICTION_COEFF_THRESHOLD : ℚ) = 1e-3 ∧
    (DART_BOUNCING_VELOCITY_THRESHOLD : ℚ) = 0.1 ∧
    (DART_MAX_BOUNCING_VELOCITY : ℚ) = 100 ∧
    (∀ (fl : FloatLib ℚ) (wd : World ℚ) (contact : Contact ℚ) (c : ContactConstraint ℚ),
      ContactConstraint.ctor fl wd contact = some c →
      (c.mIsBounceOn = true ↔
        (wd.bodies contact.bodyNode1).mRestitutionCoeff *
          (wd.bodies contact.bodyNode2).mRestitutionCoeff > 1e-3) ∧
      (c.mIsFrictionOn = true ↔
        min (wd.bodies contact.bodyNode1).mFrictionCoeff
          (wd.bodies contact.bodyNode2).mFrictionCoeff > 1e-3)) ∧
    (∀ e nrv beta : ℚ,
      restitution true e nrv beta =
        if nrv * e > 0.1 then (if nrv * e > beta then (if nrv * e > 100 then 100 else nrv * e)
          else beta)
        else beta) := by
  have hr : (DART_RESTITUTION_COEFF_THRESHOLD : ℚ) = 1e-3 := by
    norm_num [DART_RESTITUTION_COEFF_THRESHOLD]
  have hf : (DART_FRICTION_COEFF_THRESHOLD : ℚ) = 1e-3 := by
    norm_num [DART_FRICTION_COEFF_THRESHOLD]
  have hb : (DART_BOUNCING_VELOCITY_THRESHOLD : ℚ) = 0.1 := by
    norm_num [DART_BOUNCING_VELOCITY_THRESHOLD]
  have hm : (DART_MAX_BOUNCING_VELOCITY : ℚ) = 100 := rfl
  refine ⟨?_, ?_, ?_, ?_, hr, hf, hb, hm, ?_, ?_⟩
  · norm_num [getErrorAllowance, Params.default, DART_ERROR_ALLOWANCE]
  · norm_num [getErrorReductionParameter, Params.default, DART_ERP]
  · norm_num [getMaxErrorReductionVelocity, Params.default, DART_MAX_ERV]
  · norm_num [getConstraintForceMixing, Params.default, DART_CFM]
  · intro fl wd contact c h
    obtain ⟨-, -, -, -, hB, -, hF, -⟩ := ctor_fields fl wd contact c h
    rw [hr] at hB
    rw [hf] at hF
    exact ⟨hB, hF⟩
  · intro e nrv beta
    unfold restitution
    rw [hb, hm]
    simp

end Parameters

/-! ## Rest position of a joint -/

section RestPosition

variable {K : Type} [LinearOrderedField K]

/-- C22: for a valid DOF index (and a rest-position vector with an entry per DOF),
`setRestPosition(i, q0)` returns for every `q0`; afterwards `getRestPosition(i)` returns `q0`,
`getRestPosition` of every other index returns what it did, stiffness, damping coefficients and
DOF states are unchanged, and the limit warning is written exactly when `q0 < qmin_i` or
`q0 > qmax_i`. -/
theorem C22_set_rest_position_stores_and_warns (j : Joint K) (idx : Int) (q0 : K)
    (h0 : 0 ≤ idx) (h1 : idx < (j.mGenCoords.length : Int))
    (hq : j.mRestPosition.length = j.mGenCoords.length) :
    ∃ j1 warned g, j.setRestPosition idx q0 = some (j1, warned) ∧
      j.mGenCoords[idx.toNat]? = some g ∧
      j1.getRestPosition idx = some q0 ∧
      (∀ i : Int, i ≠ idx → j1.getRestPosition i = j.getRestPosition i) ∧
      j1.mSpringStiffness = j.mSpringStiffness ∧
      j1.mDampingCoefficient = j.mDampingCoefficient ∧
      j1.mGenCoords = j.mGenCoords ∧
      (warned = true ↔ q0 < g.posMin ∨ q0 > g.posMax) := by
  have hn : idx.toNat < j.mGenCoords.length := by omega
  have hg : j.mGenCoords[idx.toNat]? = some (j.mGenCoords.get ⟨idx.toNat, hn⟩) :=
    List.getElem?_eq_getElem hn
  have hr : idx.toNat < j.mRestPosition.length := by omega
  refine ⟨{ j with mRestPosition := j.mRestPosition.set idx.toNat q0 },
    (if (j.mGenCoords.get ⟨idx.toNat, hn⟩).posMin > q0 ∨
      (j.mGenCoords.get ⟨idx.toNat, hn⟩).posMax < q0 then true else false),
    j.mGenCoords.get ⟨idx.toNat, hn⟩, ?_, hg, ?_, ?_, rfl, rfl, rfl, ?_⟩
  · unfold Joint.setRestPosition
    simp only [h0, h1, and_self, if_true, hg, hr]
  · unfold Joint.getRestPosition
    simp only [h0, h1, and_self, if_true]
    rw [List.getElem?_set_self hr]
  · intro i hi
    unfold Joint.getRestPosition
    by_cases hin : 0 ≤ i ∧ i < (j.mGenCoords.length : Int)
    · simp only [hin, and_self, if_true]
      have hne : idx.toNat ≠ i.toNat := by omega
      rw [List.getElem?_set_ne hne]
    · simp only [hin, if_false]
  · by_cases hw : (j.mGenCoords.get ⟨idx.toNat, hn⟩).posMin > q0 ∨
        (j.mGenCoords.get ⟨idx.toNat, hn⟩).posMax < q0
    · simp only [hw, if_true, true_iff]
    · simp only [hw, if_false, Bool.false_eq_true, false_iff]

end RestPosition

/-! ## The walking-controller state -/

section WalkingState

/-- The loop of the constructor keeps the sizes of the two gain vectors. -/
theorem ctor_gain_lengths {K : Type} (kp kd : K) (a b : List K) (n : Nat) :
    (forLoop n (fun i (g : List K × List K) => (g.1.set i kp, g.2.set i kd)) (a, b)).1.length
        = a.length ∧
    (forLoop n (fun i (g : List K × List K) => (g.1.set i kp, g.2.set i kd)) (a, b)).2.length
        = b.length := by
  induction n with
  | zero => simp [forLoop_zero]
  | succ n ih =>
    rw [forLoop_succ]
    simp only [List.length_set]
    exact ih

/-- Every vector of a constructed state has `dof` entries. -/
theorem State.ctor_lengths {K : Type} [LinearOrderedField K] (dof : Nat) (kp kd : K) :
    (State.ctor dof kp kd).mDesiredJointPositions.length = dof ∧
    (State.ctor dof kp kd).mKp.length = dof ∧
    (State.ctor dof kp kd).mKd.length = dof ∧
    (State.ctor dof kp kd).mSagitalCd.length = dof ∧
    (State.ctor dof kp kd).mSagitalCv.length = dof ∧
    (State.ctor dof kp kd).mCoronalCd.length = dof ∧
    (State.ctor dof kp kd).mCoronalCv.length = dof := by
  have h := ctor_gain_lengths kp kd (List.replicate dof 0) (List.replicate dof 0) dof
  simp only [List.length_replicate] at h
  unfold State.ctor
  simp only [List.length_replicate]
  exact ⟨trivial, h.1, h.2, trivial, trivial, trivial, trivial⟩

/-- The range assertion accepts the size of the vector, and the write that follows is outside
the vector. -/
theorem State.assertedWrite_at_size {K : Type} (size : Nat) (v : List K) (val : K)
    (h : v.length ≤ size) :
    State.assertedWrite size v (size : Int) val = Indexed.outOfBounds := by
  unfold State.assertedWrite State.indexAssert
  have h1 : ¬ ((size : Int).toNat < v.length) := by
    rw [Int.toNat_ofNat]
    omega
  simp [h]

/-- The range assertion accepts the size of the vector, and the read that follows is outside the
vector. -/
theorem State.assertedRead_at_size {K : Type} (size : Nat) (v : List K) (h : v.length ≤ size) :
    State.assertedRead size v (size : Int) = Indexed.outOfBounds := by
  unfold State.assertedRead State.indexAssert
  have h1 : v[(size : Int).toNat]? = none := by
    rw [Int.toNat_ofNat]
    exact List.getElem?_eq_none h
  simp [List.getElem?_eq_none h]

/-- C25 (the code at the failing input): whenever `setProportionalGain(i, v)` returns, `mKp` is
what it was and entry `i` of `mKd` is `v`. In the state of one DOF with `Kp = 1` and `Kd = 2`,
after `setProportionalGain(0, 5)` the proportional gain is still `1` and the derivative gain
is `5`. -/
theorem C25_set_proportional_gain_writes_derivative_gain :
    (∀ (s s1 : State ℚ) (idx : Int) (v : ℚ), s.setProportionalGain idx v = Indexed.ok s1 →
      s1.mKp = s.mKp ∧ s1.mKd = s.mKd.set idx.toNat v) ∧
    (State.ctor 1 1 2 : State ℚ).getProportionalGain 0 = Indexed.ok 1 ∧
    (State.ctor 1 1 2 : State ℚ).getDerivativeGain 0 = Indexed.ok 2 ∧
    ∃ s1, (State.ctor 1 1 2 : State ℚ).setProportionalGain 0 5 = Indexed.ok s1 ∧
      s1.getProportionalGain 0 = Indexed.ok 1 ∧ s1.getProportionalGain 0 ≠ Indexed.ok 5 ∧
      s1.getDerivativeGain 0 = Indexed.ok 5 ∧
      s1.getDerivativeGain 0 ≠ (State.ctor 1 1 2 : State ℚ).getDerivativeGain 0 := by
  have hctor : (State.ctor 1 1 2 : State ℚ) =
      { mDesiredJointPositions := [0], mDesiredJointPositionsBalance := [0], mKp := [1],
        mKd := [2], mSagitalCd := [0], mSagitalCv := [0], mCoronalCd := [0], mCoronalCv := [0],
        mTorque := [0] } := by
    simp [State.ctor, forLoop, List.range_succ]
  refine ⟨?_, ?_, ?_, ?_⟩
  · intro s s1 idx v h
    unfold State.setProportionalGain State.assertedWrite at h
    split_ifs at h with ha hb
    · simp only [Indexed.map, Indexed.ok.injEq] at h
      subst h
      exact ⟨rfl, rfl⟩
    · simp [Indexed.map] at h
    · simp [Indexed.map] at h
  · rw [hctor]
    simp [State.getProportionalGain, State.assertedRead, State.indexAssert]
  · rw [hctor]
    simp [State.getDerivativeGain, State.assertedRead, State.indexAssert]
  · rw [hctor]
    refine ⟨
      { mDesiredJointPositions := [0], mDesiredJointPositionsBalance := [0], mKp := [1],
        mKd := [5], mSagitalCd := [0], mSagitalCv := [0], mCoronalCd := [0], mCoronalCv := [0],
        mTorque := [0] }, ?_, ?_, ?_, ?_, ?_⟩
    · simp only [State.setProportionalGain, State.assertedWrite, State.indexAssert]
      simp only [List.length_singleton, le_refl, Nat.cast_one, zero_le_one, and_self, if_true,
        Int.toNat_zero, zero_lt_one, Indexed.map, List.set_cons_zero]
    · simp [State.getProportionalGain, State.assertedRead, State.indexAssert]
    · simp [State.getProportionalGain, State.assertedRead, State.indexAssert]
    · simp [State.getDerivativeGain, State.assertedRead, State.indexAssert]
    · simp [State.getDerivativeGain, State.assertedRead, State.indexAssert]

/-- C30 (the code at the failing input): in a state constructed for `dof` coordinates the
range assertion of the ten indexed accessors accepts the index `dof`, which is not below `dof`,
and the access that follows is outside the vector. -/
theorem C30_range_assertion_accepts_index_dof (dof : Nat) (kp kd val : ℚ) :
    State.indexAssert (dof : Int) dof ∧ ¬ ((dof : Int) < (dof : Int)) ∧
    (State.ctor dof kp kd).setDesiredJointPosition dof val = Indexed.outOfBounds ∧
    (State.ctor dof kp kd).getDesiredJointPosition dof = Indexed.outOfBounds ∧
    (State.ctor dof kp kd).setProportionalGain dof val = Indexed.outOfBounds ∧
    (State.ctor dof kp kd).getProportionalGain dof = Indexed.outOfBounds ∧
    (State.ctor dof kp kd).setDerivativeGain dof val = Indexed.outOfBounds ∧
    (State.ctor dof kp kd).getDerivativeGain dof = Indexed.outOfBounds ∧
    (State.ctor dof kp kd).setFeedbackSagitalCOMDistance dof val = Indexed.outOfBounds ∧
    (State.ctor dof kp kd).setFeedbackSagitalCOMVelocity dof val = Indexed.outOfBounds ∧
    (State.ctor dof kp kd).setFeedbackCoronalCOMDistance dof val = Indexed.outOfBounds ∧
    (State.ctor dof kp kd).setFeedbackCoronalCOMVelocity dof val = Indexed.outOfBounds := by
  obtain ⟨l1, l2, l3, l4, l5, l6, l7⟩ := State.ctor_lengths dof kp kd
  refine ⟨⟨Int.natCast_nonneg dof, le_refl _⟩, lt_irrefl _, ?_, ?_, ?_, ?_, ?_, ?_, ?_, ?_, ?_,
    ?_⟩
  · unfold State.setDesiredJointPosition
    rw [l1, State.assertedWrite_at_size dof _ val (le_of_eq l1)]
    rfl
  · unfold State.getDesiredJointPosition
    rw [l1, State.assertedRead_at_size dof _ (le_of_eq l1)]
  · unfold State.setProportionalGain
    rw [l2, State.assertedWrite_at_size dof _ val (le_of_eq l3)]
    rfl
  · unfold State.getProportionalGain
    rw [l2, State.assertedRead_at_size dof _ (le_of_eq l2)]
  · unfold State.setDerivativeGain
    rw [l3, State.assertedWrite_at_size dof _ val (le_of_eq l3)]
    rfl
  · unfold State.getDerivativeGain
    rw [l3, State.assertedRead_at_size dof _ (le_of_eq l3)]
  · unfold State.setFeedbackSagitalCOMDistance
    rw [l4, State.assertedWrite_at_size dof _ val (le_of_eq l4)]
    rfl
  · unfold State.setFeedbackSagitalCOMVelocity
    rw [l5, State.assertedWrite_at_size dof _ val (le_of_eq l5)]
    rfl
  · unfold State.setFeedbackCoronalCOMDistance
    rw [l6, State.assertedWrite_at_size dof _ val (le_of_eq l6)]
    rfl
  · unfold State.setFeedbackCoronalCOMVelocity
    rw [l7, State.assertedWrite_at_size dof _ val (le_of_eq l7)]
    rfl

end WalkingState

/-! ## Frictionless and friction branches of `getInformation` -/

section Branches

variable {K : Type} [LinearOrderedField K]

/-- The penetration correction lies between 0 and the maximum error-reduction velocity. -/
theorem penetrationCorrection_bounds (depth allowance erp invTimeStep maxErv : K)
    (herp : 0 ≤ erp) (hdt : 0 ≤ invTimeStep) (herv : 0 ≤ maxErv) :
    0 ≤ penetrationCorrection depth allowance erp invTimeStep maxErv ∧
      penetrationCorrection depth allowance erp invTimeStep maxErv ≤ maxErv := by
  unfold penetrationCorrection
  by_cases h1 : depth - allowance < 0
  · simp only [h1, if_true]
    exact ⟨le_refl _, herv⟩
  · simp only [h1, if_false]
    have hpos : 0 ≤ (depth - allowance) * (erp * invTimeStep) :=
      mul_nonneg (not_lt.mp h1) (mul_nonneg herp hdt)
    by_cases h2 : (depth - allowance) * (erp * invTimeStep) > maxErv
    · simp only [h2, if_true]
      exact ⟨herv, le_refl _⟩
    · simp only [h2, if_false]
      exact ⟨hpos, not_lt.mp h2⟩

/-- The restitution step keeps a value between 0 and `m` between 0 and
`max(m, MAX_BOUNCE_VEL)`. -/
theorem restitution_bounds (isBounceOn : Bool) (e nrv beta m : K) (h0 : 0 ≤ beta)
    (hm : beta ≤ m) :
    0 ≤ restitution isBounceOn e nrv beta ∧
      restitution isBounceOn e nrv beta ≤ max m DART_MAX_BOUNCING_VELOCITY := by
  have h100 : (0 : K) ≤ DART_MAX_BOUNCING_VELOCITY := by
    unfold DART_MAX_BOUNCING_VELOCITY
    norm_num
  have hth : (0 : K) ≤ DART_BOUNCING_VELOCITY_THRESHOLD := by
    unfold DART_BOUNCING_VELOCITY_THRESHOLD
    norm_num
  unfold restitution
  by_cases hb : isBounceOn = true
  · simp only [hb, if_true]
    by_cases h1 : nrv * e > DART_BOUNCING_VELOCITY_THRESHOLD
    · simp only [h1, if_true]
      by_cases h2 : nrv * e > beta
      · simp only [h2, if_true]
        by_cases h3 : nrv * e > DART_MAX_BOUNCING_VELOCITY
        · simp only [h3, if_true]
          exact ⟨h100, le_max_right _ _⟩
        · simp only [h3, if_false]
          exact ⟨le_trans hth (le_of_lt h1), le_max_of_le_right (not_lt.mp h3)⟩
      · simp only [h2, if_false]
        exact ⟨h0, le_max_of_le_left hm⟩
    · simp only [h1, if_false]
      exact ⟨h0, le_max_of_le_left hm⟩
  · simp only [hb, if_false]
    exact ⟨h0, le_max_of_le_left hm⟩

/-- C29: with friction on, ERP, inverse time step and maximum error-reduction velocity not
negative, `getInformation` returns whenever its assertions hold, and for every contact the
amount added to the bias of the normal row (the bias afterwards minus the negative relative
velocity of `getRelVelocity`) lies between 0 and `max(MAX_ERV, MAX_BOUNCE_VEL)`, while the
biases of the two tangent rows are the negative relative velocities of `getRelVelocity`. -/
theorem C29_normal_bias_bounded_tangent_biases_kept (p : Params K) (c : ContactConstraint K)
    (wd : World K) (info : ConstraintInfo K) (hf : c.mIsFrictionOn = true)
    (herp : 0 ≤ p.mErrorReductionParameter) (hdt : 0 ≤ info.invTimeStep)
    (herv : 0 ≤ p.mMaxErrorReductionVelocity) (ha : getInformationAsserts c info) :
    ∃ info1, getInformation p c wd info = some info1 ∧
      ∀ (k : Nat) (ct : Contact K), c.mContacts[k]? = some ct →
        0 ≤ info1.b (3 * k) - getRelVelocity c wd info.b (3 * k) ∧
        info1.b (3 * k) - getRelVelocity c wd info.b (3 * k) ≤
          max p.mMaxErrorReductionVelocity DART_MAX_BOUNCING_VELOCITY ∧
        info1.b (3 * k + 1) = getRelVelocity c wd info.b (3 * k + 1) ∧
        info1.b (3 * k + 2) = getRelVelocity c wd info.b (3 * k + 2) := by
  obtain ⟨info1, h⟩ := getInformation_isSome p c wd info ha
  refine ⟨info1, h, ?_⟩
  intro k ct hk
  obtain ⟨-, -, -, ⟨hb0, hb1, hb2⟩, -⟩ :=
    getInformation_friction_rows p c wd info info1 hf h k ct hk
  obtain ⟨hp0, hp1⟩ := penetrationCorrection_bounds ct.penetrationDepth p.mErrorAllowance
    p.mErrorReductionParameter info.invTimeStep p.mMaxErrorReductionVelocity herp hdt herv
  obtain ⟨hr0, hr1⟩ := restitution_bounds c.mIsBounceOn c.mRestitutionCoeff
    (getRelVelocity c wd info.b (3 * k)) _ _ hp0 hp1
  rw [hb0, add_sub_cancel_left]
  exact ⟨hr0, hr1, hb1, hb2⟩

/-- The assertion of the frictionless branch holds for the buffers of the scene. -/
theorem exInfo_asserts_frictionless : getInformationAsserts exConstraintFrictionless exInfo := by
  simp [getInformationAsserts, assertsFrictionless, exConstraintFrictionless, exInfo]

/-- The bodies of the frictionless scene are at rest. -/
theorem exRelVelocity_frictionless (b : Nat → ℚ) :
    getRelVelocity exConstraintFrictionless exWorldFrictionless b 0 = 0 := by
  rw [getRelVelocity_row _ _ _ _ (by norm_num [exConstraintFrictionless])]
  norm_num [exConstraintFrictionless, exWorldFrictionless, exWorldOf, exBody, jacobianAt,
    Vector6d.dot, Vector3d.dot]

/-- C26 (the code at the failing input): the frictionless branch computes the penetration
correction from the constants `DART_ERROR_ALLOWANCE = 0` and `DART_MAX_ERV = 10`, whatever the
configured error allowance and maximum error-reduction velocity are. After
`setErrorAllowance(1/50)`, for the same contact of depth `1/100` between bodies at rest, without
restitution and with inverse time step 1000, `getInformation` adds `0` to the normal row in
friction mode and `1/10` in frictionless mode. -/
theorem C26_frictionless_bias_ignores_configured_parameters :
    (∀ (p : Params ℚ) (c : ContactConstraint ℚ) (ct : Contact ℚ) (invTimeStep nrv : ℚ),
      bouncingVelocityFrictionless p c ct invTimeStep nrv =
        restitution c.mIsBounceOn c.mRestitutionCoeff nrv
          (penetrationCorrection ct.penetrationDepth 0 p.mErrorReductionParameter
            invTimeStep 10)) ∧
    getErrorAllowance exParamsAllowance = 1 / 50 ∧
    ContactConstraint.ctor exFloatLib exWorldFriction exContact = some exConstraintFriction ∧
    ContactConstraint.ctor exFloatLib exWorldFrictionless exContact =
      some exConstraintFrictionless ∧
    getRelVelocity exConstraintFriction exWorldFriction exInfo.b 0 = 0 ∧
    getRelVelocity exConstraintFrictionless exWorldFrictionless exInfo.b 0 = 0 ∧
    ∃ infoF infoL,
      getInformation exParamsAllowance exConstraintFriction exWorldFriction exInfo =
        some infoF ∧
      getInformation exParamsAllowance exConstraintFrictionless exWorldFrictionless exInfo =
        some infoL ∧
      infoF.b 0 = 0 ∧ infoL.b 0 = 1 / 10 := by
  refine ⟨fun _ _ _ _ _ => rfl, rfl, exConstraintFriction_ctor, exConstraintFrictionless_ctor,
    exRelVelocity_friction _, exRelVelocity_frictionless _, ?_⟩
  obtain ⟨infoF, hF⟩ := getInformation_isSome exParamsAllowance exConstraintFriction
    exWorldFriction exInfo exInfo_asserts_friction
  obtain ⟨infoL, hL⟩ := getInformation_isSome exParamsAllowance exConstraintFrictionless
    exWorldFrictionless exInfo exInfo_asserts_frictionless
  obtain ⟨-, -, -, ⟨hb0, -, -⟩, -⟩ := getInformation_friction_rows exParamsAllowance
    exConstraintFriction exWorldFriction exInfo infoF rfl hF 0 exContact rfl
  obtain ⟨-, -, -, hl0, -, -⟩ := getInformation_frictionless_rows exParamsAllowance
    exConstraintFrictionless exWorldFrictionless exInfo infoL rfl hL 0 exContact rfl
  refine ⟨infoF, infoL, hF, hL, ?_, ?_⟩
  · rw [hb0, exRelVelocity_friction]
    norm_num [bouncingVelocityFriction, restitution, penetrationCorrection,
      exConstraintFriction, exContact, exParamsAllowance, setErrorAllowance, Params.default,
      exInfo, DART_ERP, DART_MAX_ERV, DART_ERROR_ALLOWANCE]
  · rw [hl0, exRelVelocity_frictionless]
    norm_num [bouncingVelocityFrictionless, restitution, penetrationCorrection,
      exConstraintFrictionless, exContact, exParamsAllowance, setErrorAllowance, Params.default,
      exInfo, DART_ERP, DART_MAX_ERV, DART_ERROR_ALLOWANCE]

end Branches

/-! ## Tangent columns and Jacobians of the constructor -/

section Jacobians

variable {K : Type} [LinearOrderedField K]

/-- The constructor leaves the first frictional direction at unit Z. -/
theorem ctor_direction (fl : FloatLib K) (wd : World K) (contact : Contact K)
    (c : ContactConstraint K) (h : ContactConstraint.ctor fl wd contact = some c) :
    c.mFirstFrictionalDirection = Vector3d.UnitZ := by
  unfold ContactConstraint.ctor at h
  by_cases hmu : min (wd.bodies contact.bodyNode1).mFrictionCoeff
      (wd.bodies contact.bodyNode2).mFrictionCoeff > DART_FRICTION_COEFF_THRESHOLD
  · simp only [hmu, if_true] at h
    split at h
    · simp only [Option.some.injEq] at h
      subst h
      rfl
    · exact absurd h (by simp)
  · simp only [hmu, if_false] at h
    simp only [Bool.false_eq_true, if_false, Option.some.injEq] at h
    subst h
    rfl

/-- C24: with an exact quarter-turn quaternion (`2 cos sin = 1`, `2 sin^2 = 1` at a quarter of
pi), for the default first frictional direction, unit Z, which the constructor leaves in place,
and every unit normal `n`: the first column of `getTangentBasisMatrixODE` is
`normalize(Z × n)` when `|Z × n| >= 1e-6` and `normalize(X × n)` otherwise, and the second
column, the rotation of the first by pi/2 about `n`, equals the cross product `n × t1`. -/
theorem C24_default_direction_tangent_columns (fl : FloatLib K) (n : Vector3d K)
    (hcs : 2 * fl.cosQuarterPi * fl.sinQuarterPi = 1)
    (hss : 2 * fl.sinQuarterPi * fl.sinQuarterPi = 1)
    (hnn : n.squaredNorm = 1) :
    (∀ (wd : World K) (contact : Contact K) (c : ContactConstraint K),
      ContactConstraint.ctor fl wd contact = some c →
        c.mFirstFrictionalDirection = Vector3d.UnitZ) ∧
    (DART_CONTACT_CONSTRAINT_EPSILON ≤ ((Vector3d.UnitZ : Vector3d K).cross n).norm fl →
      (getTangentBasisMatrixODE fl Vector3d.UnitZ n).1 =
        ((Vector3d.UnitZ : Vector3d K).cross n).normalized fl) ∧
    (¬ DART_CONTACT_CONSTRAINT_EPSILON ≤ ((Vector3d.UnitZ : Vector3d K).cross n).norm fl →
      (getTangentBasisMatrixODE fl Vector3d.UnitZ n).1 =
        ((Vector3d.UnitX : Vector3d K).cross n).normalized fl) ∧
    (getTangentBasisMatrixODE fl Vector3d.UnitZ n).2 =
      rotateHalfPi fl n (getTangentBasisMatrixODE fl Vector3d.UnitZ n).1 ∧
    (getTangentBasisMatrixODE fl Vector3d.UnitZ n).2 =
      n.cross (getTangentBasisMatrixODE fl Vector3d.UnitZ n).1 := by
  have hfar : DART_CONTACT_CONSTRAINT_EPSILON ≤ ((Vector3d.UnitZ : Vector3d K).cross n).norm fl →
      (getTangentBasisMatrixODE fl Vector3d.UnitZ n).1 =
        ((Vector3d.UnitZ : Vector3d K).cross n).normalized fl := by
    intro h
    rw [getTangentBasisMatrixODE_eq, if_neg (not_lt.mpr h)]
  have hnear : ¬ DART_CONTACT_CONSTRAINT_EPSILON ≤
        ((Vector3d.UnitZ : Vector3d K).cross n).norm fl →
      (getTangentBasisMatrixODE fl Vector3d.UnitZ n).1 =
        ((Vector3d.UnitX : Vector3d K).cross n).normalized fl := by
    intro h
    rw [getTangentBasisMatrixODE_eq, if_pos (not_le.mp h)]
  have horth : n.dot (getTangentBasisMatrixODE fl Vector3d.UnitZ n).1 = 0 := by
    by_cases h : DART_CONTACT_CONSTRAINT_EPSILON ≤
        ((Vector3d.UnitZ : Vector3d K).cross n).norm fl
    · rw [hfar h]
      exact Vector3d.dot_normalized fl n _ (Vector3d.dot_cross_self _ n)
    · rw [hnear h]
      exact Vector3d.dot_normalized fl n _ (Vector3d.dot_cross_self _ n)
  have hrot : (getTangentBasisMatrixODE fl Vector3d.UnitZ n).2 =
      rotateHalfPi fl n (getTangentBasisMatrixODE fl Vector3d.UnitZ n).1 := rfl
  refine ⟨fun wd contact c h => ctor_direction fl wd contact c h, hfar, hnear, hrot, ?_⟩
  rw [hrot]
  exact rotateHalfPi_eq_cross fl n _ hcs hss hnn horth

/-- A rotation undoes its transpose. -/
theorem Matrix3d.mulVec_transposeMulVec (m : Matrix3d K) (h : m.IsRotation) (v : Vector3d K) :
    m.mulVec (m.transposeMulVec v) = v := by
  obtain ⟨h00, h11, h22, h01, h02, h12, -⟩ := h
  simp only [Vector3d.dot] at h00 h11 h22 h01 h02 h12
  ext
  · simp only [Matrix3d.mulVec, Matrix3d.transposeMulVec, Vector3d.dot]
    linear_combination v.x * h00 + v.y * h01 + v.z * h02
  · simp only [Matrix3d.mulVec, Matrix3d.transposeMulVec, Vector3d.dot]
    linear_combination v.x * h01 + v.y * h11 + v.z * h12
  · simp only [Matrix3d.mulVec, Matrix3d.transposeMulVec, Vector3d.dot]
    linear_combination v.x * h02 + v.y * h12 + v.z * h22

/-- For every matrix, `M ((Mᵀ a) × (Mᵀ b)) = det(M) (a × b)`. -/
theorem Matrix3d.mulVec_cross_transpose (m : Matrix3d K) (a b : Vector3d K) :
    m.mulVec ((m.transposeMulVec a).cross (m.transposeMulVec b)) =
      Vector3d.smul m.det (a.cross b) := by
  ext
  · simp only [Matrix3d.mulVec, Matrix3d.transposeMulVec, Matrix3d.det, Vector3d.dot,
      Vector3d.cross, Vector3d.smul]
    ring
  · simp only [Matrix3d.mulVec, Matrix3d.transposeMulVec, Matrix3d.det, Vector3d.dot,
      Vector3d.cross, Vector3d.smul]
    ring
  · simp only [Matrix3d.mulVec, Matrix3d.transposeMulVec, Matrix3d.det, Vector3d.dot,
      Vector3d.cross, Vector3d.smul]
    ring

/-- The two Jacobians of a row, taken to the world frame: direction `u` and moment
`point × u` for body 1, their negatives for body 2. -/
theorem rowJacobians_world (wd : World K) (b1 b2 : Nat) (ct : Contact K) (u : Vector3d K)
    (h1 : (wd.bodies b1).mW.linear.IsRotation) (h2 : (wd.bodies b2).mW.linear.IsRotation) :
    worldWrench (wd.bodies b1).mW (rowJacobians wd b1 b2 ct u).1 = ⟨ct.point.cross u, u⟩ ∧
    worldWrench (wd.bodies b2).mW (rowJacobians wd b1 b2 ct u).2 =
      ⟨(ct.point.cross u).neg, u.neg⟩ := by
  have d1 := h1.2.2.2.2.2.2
  have d2 := h2.2.2.2.2.2.2
  constructor
  · unfold worldWrench rowJacobians Isometry3d.inverseMulPoint
    simp only
    rw [Matrix3d.mulVec_cross_transpose, Matrix3d.mulVec_transposeMulVec _ h1, d1]
    ext <;> simp only [Vector3d.add, Vector3d.smul, Vector3d.cross, Vector3d.sub] <;> ring
  · unfold worldWrench rowJacobians Isometry3d.inverseMulPoint
    simp only
    rw [Matrix3d.mulVec_cross_transpose, Matrix3d.mulVec_transposeMulVec _ h2, d2]
    ext <;>
      simp only [Vector3d.add, Vector3d.smul, Vector3d.cross, Vector3d.sub, Vector3d.neg] <;>
      ring

/-- With one and the same world transform for both bodies the second Jacobian of a row is the
negative of the first. -/
theorem rowJacobians_same_transform (wd : World K) (b1 b2 : Nat) (ct : Contact K)
    (u : Vector3d K) (h : (wd.bodies b1).mW = (wd.bodies b2).mW) :
    (rowJacobians wd b1 b2 ct u).2 =
      ⟨(rowJacobians wd b1 b2 ct u).1.head.neg, (rowJacobians wd b1 b2 ct u).1.tail.neg⟩ := by
  unfold rowJacobians
  simp only [h]
  ext <;>
    simp only [Vector3d.cross, Vector3d.neg, Matrix3d.transposeMulVec,
      Isometry3d.inverseMulPoint, Vector3d.sub] <;>
    ring

/-- The Jacobian arrays the constructor builds: the rows of the normal and, with friction on,
of the two tangent columns. -/
theorem ctor_jacobians (fl : FloatLib K) (wd : World K) (contact : Contact K)
    (c : ContactConstraint K) (h : ContactConstraint.ctor fl wd contact = some c) :
    (c.mIsFrictionOn = true →
      c.mJacobians1 =
        [(rowJacobians wd contact.bodyNode1 contact.bodyNode2 contact contact.normal).1,
          (rowJacobians wd contact.bodyNode1 contact.bodyNode2 contact
            (getTangentBasisMatrixODE fl Vector3d.UnitZ contact.normal).1).1,
          (rowJacobians wd contact.bodyNode1 contact.bodyNode2 contact
            (getTangentBasisMatrixODE fl Vector3d.UnitZ contact.normal).2).1] ∧
      c.mJacobians2 =
        [(rowJacobians wd contact.bodyNode1 contact.bodyNode2 contact contact.normal).2,
          (rowJacobians wd contact.bodyNode1 contact.bodyNode2 contact
            (getTangentBasisMatrixODE fl Vector3d.UnitZ contact.normal).1).2,
          (rowJacobians wd contact.bodyNode1 contact.bodyNode2 contact
            (getTangentBasisMatrixODE fl Vector3d.UnitZ contact.normal).2).2]) ∧
    (c.mIsFrictionOn = false →
      c.mJacobians1 =
        [(rowJacobians wd contact.bodyNode1 contact.bodyNode2 contact contact.normal).1] ∧
      c.mJacobians2 =
        [(rowJacobians wd contact.bodyNode1 contact.bodyNode2 contact contact.normal).2]) := by
  unfold ContactConstraint.ctor at h
  by_cases hmu : min (wd.bodies contact.bodyNode1).mFrictionCoeff
      (wd.bodies contact.bodyNode2).mFrictionCoeff > DART_FRICTION_COEFF_THRESHOLD
  · simp only [hmu, if_true, jacobiansFriction] at h
    by_cases ht : tangentBasisAsserts contact.normal
        (getTangentBasisMatrixODE fl Vector3d.UnitZ contact.normal)
    · simp only [ht, if_true, Option.some.injEq] at h
      subst h
      exact ⟨fun _ => ⟨rfl, rfl⟩, fun hf => absurd hf (by simp)⟩
    · simp only [ht, if_false] at h
      exact absurd h (by simp)
  · simp only [hmu, if_false] at h
    simp only [Bool.false_eq_true, if_false, Option.some.injEq] at h
    subst h
    exact ⟨fun hf => absurd hf (by simp), fun _ => ⟨rfl, rfl⟩⟩

/-- C27: for a constraint built by the constructor from a contact (point, normal) of two bodies
whose world transforms are rigid (rotation parts `R1`, `R2`), every row `i` below `mDim` has a
world direction `u` (the normal for row 0, the tangent columns for rows 1 and 2) such that
`R1 * J1.linear = u` and `R2 * J2.linear = -u`, and the moments about the world origin are
`point × u` for body 1 and `-(point × u)` for body 2; when both bodies have the same world
transform, `J2[i] = -J1[i]`. -/
theorem C27_jacobians_equal_and_opposite_in_world_frame (fl : FloatLib K) (wd : World K)
    (contact : Contact K) (c : ContactConstraint K)
    (hc : ContactConstraint.ctor fl wd contact = some c)
    (h1 : (wd.bodies contact.bodyNode1).mW.linear.IsRotation)
    (h2 : (wd.bodies contact.bodyNode2).mW.linear.IsRotation) :
    ∀ i, i < c.mDim → ∃ u : Vector3d K,
      (i = 0 → u = contact.normal) ∧
      (i = 1 → u = (getTangentBasisMatrixODE fl Vector3d.UnitZ contact.normal).1) ∧
      (i = 2 → u = (getTangentBasisMatrixODE fl Vector3d.UnitZ contact.normal).2) ∧
      (wd.bodies contact.bodyNode1).mW.linear.mulVec (jacobianAt c.mJacobians1 i).tail = u ∧
      (wd.bodies contact.bodyNode2).mW.linear.mulVec (jacobianAt c.mJacobians2 i).tail =
        u.neg ∧
      (worldWrench (wd.bodies contact.bodyNode1).mW (jacobianAt c.mJacobians1 i)).head =
        contact.point.cross u ∧
      (worldWrench (wd.bodies contact.bodyNode2).mW (jacobianAt c.mJacobians2 i)).head =
        (contact.point.cross u).neg ∧
      ((wd.bodies contact.bodyNode1).mW = (wd.bodies contact.bodyNode2).mW →
        jacobianAt c.mJacobians2 i =
          ⟨(jacobianAt c.mJacobians1 i).head.neg, (jacobianAt c.mJacobians1 i).tail.neg⟩) := by
  obtain ⟨-, -, -, -, -, -, -, hD⟩ := ctor_fields fl wd contact c hc
  obtain ⟨hon, hoff⟩ := ctor_jacobians fl wd contact c hc
  have row : ∀ (u : Vector3d K) (J1 J2 : Vector6d K),
      J1 = (rowJacobians wd contact.bodyNode1 contact.bodyNode2 contact u).1 →
      J2 = (rowJacobians wd contact.bodyNode1 contact.bodyNode2 contact u).2 →
      (wd.bodies contact.bodyNode1).mW.linear.mulVec J1.tail = u ∧
      (wd.bodies contact.bodyNode2).mW.linear.mulVec J2.tail = u.neg ∧
      (worldWrench (wd.bodies contact.bodyNode1).mW J1).head = contact.point.cross u ∧
      (worldWrench (wd.bodies contact.bodyNode2).mW J2).head = (contact.point.cross u).neg ∧
      ((wd.bodies contact.bodyNode1).mW = (wd.bodies contact.bodyNode2).mW →
        J2 = ⟨J1.head.neg, J1.tail.neg⟩) := by
    intro u J1 J2 e1 e2
    obtain ⟨w1, w2⟩ := rowJacobians_world wd contact.bodyNode1 contact.bodyNode2 contact u h1 h2
    rw [← e1] at w1
    rw [← e2] at w2
    refine ⟨congrArg Vector6d.tail w1, congrArg Vector6d.tail w2, congrArg Vector6d.head w1,
      congrArg Vector6d.head w2, ?_⟩
    intro hsame
    rw [e1, e2]
    exact rowJacobians_same_transform wd _ _ contact u hsame
  intro i hi
  by_cases hf : c.mIsFrictionOn = true
  · obtain ⟨e1, e2⟩ := hon hf
    rw [hD, if_pos hf] at hi
    have hcases : i = 0 ∨ i = 1 ∨ i = 2 := by omega
    rcases hcases with rfl | rfl | rfl
    · refine ⟨contact.normal, fun _ => rfl, fun e => absurd e (by decide),
        fun e => absurd e (by decide), ?_⟩
      exact row _ _ _ (by rw [e1]; rfl) (by rw [e2]; rfl)
    · refine ⟨(getTangentBasisMatrixODE fl Vector3d.UnitZ contact.normal).1,
        fun e => absurd e (by decide), fun _ => rfl, fun e => absurd e (by decide), ?_⟩
      exact row _ _ _ (by rw [e1]; rfl) (by rw [e2]; rfl)
    · refine ⟨(getTangentBasisMatrixODE fl Vector3d.UnitZ contact.normal).2,
        fun e => absurd e (by decide), fun e => absurd e (by decide), fun _ => rfl, ?_⟩
      exact row _ _ _ (by rw [e1]; rfl) (by rw [e2]; rfl)
  · have hf0 : c.mIsFrictionOn = false := by simpa using hf
    obtain ⟨e1, e2⟩ := hoff hf0
    rw [hD, if_neg hf] at hi
    have h0 : i = 0 := by omega
    subst h0
    refine ⟨contact.normal, fun _ => rfl, fun e => absurd e (by decide),
      fun e => absurd e (by decide), ?_⟩
    exact row _ _ _ (by rw [e1]; rfl) (by rw [e2]; rfl)

end Jacobians

/-! ## The size invariant of the union of skeletons -/

section UnionSize

variable {K : Type}

/-- The union sizes after a merge: the surviving root gains the size of the attached root. -/
theorem mergeRoot_size (wd : World K) (a b : Nat) (hab : a ≠ b) (t : Nat) :
    ((mergeRoot wd a b).skeletons t).mUnionSize =
      if t = b then (wd.skeletons b).mUnionSize + (wd.skeletons a).mUnionSize
      else (wd.skeletons t).mUnionSize := by
  unfold mergeRoot
  by_cases hta : t = a <;> by_cases htb : t = b <;>
    simp_all [Function.update_apply, Ne.symm hab]

/-- The roots after attaching the root `a` beneath the root `b`, in a forest. -/
theorem IsUnionRoot.link_iff {parent rank : Nat → Nat} {N : Nat}
    (hf : UnionForest parent rank N) {a b : Nat} (ha : parent a = a) (hb : parent b = b)
    (hab : a ≠ b) (t r1 : Nat) :
    IsUnionRoot (Function.update parent a b) t r1 ↔
      ∃ r, IsUnionRoot parent t r ∧ r1 = if r = a then b else r := by
  constructor
  · intro h
    obtain ⟨r, hr⟩ := hf.exists_root N t (by omega)
    exact ⟨r, hr, h.unique (IsUnionRoot.link ha hb hab hr)⟩
  · rintro ⟨r, hr, rfl⟩
    exact IsUnionRoot.link ha hb hab hr

/-- The root of a skeleton below `n` is below `n` when the links stay below `n`. -/
theorem IsUnionRoot.lt_of_closed {parent : Nat → Nat} {n : Nat}
    (hclosed : ∀ s, s < n → parent s < n) {s r : Nat} (h : IsUnionRoot parent s r)
    (hs : s < n) : r < n := by
  induction h with
  | root r _ => exact hs
  | step s r _ _ ih => exact ih (hclosed s hs)

/-- A world with the same roots and the same union sizes has the same size invariant and the
same total. -/
theorem UnionSizeInvariant.transfer (wd wd1 : World K) (n : Nat)
    (hroot : ∀ t r, IsUnionRoot (unionParent wd1) t r ↔ IsUnionRoot (unionParent wd) t r)
    (hsize : ∀ t, (wd1.skeletons t).mUnionSize = (wd.skeletons t).mUnionSize)
    (hinv : UnionSizeInvariant wd n) :
    UnionSizeInvariant wd1 n ∧ unionSizeTotal wd1 n = unionSizeTotal wd n := by
  have hself : ∀ r, unionParent wd1 r = r ↔ unionParent wd r = r := by
    intro r
    constructor
    · intro h
      exact ((hroot r r).mp (IsUnionRoot.root r h)).root_self
    · intro h
      exact ((hroot r r).mpr (IsUnionRoot.root r h)).root_self
  constructor
  · intro r hr hpr
    obtain ⟨M, hM, hc⟩ := hinv r hr ((hself r).mp hpr)
    refine ⟨M, fun s => ?_, ?_⟩
    · rw [hM, hroot]
    · rw [hsize]
      exact hc
  · unfold unionSizeTotal
    rw [Finset.filter_congr (fun r _ => hself r)]
    exact Finset.sum_congr rfl (fun t _ => hsize t)

/-- What `compressPath` returns and keeps, read off a returned value. -/
theorem compressPath_keeps (rank : Nat → Nat) (N fuel : Nat) (wd wd1 : World K) (s r : Nat)
    (hf : UnionForest (unionParent wd) rank N) (hfuel : N < fuel)
    (h : compressPath fuel wd s = some (wd1, r)) :
    IsUnionRoot (unionParent wd) s r ∧ wd1.bodies = wd.bodies ∧
    UnionForest (unionParent wd1) rank N ∧
    (∀ t r1, IsUnionRoot (unionParent wd1) t r1 ↔ IsUnionRoot (unionParent wd) t r1) ∧
    (∀ t, (wd1.skeletons t).mUnionSize = (wd.skeletons t).mUnionSize) := by
  obtain ⟨w, r0, hc, hr, hb, hf1, hpres, hsize, -⟩ :=
    compressPath_spec rank N fuel wd s hf (by omega)
  rw [hc] at h
  simp only [Option.some.injEq, Prod.mk.injEq] at h
  obtain ⟨e1, e2⟩ := h
  subst e1
  subst e2
  refine ⟨hr, hb, hf1, ?_, hsize⟩
  intro t r1
  constructor
  · intro h1
    obtain ⟨r2, hr2⟩ := hf.exists_root N t (by omega)
    rw [(hpres t r2 hr2).unique h1] at hr2
    exact hr2
  · exact hpres t r1

/-- A merge of two distinct roots below `n` keeps the size invariant and the total. -/
theorem mergeRoot_size_invariant (wd : World K) (rank : Nat → Nat) (N n a b : Nat)
    (hf : UnionForest (unionParent wd) rank N) (ha : unionParent wd a = a)
    (hb : unionParent wd b = b) (hab : a ≠ b) (han : a < n) (hbn : b < n)
    (hinv : UnionSizeInvariant wd n) :
    UnionSizeInvariant (mergeRoot wd a b) n ∧
      unionSizeTotal (mergeRoot wd a b) n = unionSizeTotal wd n := by
  obtain ⟨Ma, hMa, hca⟩ := hinv a han ha
  obtain ⟨Mb, hMb, hcb⟩ := hinv b hbn hb
  constructor
  · intro r hr hpr
    rw [unionParent_mergeRoot] at hpr ⊢
    have hra : r ≠ a := by
      intro e
      rw [e, Function.update_same] at hpr
      exact hab hpr.symm
    rw [Function.update_noteq hra] at hpr
    obtain ⟨Mr, hMr, hcr⟩ := hinv r hr hpr
    by_cases hrb : r = b
    · rw [hrb]
      refine ⟨Mb ∪ Ma, fun s => ?_, ?_⟩
      · rw [Finset.mem_union, hMb, hMa, IsUnionRoot.link_iff hf ha hb hab]
        constructor
        · rintro (⟨hs, h⟩ | ⟨hs, h⟩)
          · exact ⟨hs, b, h, by rw [if_neg (Ne.symm hab)]⟩
          · exact ⟨hs, a, h, by rw [if_pos rfl]⟩
        · rintro ⟨hs, r0, h, e⟩
          by_cases h0 : r0 = a
          · right
            rw [h0] at h
            exact ⟨hs, h⟩
          · left
            rw [if_neg h0] at e
            rw [← e] at h
            exact ⟨hs, h⟩
      · rw [mergeRoot_size wd a b hab, if_pos rfl, hcb, hca]
        refine (Finset.card_union_of_disjoint ?_).symm
        rw [Finset.disjoint_left]
        intro s hsb hsa
        exact hab (((hMa s).mp hsa).2.unique ((hMb s).mp hsb).2)
    · refine ⟨Mr, fun s => ?_, ?_⟩
      · rw [hMr, IsUnionRoot.link_iff hf ha hb hab]
        constructor
        · rintro ⟨hs, h⟩
          exact ⟨hs, r, h, by rw [if_neg hra]⟩
        · rintro ⟨hs, r0, h, e⟩
          by_cases h0 : r0 = a
          · rw [if_pos h0] at e
            exact absurd e hrb
          · rw [if_neg h0] at e
            rw [e]
            exact ⟨hs, h⟩
      · rw [mergeRoot_size wd a b hab, if_neg hrb]
        exact hcr
  · unfold unionSizeTotal
    have hfilter : (Finset.range n).filter (fun r => unionParent (mergeRoot wd a b) r = r) =
        ((Finset.range n).filter (fun r => unionParent wd r = r)).erase a := by
      ext r
      simp only [Finset.mem_filter, Finset.mem_erase, Finset.mem_range, unionParent_mergeRoot]
      constructor
      · rintro ⟨hr, hp⟩
        have hra : r ≠ a := by
          intro e
          rw [e, Function.update_same] at hp
          exact hab hp.symm
        rw [Function.update_noteq hra] at hp
        exact ⟨hra, hr, hp⟩
      · rintro ⟨hra, hr, hp⟩
        rw [Function.update_noteq hra]
        exact ⟨hr, hp⟩
    have ha_mem : a ∈ (Finset.range n).filter (fun r => unionParent wd r = r) :=
      Finset.mem_filter.mpr ⟨Finset.mem_range.mpr han, ha⟩
    have hb_mem : b ∈ ((Finset.range n).filter (fun r => unionParent wd r = r)).erase a :=
      Finset.mem_erase.mpr ⟨Ne.symm hab, Finset.mem_filter.mpr ⟨Finset.mem_range.mpr hbn, hb⟩⟩
    have hsum : Finset.sum (((Finset.range n).filter (fun r => unionParent wd r = r)).erase a)
          (fun r => ((mergeRoot wd a b).skeletons r).mUnionSize) =
        Finset.sum (((Finset.range n).filter (fun r => unionParent wd r = r)).erase a)
          (fun r => (wd.skeletons r).mUnionSize +
            (if r = b then (wd.skeletons a).mUnionSize else 0)) := by
      refine Finset.sum_congr rfl (fun r _ => ?_)
      rw [mergeRoot_size wd a b hab]
      by_cases hrb : r = b
      · rw [if_pos hrb, if_pos hrb, hrb]
      · rw [if_neg hrb, if_neg hrb, Nat.add_zero]
    rw [hfilter, hsum, Finset.sum_add_distrib, Finset.sum_ite_eq', if_pos hb_mem, Nat.add_comm]
    exact Finset.add_sum_erase _ (fun r => (wd.skeletons r).mUnionSize) ha_mem

/-- C28: in a forest of skeletons over `0, ..., n - 1` whose links stay below `n`, with fuel
above the height of the forest: if every root's `mUnionSize` is the number of skeletons of its
set, `uniteSkeletons` returns, the same holds afterwards, and the total of the sizes over the
roots is unchanged; when the roots `r1`, `r2` of the two skeletons differ (and both bodies are
impulse-responsible) the surviving root has the sum of the two former sizes: `r1` is attached
beneath `r2` when its size is strictly smaller, and otherwise (also on equal sizes) `r2` is
attached beneath `r1`. -/
theorem C28_unite_skeletons_preserves_size_invariant (c : ContactConstraint K) (wd : World K)
    (rank : Nat → Nat) (N fuel n : Nat)
    (hforest : UnionForest (unionParent wd) rank N) (hfuel : N < fuel)
    (hclosed : ∀ s, s < n → unionParent wd s < n)
    (hs1 : (wd.bodies c.mBodyNode1).mSkeleton < n)
    (hs2 : (wd.bodies c.mBodyNode2).mSkeleton < n)
    (hinv : UnionSizeInvariant wd n) :
    ∃ wd1, uniteSkeletons fuel c wd = some wd1 ∧ UnionSizeInvariant wd1 n ∧
      unionSizeTotal wd1 n = unionSizeTotal wd n ∧
      ∀ r1 r2, (wd.bodies c.mBodyNode1).impulseReponsible = true →
        (wd.bodies c.mBodyNode2).impulseReponsible = true →
        IsUnionRoot (unionParent wd) (wd.bodies c.mBodyNode1).mSkeleton r1 →
        IsUnionRoot (unionParent wd) (wd.bodies c.mBodyNode2).mSkeleton r2 → r1 ≠ r2 →
        ((wd.skeletons r1).mUnionSize < (wd.skeletons r2).mUnionSize →
          unionParent wd1 r1 = r2 ∧ unionParent wd1 r2 = r2 ∧
          (wd1.skeletons r2).mUnionSize =
            (wd.skeletons r1).mUnionSize + (wd.skeletons r2).mUnionSize) ∧
        (¬ (wd.skeletons r1).mUnionSize < (wd.skeletons r2).mUnionSize →
          unionParent wd1 r2 = r1 ∧ unionParent wd1 r1 = r1 ∧
          (wd1.skeletons r1).mUnionSize =
            (wd.skeletons r1).mUnionSize + (wd.skeletons r2).mUnionSize) := by
  by_cases hresp : (wd.bodies c.mBodyNode1).impulseReponsible = false ∨
      (wd.bodies c.mBodyNode2).impulseReponsible = false
  · refine ⟨wd, ?_, hinv, rfl, ?_⟩
    · unfold uniteSkeletons
      rw [if_pos hresp]
    · intro r1 r2 h1 h2
      rcases hresp with h | h
      · rw [h1] at h
        exact absurd h (by simp)
      · rw [h2] at h
        exact absurd h (by simp)
  by_cases hsame : (wd.bodies c.mBodyNode1).mSkeleton = (wd.bodies c.mBodyNode2).mSkeleton
  · refine ⟨wd, ?_, hinv, rfl, ?_⟩
    · unfold uniteSkeletons
      rw [if_neg hresp, if_pos hsame]
    · intro r1 r2 _ _ hr1 hr2 hne
      rw [hsame] at hr1
      exact absurd (hr1.unique hr2) hne
  obtain ⟨wa, ra, hc1, -⟩ :=
    compressPath_spec rank N fuel wd (wd.bodies c.mBodyNode1).mSkeleton hforest (by omega)
  obtain ⟨hra, hba, hfa, hia, hsa⟩ := compressPath_keeps rank N fuel wd wa _ ra hforest hfuel hc1
  obtain ⟨wb, rb, hc2, -⟩ :=
    compressPath_spec rank N fuel wa (wa.bodies c.mBodyNode2).mSkeleton hfa (by omega)
  obtain ⟨hrb, -, hfb, hib, hsb⟩ := compressPath_keeps rank N fuel wa wb _ rb hfa hfuel hc2
  rw [hba] at hrb
  have hrb0 : IsUnionRoot (unionParent wd) (wd.bodies c.mBodyNode2).mSkeleton rb :=
    (hia _ _).mp hrb
  have hiab : ∀ t r, IsUnionRoot (unionParent wb) t r ↔ IsUnionRoot (unionParent wd) t r :=
    fun t r => (hib t r).trans (hia t r)
  have hsab : ∀ t, (wb.skeletons t).mUnionSize = (wd.skeletons t).mUnionSize :=
    fun t => (hsb t).trans (hsa t)
  obtain ⟨hinvb, htotb⟩ := UnionSizeInvariant.transfer wd wb n hiab hsab hinv
  have hran : ra < n := hra.lt_of_closed hclosed hs1
  have hrbn : rb < n := hrb0.lt_of_closed hclosed hs2
  have roota : unionParent wb ra = ra := ((hiab _ _).mpr hra).root_self
  have rootb : unionParent wb rb = rb := ((hiab _ _).mpr hrb0).root_self
  have hunite : uniteSkeletons fuel c wd =
      (if ra = rb then some wb
        else if (wb.skeletons ra).mUnionSize < (wb.skeletons rb).mUnionSize then
          some (mergeRoot wb ra rb)
        else some (mergeRoot wb rb ra)) := by
    unfold uniteSkeletons
    simp only [hresp, hsame, if_false, hc1, hc2]
  by_cases heq : ra = rb
  · refine ⟨wb, ?_, hinvb, htotb, ?_⟩
    · rw [hunite, if_pos heq]
    · intro r1 r2 _ _ hr1 hr2 hne
      rw [hr1.unique hra, hr2.unique hrb0] at hne
      exact absurd heq hne
  by_cases hlt : (wb.skeletons ra).mUnionSize < (wb.skeletons rb).mUnionSize
  · obtain ⟨hinvm, htotm⟩ :=
      mergeRoot_size_invariant wb rank N n ra rb hfb roota rootb heq hran hrbn hinvb
    refine ⟨mergeRoot wb ra rb, ?_, hinvm, htotm.trans htotb, ?_⟩
    · rw [hunite, if_neg heq, if_pos hlt]
    · intro r1 r2 _ _ hr1 hr2 _
      rw [hr1.unique hra, hr2.unique hrb0]
      rw [hsab, hsab] at hlt
      refine ⟨fun _ => ⟨?_, ?_, ?_⟩, fun h => absurd hlt h⟩
      · rw [unionParent_mergeRoot, Function.update_same]
      · rw [unionParent_mergeRoot, Function.update_noteq (Ne.symm heq)]
        exact rootb
      · rw [mergeRoot_size wb ra rb heq, if_pos rfl, hsab, hsab, Nat.add_comm]
  · obtain ⟨hinvm, htotm⟩ :=
      mergeRoot_size_invariant wb rank N n rb ra hfb rootb roota (Ne.symm heq) hrbn hran hinvb
    refine ⟨mergeRoot wb rb ra, ?_, hinvm, htotm.trans htotb, ?_⟩
    · rw [hunite, if_neg heq, if_neg hlt]
    · intro r1 r2 _ _ hr1 hr2 _
      rw [hr1.unique hra, hr2.unique hrb0]
      rw [hsab, hsab] at hlt
      refine ⟨fun h => absurd h hlt, fun _ => ⟨?_, ?_, ?_⟩⟩
      · rw [unionParent_mergeRoot, Function.update_same]
      · rw [unionParent_mergeRoot, Function.update_noteq heq]
        exact roota
      · rw [mergeRoot_size wb rb ra (Ne.symm heq), if_pos rfl, hsab, hsab]

end UnionSize

/-! ## Witnesses on the concrete scene, joints and skeletons -/

section LateScene

/-- C22, witness: the second DOF of `exJoint` has the limits `[-10, 10]`; the rest position
`11` is stored and the warning is written. -/
theorem C22_witness :
    (0 : Int) ≤ 1 ∧ (1 : Int) < (exJoint.mGenCoords.length : Int) ∧
    exJoint.mRestPosition.length = exJoint.mGenCoords.length ∧
    ∃ j1, exJoint.setRestPosition 1 11 = some (j1, true) ∧
      j1.getRestPosition 1 = some 11 ∧
      j1.getRestPosition 0 = exJoint.getRestPosition 0 := by
  have h1 : (1 : Int) < (exJoint.mGenCoords.length : Int) := by decide
  obtain ⟨j1, warned, g, h, hg, hget, hoth, -, -, -, hw⟩ :=
    C22_set_rest_position_stores_and_warns exJoint 1 11 (by decide) h1 rfl
  have hg2 : g = ⟨2, 5, -10, 10⟩ := by
    have e : exJoint.mGenCoords[(1 : Int).toNat]? = some ⟨2, 5, -10, 10⟩ := rfl
    rw [e] at hg
    exact (Option.some.inj hg).symm
  have hwarned : warned = true := by
    rw [hw, hg2]
    right
    norm_num
  rw [hwarned] at h
  exact ⟨by decide, h1, rfl, j1, h, hget, hoth 0 (by decide)⟩

/-- C24, witness: over the reals, with the real square root and `cos = sin = sqrt 2 / 2`, the
unit normal `(0, 1, 0)`. -/
theorem C24_witness :
    (fun (fl : FloatLib ℝ) (n : Vector3d ℝ) =>
      2 * fl.cosQuarterPi * fl.sinQuarterPi = 1 ∧
      2 * fl.sinQuarterPi * fl.sinQuarterPi = 1 ∧
      n.squaredNorm = 1 ∧
      (getTangentBasisMatrixODE fl Vector3d.UnitZ n).2 =
        n.cross (getTangentBasisMatrixODE fl Vector3d.UnitZ n).1)
      { sqrt := Real.sqrt, cosQuarterPi := Real.sqrt 2 / 2, sinQuarterPi := Real.sqrt 2 / 2 }
      ⟨0, 1, 0⟩ := by
  have h2 : Real.sqrt 2 * Real.sqrt 2 = 2 := Real.mul_self_sqrt (by norm_num)
  have hcs : 2 * (Real.sqrt 2 / 2) * (Real.sqrt 2 / 2) = 1 := by linear_combination (1 / 2) * h2
  have hnn : (⟨0, 1, 0⟩ : Vector3d ℝ).squaredNorm = 1 := by
    norm_num [Vector3d.squaredNorm, Vector3d.dot]
  exact ⟨hcs, hcs, hnn,
    (C24_default_direction_tangent_columns
      { sqrt := Real.sqrt, cosQuarterPi := Real.sqrt 2 / 2, sinQuarterPi := Real.sqrt 2 / 2 }
      ⟨0, 1, 0⟩ hcs hcs hnn).2.2.2.2⟩

/-- The bodies of the frictional scene have the identity as world transform, a rotation. -/
theorem exWorldFriction_rotation (i : Nat) :
    (exWorldFriction.bodies i).mW.linear.IsRotation := by
  by_cases h : i = 0 <;>
    norm_num [h, Matrix3d.IsRotation, Matrix3d.det, exWorldFriction, exWorldOf, exBody,
      exIdentity, Vector3d.dot, Vector3d.cross]

/-- C27, witness: the frictional scene, whose two bodies have the identity as world transform;
the normal row. -/
theorem C27_witness :
    ContactConstraint.ctor exFloatLib exWorldFriction exContact = some exConstraintFriction ∧
    (exWorldFriction.bodies exContact.bodyNode1).mW.linear.IsRotation ∧
    (exWorldFriction.bodies exContact.bodyNode2).mW.linear.IsRotation ∧
    ∃ u : Vector3d ℚ, u = exContact.normal ∧
      (exWorldFriction.bodies exContact.bodyNode1).mW.linear.mulVec
        (jacobianAt exConstraintFriction.mJacobians1 0).tail = u ∧
      (exWorldFriction.bodies exContact.bodyNode2).mW.linear.mulVec
        (jacobianAt exConstraintFriction.mJacobians2 0).tail = u.neg ∧
      jacobianAt exConstraintFriction.mJacobians2 0 =
        ⟨(jacobianAt exConstraintFriction.mJacobians1 0).head.neg,
          (jacobianAt exConstraintFriction.mJacobians1 0).tail.neg⟩ := by
  obtain ⟨u, hu, -, -, a1, a2, -, -, hsame⟩ :=
    C27_jacobians_equal_and_opposite_in_world_frame exFloatLib exWorldFriction exContact
      exConstraintFriction exConstraintFriction_ctor (exWorldFriction_rotation _)
      (exWorldFriction_rotation _) 0 (by decide)
  refine ⟨exConstraintFriction_ctor, exWorldFriction_rotation _, exWorldFriction_rotation _, u,
    hu rfl, a1, a2, hsame ?_⟩
  simp [exWorldFriction, exWorldOf, exBody, exContact]

/-- Every skeleton of the frictional scene is its own root. -/
theorem exWorldFriction_parent (s : Nat) : unionParent exWorldFriction s = s := rfl

/-- C28, witness: the two skeletons of the frictional scene, each its own root of size one;
after the call skeleton 1 hangs beneath skeleton 0, whose size is 2. -/
theorem C28_witness :
    UnionForest (unionParent exWorldFriction) (fun _ => 0) 0 ∧ 0 < 2 ∧
    (∀ s, s < 2 → unionParent exWorldFriction s < 2) ∧
    (exWorldFriction.bodies exConstraintFriction.mBodyNode1).mSkeleton < 2 ∧
    (exWorldFriction.bodies exConstraintFriction.mBodyNode2).mSkeleton < 2 ∧
    UnionSizeInvariant exWorldFriction 2 ∧
    ∃ wd1, uniteSkeletons 2 exConstraintFriction exWorldFriction = some wd1 ∧
      UnionSizeInvariant wd1 2 ∧
      unionSizeTotal wd1 2 = unionSizeTotal exWorldFriction 2 ∧
      unionParent wd1 1 = 0 ∧ unionParent wd1 0 = 0 ∧ (wd1.skeletons 0).mUnionSize = 1 + 1 := by
  have hforest : UnionForest (unionParent exWorldFriction) (fun _ => 0) 0 := by
    intro s
    simp [exWorldFriction_parent]
  have hclosed : ∀ s, s < 2 → unionParent exWorldFriction s < 2 := by
    intro s hs
    rw [exWorldFriction_parent]
    exact hs
  have hs1 : (exWorldFriction.bodies exConstraintFriction.mBodyNode1).mSkeleton < 2 := by
    simp [exWorldFriction, exWorldOf, exBody, exConstraintFriction]
  have hs2 : (exWorldFriction.bodies exConstraintFriction.mBodyNode2).mSkeleton < 2 := by
    simp [exWorldFriction, exWorldOf, exBody, exConstraintFriction]
  have hinv : UnionSizeInvariant exWorldFriction 2 := by
    intro r hr _
    refine ⟨{r}, fun s => ?_, ?_⟩
    · rw [Finset.mem_singleton]
      constructor
      · intro e
        rw [e]
        exact ⟨hr, IsUnionRoot.root r rfl⟩
      · rintro ⟨-, h⟩
        exact (IsUnionRoot.root s rfl).unique h
    · rw [Finset.card_singleton]
      rfl
  obtain ⟨wd1, hu, hi, ht, hm⟩ :=
    C28_unite_skeletons_preserves_size_invariant exConstraintFriction exWorldFriction
      (fun _ => 0) 0 2 2 hforest (by decide) hclosed hs1 hs2 hinv
  have hr1 : IsUnionRoot (unionParent exWorldFriction)
      (exWorldFriction.bodies exConstraintFriction.mBodyNode1).mSkeleton 0 := by
    have e : (exWorldFriction.bodies exConstraintFriction.mBodyNode1).mSkeleton = 0 := by
      simp [exWorldFriction, exWorldOf, exBody, exConstraintFriction]
    rw [e]
    exact IsUnionRoot.root 0 rfl
  have hr2 : IsUnionRoot (unionParent exWorldFriction)
      (exWorldFriction.bodies exConstraintFriction.mBodyNode2).mSkeleton 1 := by
    have e : (exWorldFriction.bodies exConstraintFriction.mBodyNode2).mSkeleton = 1 := by
      simp [exWorldFriction, exWorldOf, exBody, exConstraintFriction]
    rw [e]
    exact IsUnionRoot.root 1 rfl
  have hb1 : (exWorldFriction.bodies exConstraintFriction.mBodyNode1).impulseReponsible = true := by
    simp [exWorldFriction, exWorldOf, exBody, exConstraintFriction]
  have hb2 : (exWorldFriction.bodies exConstraintFriction.mBodyNode2).impulseReponsible = true := by
    simp [exWorldFriction, exWorldOf, exBody, exConstraintFriction]
  have hnl : ¬ (exWorldFriction.skeletons 0).mUnionSize < (exWorldFriction.skeletons 1).mUnionSize :=
    lt_irrefl 1
  obtain ⟨m1, m2, m3⟩ := (hm 0 1 hb1 hb2 hr1 hr2 (by decide)).2 hnl
  exact ⟨hforest, by decide, hclosed, hs1, hs2, hinv, wd1, hu, hi, ht, m1, m2, m3⟩

/-- C29, witness: the default parameters in the frictional scene with bounce. -/
theorem C29_witness :
    exConstraintBounce.mIsFrictionOn = true ∧
    0 ≤ (Params.default : Params ℚ).mErrorReductionParameter ∧
    0 ≤ exInfo.invTimeStep ∧
    0 ≤ (Params.default : Params ℚ).mMaxErrorReductionVelocity ∧
    getInformationAsserts exConstraintBounce exInfo ∧
    ∃ info1, getInformation Params.default exConstraintBounce exWorldBounce exInfo
        = some info1 ∧
      ∀ (k : Nat) (ct : Contact ℚ), exConstraintBounce.mContacts[k]? = some ct →
        0 ≤ info1.b (3 * k) - getRelVelocity exConstraintBounce exWorldBounce exInfo.b (3 * k) ∧
        info1.b (3 * k) - getRelVelocity exConstraintBounce exWorldBounce exInfo.b (3 * k) ≤
          max (Params.default : Params ℚ).mMaxErrorReductionVelocity
            DART_MAX_BOUNCING_VELOCITY ∧
        info1.b (3 * k + 1) =
          getRelVelocity exConstraintBounce exWorldBounce exInfo.b (3 * k + 1) ∧
        info1.b (3 * k + 2) =
          getRelVelocity exConstraintBounce exWorldBounce exInfo.b (3 * k + 2) :=
  ⟨rfl, by norm_num [Params.default, DART_ERP], by norm_num [exInfo],
    by norm_num [Params.default, DART_MAX_ERV], exInfo_asserts_bounce,
    C29_normal_bias_bounded_tangent_biases_kept Params.default exConstraintBounce
      exWorldBounce exInfo rfl (by norm_num [Params.default, DART_ERP])
      (by norm_num [exInfo]) (by norm_num [Params.default, DART_MAX_ERV])
      exInfo_asserts_bounce⟩

end LateScene

end Dart
